import Mathlib

/-!
# Authoritative game server (`server.js`): shallow embedding

The server keeps two JavaScript objects, `players` and `serverBullets`, a
counter `nextBulletId`, and the pending `setTimeout` respawn tasks.  Every
socket.io handler runs to completion on the single event-loop thread, so a
handler is a function from the state before to the state after together with
the events it emitted.

Modelling conventions.
* A payload is a `JSVal`, the JSON data socket.io hands to a handler.
* A JavaScript object used as a map is the list of its properties in
  insertion order; `get?`, `set` and `delete` are property read, property
  assignment and the `delete` operator.
* `Date.now()` is an argument of the handlers that read the clock.  The
  clock and the bullet counter are integers far below `2 ^ 53`, where
  JavaScript numbers are exact, so they are `Int` and `Nat` here.
* An uncaught `TypeError` inside a handler is the outcome `threw`.  Nothing
  in `server.js` catches it, so it ends the Node process: a run goes on only
  through handlers that return.
* The pending `setTimeout` closures are part of the state.  They all have the
  same delay, so they fire in the order they were scheduled.
-/

namespace GameServer

/-- JSON data as received in a socket.io payload.  A number is one of the
finite values JSON can carry; the server only copies payload numbers, so they
are kept as rationals. -/
inductive JSVal where
  | undefined : JSVal
  | null : JSVal
  | bool (b : Bool) : JSVal
  | num (n : ℚ) : JSVal
  | str (s : String) : JSVal
  | arr (items : List JSVal) : JSVal
  | obj (fields : List (String × JSVal)) : JSVal

/-- Property read on an object used as a map: the first property named `k`. -/
def get? {α : Type} : List (String × α) → String → Option α
  | [], _ => none
  | (k', v) :: rest, k => if k' = k then some v else get? rest k

/-- Property assignment `o[k] = v`: an existing property keeps its place, a
new one is appended. -/
def set {α : Type} : List (String × α) → String → α → List (String × α)
  | [], k, v => [(k, v)]
  | (k', v') :: rest, k, v =>
    if k' = k then (k, v) :: rest else (k', v') :: set rest k v

/-- The `delete o[k]` operator. -/
def delete {α : Type} (o : List (String × α)) (k : String) : List (String × α) :=
  o.filter (fun e => decide (e.1 ≠ k))

/-- The keys of an object, in enumeration order. -/
def keys {α : Type} (o : List (String × α)) : List String :=
  o.map Prod.fst

/-- The only exception the handlers can raise. -/
inductive JSError where
  | typeError : JSError
  deriving DecidableEq, Repr

/-- Property read `v.k` for the property names the server uses (`position`,
`rotation`, `velocity`, `x`, `y`, `z`): it throws on `undefined` and `null`,
reads the field of an object (`undefined` when absent), and is `undefined` on
booleans, numbers, strings and arrays, which have no such property. -/
def JSVal.getProp : JSVal → String → Except JSError JSVal
  | .undefined, _ => .error .typeError
  | .null, _ => .error .typeError
  | .obj fields, k => .ok ((get? fields k).getD .undefined)
  | _, _ => .ok .undefined

/-- The call `v.toFixed(1)`: only a number has the method; on anything else
the call throws (`undefined`/`null` have no properties, the others no callable
`toFixed`).  The resulting string is only logged. -/
def JSVal.toFixed : JSVal → Except JSError Unit
  | .num _ => .ok ()
  | _ => .error .typeError

/-- The optional read `v?.k`, which never throws. -/
def JSVal.getPropOpt : JSVal → String → JSVal
  | .obj fields, k => (get? fields k).getD .undefined
  | _, _ => .undefined

/-- JavaScript truthiness of a JSON value. -/
def JSVal.truthy : JSVal → Bool
  | .undefined => false
  | .null => false
  | .bool b => b
  | .num n => decide (n ≠ 0)
  | .str s => decide (s ≠ "")
  | .arr _ => true
  | .obj _ => true

mutual
/-- Whether the conversion of a JSON value to a string, as a template literal
performs it, raises a `TypeError`.  A primitive always converts.  An object
converts through the inherited `Object.prototype.toString` unless it has an
own property `toString`: a JSON value is never callable, so that method is
skipped, the inherited `valueOf` returns the object itself, and the conversion
throws.  An array converts through `join`, which converts every element other
than `undefined` and `null`. -/
def JSVal.toStringThrows : JSVal → Bool
  | .arr items => JSVal.joinThrows items
  | .obj fields => (fields.map Prod.fst).contains "toString"
  | _ => false
/-- Whether `Array.prototype.join` throws on these elements. -/
def JSVal.joinThrows : List JSVal → Bool
  | [] => false
  | item :: items => item.toStringThrows || JSVal.joinThrows items
end

/-- The argument of the `console.log` call in the `player_collision` handler:
the template literal converts `collisionData?.type || "desconhecido"` to a
string, and throws when that conversion does. -/
def collisionLog (collisionData : JSVal) : Except JSError Unit :=
  let type := collisionData.getPropOpt "type"
  if type.truthy && type.toStringThrows then .error .typeError else .ok ()

/-- Spawn position `INITIAL_POS = { x: 0, y: 15, z: 0 }`. -/
def INITIAL_POS : JSVal :=
  .obj [("x", .num 0), ("y", .num 15), ("z", .num 0)]

/-- Spawn rotation `INITIAL_ROT = { x: 0, y: 0, z: 0, w: 1 }`. -/
def INITIAL_ROT : JSVal :=
  .obj [("x", .num 0), ("y", .num 0), ("z", .num 0), ("w", .num 1)]

/-- A record of `players`: `{ id, position, rotation, isDead }`. -/
structure Player where
  id : String
  position : JSVal
  rotation : JSVal
  isDead : Bool

/-- A record of `serverBullets`:
`{ id, ownerId, position, velocity, startTime, life }`. -/
structure Bullet where
  id : String
  ownerId : String
  position : JSVal
  velocity : JSVal
  startTime : Int
  life : Int

/-- A pending `setTimeout` task: the respawn closure over `socket` and its
delay in milliseconds. -/
structure RespawnTask where
  socketId : String
  delay : Nat
  deriving DecidableEq, Repr

/-- The server state: the three module variables and the pending timers (in
the order they were scheduled). -/
structure ServerState where
  players : List (String × Player)
  serverBullets : List (String × Bullet)
  nextBulletId : Nat
  timers : List RespawnTask

/-- The state at start-up: `players = {}`, `serverBullets = {}`,
`nextBulletId = 0`, no timer. -/
def ServerState.initial : ServerState :=
  ⟨[], [], 0, []⟩

/-- The addressees of an emit: `io.emit` (every connection), `socket.emit`
(that connection) and `socket.broadcast.emit` (every connection but that one). -/
inductive Target where
  | all : Target
  | only (socketId : String) : Target
  | others (socketId : String) : Target
  deriving DecidableEq, Repr

/-- Whether the connection `c` is an addressee. -/
def Target.receives : Target → String → Bool
  | .all, _ => true
  | .only s, c => decide (c = s)
  | .others s, c => decide (c ≠ s)

/-- The events the server emits, with their payloads. -/
inductive Event where
  | init_self (id : String) (players : List (String × Player)) : Event
  | player_joined (p : Player) : Event
  | player_left (id : String) : Event
  | bullet_fired (b : Bullet) : Event
  | bullet_removed (id : String) : Event
  | player_exploded (playerId : String) (position : JSVal) : Event
  | player_reset (p : Player) : Event
  | player_respawned (p : Player) : Event
  | game_state_update (players : List (String × Player)) : Event

/-- One emitted message. -/
structure Emit where
  target : Target
  event : Event

/-- The result of running a handler: it returned (`done`) or raised an
uncaught exception (`threw`); either way with the state and the emitted
messages at that point. -/
inductive Outcome where
  | done (s : ServerState) (out : List Emit) : Outcome
  | threw (s : ServerState) (out : List Emit) : Outcome

/-- The argument of the `console.log` call in the `player_update` handler: the
template literal evaluates `data.position.x.toFixed(1)`, then the same for
`y` and `z`, and throws when one of them does. -/
def updateLog (data : JSVal) : Except JSError Unit :=
  match data.getProp "position" with
  | .error e => .error e
  | .ok px =>
    match px.getProp "x" with
    | .error e => .error e
    | .ok x =>
      match x.toFixed with
      | .error e => .error e
      | .ok _ =>
        match data.getProp "position" with
        | .error e => .error e
        | .ok py =>
          match py.getProp "y" with
          | .error e => .error e
          | .ok y =>
            match y.toFixed with
            | .error e => .error e
            | .ok _ =>
              match data.getProp "position" with
              | .error e => .error e
              | .ok pz =>
                match pz.getProp "z" with
                | .error e => .error e
                | .ok z => z.toFixed

/-- Handler `socket.on("player_update", (data) => ...)` of the connection
`socketId`. -/
def player_update (socketId : String) (data : JSVal) (s : ServerState) : Outcome :=
  match get? s.players socketId with
  | none => .done s []
  | some p =>
    if p.isDead then .done s []
    else
      match updateLog data with
      | .error _ => .threw s []
      | .ok _ =>
        match data.getProp "position" with
        | .error _ => .threw s []
        | .ok position =>
          let p1 : Player := { p with position := position }
          let s1 : ServerState := { s with players := set s.players socketId p1 }
          match data.getProp "rotation" with
          | .error _ => .threw s1 []
          | .ok rotation =>
            let p2 : Player := { p1 with rotation := rotation }
            .done { s1 with players := set s1.players socketId p2 } []

/-- The template literal with the bullet counter: the string "bullet_" followed
by the decimal digits of `n`. -/
def bulletKey (n : Nat) : String :=
  "bullet_" ++ Nat.repr n

/-- Handler `socket.on("player_shoot", (bulletData) => ...)`; `now` is the
value of `Date.now()`.  The counter is post-incremented before the record is
built. -/
def player_shoot (socketId : String) (bulletData : JSVal) (now : Int) (s : ServerState) :
    Outcome :=
  match get? s.players socketId with
  | none => .done s []
  | some p =>
    if p.isDead then .done s []
    else
      let bulletId := bulletKey s.nextBulletId
      let s1 : ServerState := { s with nextBulletId := s.nextBulletId + 1 }
      match bulletData.getProp "position" with
      | .error _ => .threw s1 []
      | .ok position =>
        match bulletData.getProp "velocity" with
        | .error _ => .threw s1 []
        | .ok velocity =>
          let bullet : Bullet :=
            { id := bulletId, ownerId := socketId, position := position, velocity := velocity,
              startTime := now, life := 5000 }
          .done { s1 with serverBullets := set s1.serverBullets bulletId bullet }
            [⟨.all, .bullet_fired bullet⟩]

/-- The respawn closure given to `setTimeout` by the collision handler of the
connection `socketId`. -/
def respawnCallback (socketId : String) (s : ServerState) : Outcome :=
  match get? s.players socketId with
  | none => .done s []
  | some p =>
    let p1 : Player :=
      { p with position := INITIAL_POS, rotation := INITIAL_ROT, isDead := false }
    .done { s with players := set s.players socketId p1 }
      [⟨.only socketId, .player_reset p1⟩, ⟨.others socketId, .player_respawned p1⟩]

/-- Handler `socket.on("player_collision", (collisionData) => ...)`.  The
descriptor is read with `collisionData?.type` for the log only, and the log
comes first: when it throws, nothing has been written or sent. -/
def player_collision (socketId : String) (collisionData : JSVal) (s : ServerState) :
    Outcome :=
  match get? s.players socketId with
  | none => .done s []
  | some p =>
    if p.isDead then .done s []
    else
      match collisionLog collisionData with
      | .error _ => .threw s []
      | .ok _ =>
        let p1 : Player := { p with isDead := true }
        .done
          { s with players := set s.players socketId p1,
                   timers := s.timers ++ [⟨socketId, 3000⟩] }
          [⟨.all, .player_exploded socketId p1.position⟩]

/-- Handler `socket.on("disconnect", () => ...)`. -/
def disconnect (socketId : String) (s : ServerState) : Outcome :=
  .done { s with players := delete s.players socketId } [⟨.all, .player_left socketId⟩]

/-- Handler `io.on("connection", (socket) => ...)` for a socket whose id is
`socketId`. -/
def connection (socketId : String) (s : ServerState) : Outcome :=
  let p : Player :=
    { id := socketId, position := INITIAL_POS, rotation := INITIAL_ROT, isDead := false }
  let players := set s.players socketId p
  .done { s with players := players }
    [⟨.only socketId, .init_self socketId players⟩, ⟨.others socketId, .player_joined p⟩]

/-- The test `now - bullet.startTime > bullet.life` of the tick. -/
def expired (now : Int) (b : Bullet) : Bool :=
  decide (now - b.startTime > b.life)

/-- The loop `for (const id in serverBullets)` of the tick: the keys are
enumerated as they were when the loop started, a key whose property has been
deleted meanwhile is skipped, and each bullet is read with
`serverBullets[id]`. -/
def tickLoop (now : Int) :
    List String → List (String × Bullet) → List Emit → List (String × Bullet) × List Emit
  | [], bullets, out => (bullets, out)
  | id :: ids, bullets, out =>
    match get? bullets id with
    | none => tickLoop now ids bullets out
    | some bullet =>
      if expired now bullet then
        tickLoop now ids (delete bullets id) (out ++ [⟨.all, .bullet_removed id⟩])
      else tickLoop now ids bullets out

/-- The `setInterval` callback; `now` is the value of `Date.now()`. -/
def tick (now : Int) (s : ServerState) : Outcome :=
  let r := tickLoop now (keys s.serverBullets) s.serverBullets []
  .done { s with serverBullets := r.1 } (r.2 ++ [⟨.all, .game_state_update s.players⟩])

/-- The timer phase of the event loop: the oldest pending respawn task (all
have the same delay, so they are due in scheduling order) leaves the pending
list and its closure runs. -/
def fireTimer (s : ServerState) : Outcome :=
  match s.timers with
  | [] => .done s []
  | task :: rest => respawnCallback task.socketId { s with timers := rest }

/-- One event handled by the server. -/
inductive Op where
  | connection (socketId : String) : Op
  | player_update (socketId : String) (data : JSVal) : Op
  | player_shoot (socketId : String) (bulletData : JSVal) (now : Int) : Op
  | player_collision (socketId : String) (collisionData : JSVal) : Op
  | disconnect (socketId : String) : Op
  | timer : Op
  | tick (now : Int) : Op

/-- The handler an event runs. -/
def step (op : Op) (s : ServerState) : Outcome :=
  match op with
  | .connection socketId => connection socketId s
  | .player_update socketId data => player_update socketId data s
  | .player_shoot socketId bulletData now => player_shoot socketId bulletData now s
  | .player_collision socketId collisionData => player_collision socketId collisionData s
  | .disconnect socketId => disconnect socketId s
  | .timer => fireTimer s
  | .tick now => tick now s

/-- A run of the server: the events are handled one after the other; an
uncaught exception ends the run (`none`), otherwise the final state and all
emitted messages in order are returned. -/
def run : List Op → ServerState → Option (ServerState × List Emit)
  | [], s => some (s, [])
  | op :: ops, s =>
    match step op s with
    | .threw _ _ => none
    | .done s1 out =>
      match run ops s1 with
      | none => none
      | some (s2, out2) => some (s2, out ++ out2)

/-- A state the server can be in: the result of some run from start-up. -/
def Reachable (s : ServerState) : Prop :=
  ∃ ops out, run ops ServerState.initial = some (s, out)

/-- Whether a message is a respawn notice of the connection `socketId`: the
`player_reset` sent to it or the `player_respawned` sent to all others. -/
def Emit.respawnOf (socketId : String) : Emit → Bool
  | ⟨.only c, .player_reset _⟩ => decide (c = socketId)
  | ⟨.others c, .player_respawned _⟩ => decide (c = socketId)
  | _ => false

/-- Whether a message is a `game_state_update` snapshot that has the key
`socketId`. -/
def Emit.snapshotWith (socketId : String) : Emit → Bool
  | ⟨_, .game_state_update ps⟩ => (get? ps socketId).isSome
  | _ => false

/-- The run of consecutive ticks at the given clock readings. -/
def tickOps (times : List Int) : List Op :=
  times.map Op.tick

/-- An example `player_shoot` payload. -/
def exampleShot : JSVal :=
  .obj [("position", .obj [("x", .num 1), ("y", .num 15), ("z", .num 2)]),
        ("velocity", .obj [("x", .num 0), ("y", .num 0), ("z", .num 50)])]

/-- The record the server builds for `exampleShot`, fired by `a` at time 1000
as the first shot. -/
def exampleBullet : Bullet :=
  { id := "bullet_0", ownerId := "a",
    position := .obj [("x", .num 1), ("y", .num 15), ("z", .num 2)],
    velocity := .obj [("x", .num 0), ("y", .num 0), ("z", .num 50)],
    startTime := 1000, life := 5000 }

/-- An example state: the live players `a` and `b` and the bullet `bullet_0`
created at time 1000. -/
def exampleBulletState : ServerState :=
  { players := [("a", GameServer.Player.mk "a" INITIAL_POS INITIAL_ROT false),
                ("b", GameServer.Player.mk "b" INITIAL_POS INITIAL_ROT false)],
    serverBullets := [("bullet_0", exampleBullet)], nextBulletId := 1, timers := [] }

/-- The number written by a list of decimal digit characters. -/
def decodeDigits (l : List Char) : Nat :=
  l.foldl (fun a c => 10 * a + (c.toNat - 48)) 0

/-- The ids carried by the `bullet_fired` messages of a run, in order: one per
accepted shot. -/
def firedIds (out : List Emit) : List String :=
  out.filterMap (fun e =>
    match e.event with
    | .bullet_fired b => some b.id
    | _ => none)

/-- Every key of the bullet store was allocated from the counter: it is
`bulletKey i` for some `i` below `nextBulletId`. -/
def BulletsAllocated (s : ServerState) : Prop :=
  ∀ k b, get? s.serverBullets k = some b → ∃ i, i < s.nextBulletId ∧ k = bulletKey i

/-- A `player_update` payload as the client builds it: an object whose
`position` is an object with numeric `x`, `y` and `z` (anything may stand in
`rotation`). -/
def WellFormedUpdate (data : JSVal) : Prop :=
  ∃ fields pos x y z, data = .obj fields ∧ get? fields "position" = some (.obj pos) ∧
    get? pos "x" = some (.num x) ∧ get? pos "y" = some (.num y) ∧ get? pos "z" = some (.num z)

/-- The run of consecutive `player_update` intents of one connection. -/
def updateOps (socketId : String) (payloads : List JSVal) : List Op :=
  payloads.map (Op.player_update socketId)

/-- The record of a live sender after an accepted move intent `data`. -/
def moved (p : Player) (data : JSVal) : Player :=
  { p with position := data.getPropOpt "position", rotation := data.getPropOpt "rotation" }

/-- An example payload of `player_update`. -/
def examplePose (x y z : ℚ) : JSVal :=
  .obj [("position", .obj [("x", .num x), ("y", .num y), ("z", .num z)]),
        ("rotation", .obj [("x", .num 0), ("y", .num 0), ("z", .num 0), ("w", .num 1)])]

/-- An example record: the player `socketId` at the spawn pose. -/
def examplePlayer (socketId : String) (isDead : Bool) : Player :=
  { id := socketId, position := INITIAL_POS, rotation := INITIAL_ROT, isDead := isDead }

/-- An example state: the live players `a` and `b`, no bullet, no timer. -/
def exampleState : ServerState :=
  { players := [("a", examplePlayer "a" false), ("b", examplePlayer "b" false)],
    serverBullets := [], nextBulletId := 0, timers := [] }

/-- An example state: `a` is dead with its respawn task pending, `b` is alive. -/
def exampleDeadState : ServerState :=
  { players := [("a", examplePlayer "a" true), ("b", examplePlayer "b" false)],
    serverBullets := [], nextBulletId := 0, timers := [⟨"a", 3000⟩] }

/-- An example state with three bullets created at times 1000, 2000 and 9000. -/
def exampleThreeBullets : ServerState :=
  { players := [("a", GameServer.Player.mk "a" INITIAL_POS INITIAL_ROT false)],
    serverBullets :=
      [("bullet_0", { exampleBullet with id := "bullet_0", startTime := 1000 }),
       ("bullet_1", { exampleBullet with id := "bullet_1", startTime := 2000 }),
       ("bullet_2", { exampleBullet with id := "bullet_2", startTime := 9000 })],
    nextBulletId := 3, timers := [] }

/-- The identities of the connections opened during a run, in order. -/
def connectedIds (ops : List Op) : List String :=
  ops.filterMap (fun op =>
    match op with
    | .connection c => some c
    | _ => none)

/-- Connection identities are fresh: socket.io gives no identity to two
connections of a run. -/
def Fresh (ops : List Op) : Prop :=
  (connectedIds ops).Nodup

/-- What one event does to the list of live connections: a connection joins
at the end, a disconnect leaves, nothing else changes it. -/
def liveStep (live : List String) : Op → List String
  | .connection c => live ++ [c]
  | .disconnect c => live.filter (fun i => decide (i ≠ c))
  | _ => live

/-- The identities of the connections that are live after a run: connected
and not yet disconnected, in connection order. -/
def liveIds (ops : List Op) : List String :=
  ops.foldl liveStep []

/-- The number of pending respawn tasks of the connection `socketId`. -/
def pendingFor (socketId : String) (s : ServerState) : Nat :=
  s.timers.countP (fun t => decide (t.socketId = socketId))

/-- The ways a handler that returns can change `players` and the pending
timers: not at all (a handler that is neither connection nor disconnect); a
connection; a disconnect; an accepted collision; an accepted move; the firing
of the oldest task for an absent player; the firing for a present player. -/
def StepEffect (op : Op) (s s1 : ServerState) : Prop :=
  ((∀ c, op ≠ .connection c) ∧ (∀ c, op ≠ .disconnect c) ∧
      s1.players = s.players ∧ s1.timers = s.timers) ∨
    (∃ c, op = .connection c ∧
      s1.players = set s.players c ⟨c, INITIAL_POS, INITIAL_ROT, false⟩ ∧
      s1.timers = s.timers) ∨
    (∃ c, op = .disconnect c ∧ s1.players = delete s.players c ∧ s1.timers = s.timers) ∨
    (∃ c d p, op = .player_collision c d ∧ get? s.players c = some p ∧ p.isDead = false ∧
      s1.players = set s.players c ⟨p.id, p.position, p.rotation, true⟩ ∧
      s1.timers = s.timers ++ [⟨c, 3000⟩]) ∨
    (∃ c d p position rotation, op = .player_update c d ∧ get? s.players c = some p ∧
      p.isDead = false ∧ s1.players = set s.players c ⟨p.id, position, rotation, false⟩ ∧
      s1.timers = s.timers) ∨
    (∃ task rest, op = .timer ∧ s.timers = task :: rest ∧ s1.timers = rest ∧
      get? s.players task.socketId = none ∧ s1.players = s.players) ∨
    (∃ task rest p, op = .timer ∧ s.timers = task :: rest ∧ s1.timers = rest ∧
      get? s.players task.socketId = some p ∧
      s1.players = set s.players task.socketId ⟨p.id, INITIAL_POS, INITIAL_ROT, false⟩)

/-- The invariant of a run `ops` with fresh identities that ends in `s`: the
keys of `players` are the live connections; live connections and the
connections of pending tasks were opened during the run; every task has the
delay 3000; every record carries its key as id; no connection has two pending
tasks; a present player has one pending task when dead and none when alive. -/
def FreshInv (ops : List Op) (s : ServerState) : Prop :=
  keys s.players = liveIds ops ∧
    (∀ id ∈ liveIds ops, id ∈ connectedIds ops) ∧
    (∀ t ∈ s.timers, t.socketId ∈ connectedIds ops ∧ t.delay = 3000) ∧
    (∀ id p, get? s.players id = some p → p.id = id) ∧
    (∀ id, pendingFor id s ≤ 1) ∧
    (∀ id p, get? s.players id = some p → pendingFor id s = if p.isDead then 1 else 0)

/-- The connection an event belongs to: the sender of a command, the socket
of a connection or disconnect, the socket of the oldest pending task for a
timer firing; a tick belongs to none. -/
def Op.actor (s : ServerState) : Op → Option String
  | .connection c => some c
  | .player_update c _ => some c
  | .player_shoot c _ _ => some c
  | .player_collision c _ => some c
  | .disconnect c => some c
  | .timer => s.timers.head?.map (fun t => t.socketId)
  | .tick _ => none

/-- An example run with fresh identities: `a` and `b` connect, `a` reports a
collision and disconnects, its respawn task fires, a late move of `a`
arrives, and a tick runs. -/
def exampleRun : List Op :=
  [Op.connection "a", Op.connection "b",
   Op.player_collision "a" (.obj [("type", .str "ground")]), Op.disconnect "a",
   Op.timer, Op.player_update "a" (examplePose 1 2 3), Op.tick 40]

/-- The positions carried by the `player_exploded` messages of a run that
name the player `socketId`, in order. -/
def explodedAt (socketId : String) (out : List Emit) : List JSVal :=
  out.filterMap (fun e =>
    match e.event with
    | .player_exploded playerId position => if playerId = socketId then some position else none
    | _ => none)

/-- An example run with fresh identities: `a` and `b` connect, `a` moves to
the pose (1, 2, 3) and reports a collision, then tries to move on while
dead, and a tick runs. -/
def exampleCrashRun : List Op :=
  [Op.connection "a", Op.connection "b", Op.player_update "a" (examplePose 1 2 3),
   Op.player_collision "a" (.obj [("type", .str "ground")]),
   Op.player_update "a" (examplePose 7 8 9), Op.tick 40]

/-! ## The client (`public/script.js`): multiplayer state

Only the multiplayer state of the client is embedded: `localPlayerId`,
`isGameOver`, the local `player`, `remotePlayers` and `remoteBullets`.
Meshes, materials, the scene, the camera and the flight dynamics are
presentation.  A handler that raises returns `Except.error`; in the browser
that aborts this handler only. -/

/-- A `THREE.Vector3`: its components `x`, `y`, `z`.  The library does not
check them, so a component holds whatever value was stored. -/
structure Vector3 where
  x : JSVal
  y : JSVal
  z : JSVal

/-- A `THREE.Quaternion`: its components `x`, `y`, `z`, `w`. -/
structure Quaternion where
  x : JSVal
  y : JSVal
  z : JSVal
  w : JSVal

/-- A parameter with a default value: `undefined` (and nothing else) is
replaced by the default. -/
def JSVal.orDefault : JSVal → JSVal → JSVal
  | .undefined, d => d
  | v, _ => v

/-- The constructor `new THREE.Vector3(x, y, z)`; every parameter defaults
to 0. -/
def Vector3.new (x y z : JSVal) : Vector3 :=
  ⟨x.orDefault (.num 0), y.orDefault (.num 0), z.orDefault (.num 0)⟩

/-- Method `v.set(x, y, z)`: `x` and `y` are stored as given, and an
`undefined` `z` keeps the old `z`. -/
def Vector3.set (v : Vector3) (x y z : JSVal) : Vector3 :=
  ⟨x, y, z.orDefault v.z⟩

/-- Method `v.clone()`, which calls the constructor on the components. -/
def Vector3.clone (v : Vector3) : Vector3 :=
  Vector3.new v.x v.y v.z

/-- The constructor `new THREE.Quaternion(x, y, z, w)`; the parameters default
to 0, 0, 0 and 1. -/
def Quaternion.new (x y z w : JSVal) : Quaternion :=
  ⟨x.orDefault (.num 0), y.orDefault (.num 0), z.orDefault (.num 0), w.orDefault (.num 1)⟩

/-- Method `q.set(x, y, z, w)`: the four values are stored as given. -/
def Quaternion.set (_q : Quaternion) (x y z w : JSVal) : Quaternion :=
  ⟨x, y, z, w⟩

/-- Method `q.clone()`, which calls the constructor on the components. -/
def Quaternion.clone (q : Quaternion) : Quaternion :=
  Quaternion.new q.x q.y q.z q.w

/-- A record of `remotePlayers`: the group's `visible`, `position` and
`quaternion`, and `targetPosition`, `targetQuaternion`, `lastUpdateTime`. -/
structure RemotePlayer where
  visible : Bool
  position : Vector3
  quaternion : Quaternion
  targetPosition : Vector3
  targetQuaternion : Quaternion
  lastUpdateTime : Int

/-- A record of `remoteBullets`: the mesh position at creation, `velocity`,
`startTime` (server clock, ms), `life` (seconds) and `ownerId`. -/
structure RemoteBullet where
  position : Vector3
  velocity : Vector3
  startTime : Int
  life : ℚ
  ownerId : String

/-- The local `player` group: its height `position.y` (a number, written by
the flight dynamics and by the spawn pose), `visible`, and
`userData.collisionSent` (absent on a new group, which reads as false). -/
structure LocalPlayer where
  y : ℚ
  visible : Bool
  collisionSent : Bool

/-- The multiplayer globals of the client; `socket` tells whether
`connectToServer` has assigned the socket. -/
structure ClientState where
  socket : Bool
  localPlayerId : Option String
  player : Option LocalPlayer
  isGameOver : Bool
  remotePlayers : List (String × RemotePlayer)
  remoteBullets : List (String × RemoteBullet)

/-- A message the client sends to the server. -/
inductive ClientEmit where
  | player_collision (data : JSVal) : ClientEmit

/-- Truthiness of `localPlayerId`: `null` and the empty string are falsy. -/
def truthyId : Option String → Bool
  | none => false
  | some id => decide (id ≠ "")

/-- The three reads `v.x`, `v.y`, `v.z` that make the arguments of a call
`set(v.x, v.y, v.z)` or `new THREE.Vector3(v.x, v.y, v.z)`. -/
def readXYZ (v : JSVal) : Except JSError (JSVal × JSVal × JSVal) :=
  match v.getProp "x" with
  | .error e => .error e
  | .ok x =>
    match v.getProp "y" with
    | .error e => .error e
    | .ok y =>
      match v.getProp "z" with
      | .error e => .error e
      | .ok z => .ok (x, y, z)

/-- The four reads that make the arguments of a call
`set(v.x, v.y, v.z, v.w)`. -/
def readXYZW (v : JSVal) : Except JSError (JSVal × JSVal × JSVal × JSVal) :=
  match v.getProp "x" with
  | .error e => .error e
  | .ok x =>
    match v.getProp "y" with
    | .error e => .error e
    | .ok y =>
      match v.getProp "z" with
      | .error e => .error e
      | .ok z =>
        match v.getProp "w" with
        | .error e => .error e
        | .ok w => .ok (x, y, z, w)

/-- The `console.log` argument of the known-player branch of
`game_state_update`: `position.x.toFixed(1)`, then `y`, then `z`. -/
def poseLog (position : JSVal) : Except JSError Unit :=
  match position.getProp "x" with
  | .error e => .error e
  | .ok x =>
    match x.toFixed with
    | .error e => .error e
    | .ok _ =>
      match position.getProp "y" with
      | .error e => .error e
      | .ok y =>
        match y.toFixed with
        | .error e => .error e
        | .ok _ =>
          match position.getProp "z" with
          | .error e => .error e
          | .ok z => z.toFixed

/-- Function `createPlayer(id, playerData, false)`: the record stored in
`remotePlayers[id]`; `now` is `Date.now()`.  A new group is at the origin with
the identity quaternion; its position is `set` from the record, its
quaternion only when `playerData.rotation` is truthy.  The targets are
`clone()`s of the group's position and quaternion. -/
def createPlayer (playerData : Player) (now : Int) : Except JSError RemotePlayer :=
  let origin : Vector3 := Vector3.new .undefined .undefined .undefined
  let identity : Quaternion := Quaternion.new .undefined .undefined .undefined .undefined
  match readXYZ playerData.position with
  | .error e => .error e
  | .ok (x, y, z) =>
    let position := origin.set x y z
    let rotated : Except JSError Quaternion :=
      if playerData.rotation.truthy then
        match readXYZW playerData.rotation with
        | .error e => .error e
        | .ok (qx, qy, qz, qw) => .ok (identity.set qx qy qz qw)
      else .ok identity
    match rotated with
    | .error e => .error e
    | .ok quaternion =>
      .ok { visible := !playerData.isDead, position := position, quaternion := quaternion,
            targetPosition := position.clone, targetQuaternion := quaternion.clone,
            lastUpdateTime := now }

/-- The known-player branch of `game_state_update`: log, `set` on both
targets, new `lastUpdateTime` (`now` is `Date.now()`), and `group.visible`
brought to `!serverState.isDead`. -/
def updateTarget (remote : RemotePlayer) (serverState : Player) (now : Int) :
    Except JSError RemotePlayer :=
  match poseLog serverState.position with
  | .error e => .error e
  | .ok _ =>
    match readXYZ serverState.position with
    | .error e => .error e
    | .ok (x, y, z) =>
      match readXYZW serverState.rotation with
      | .error e => .error e
      | .ok (qx, qy, qz, qw) =>
        .ok { remote with targetPosition := remote.targetPosition.set x y z,
                          targetQuaternion := remote.targetQuaternion.set qx qy qz qw,
                          lastUpdateTime := now, visible := !serverState.isDead }

/-- The loop `for (const id in serverPlayers)` of `game_state_update`.  The
clock is read once for every remote record: `now id` is the value of
`Date.now()` while the record of `id` is processed. -/
def gameStateLoop (serverPlayers : List (String × Player)) (now : String → Int) :
    List String → ClientState → Except JSError ClientState
  | [], c => .ok c
  | id :: ids, c =>
    match get? serverPlayers id with
    | none => gameStateLoop serverPlayers now ids c
    | some serverState =>
      if some id ≠ c.localPlayerId then
        match get? c.remotePlayers id with
        | some remote =>
          match updateTarget remote serverState (now id) with
          | .error e => .error e
          | .ok r =>
            gameStateLoop serverPlayers now ids
              { c with remotePlayers := set c.remotePlayers id r }
        | none =>
          match createPlayer serverState (now id) with
          | .error e => .error e
          | .ok r =>
            gameStateLoop serverPlayers now ids
              { c with remotePlayers := set c.remotePlayers id r }
      else
        match c.player with
        | some p =>
          if c.isGameOver ≠ serverState.isDead then
            gameStateLoop serverPlayers now ids
              { c with isGameOver := serverState.isDead,
                       player := some { p with visible := !serverState.isDead } }
          else gameStateLoop serverPlayers now ids c
        | none => gameStateLoop serverPlayers now ids c

/-- The clean-up loop `for (const localId in remotePlayers)`: a remote player
that is not in the snapshot is deleted. -/
def cleanupLoop (serverPlayers : List (String × Player)) :
    List String → List (String × RemotePlayer) → List (String × RemotePlayer)
  | [], remotePlayers => remotePlayers
  | localId :: ids, remotePlayers =>
    match get? remotePlayers localId with
    | none => cleanupLoop serverPlayers ids remotePlayers
    | some _ =>
      if (get? serverPlayers localId).isNone then
        cleanupLoop serverPlayers ids (delete remotePlayers localId)
      else cleanupLoop serverPlayers ids remotePlayers

/-- Handler `socket.on("game_state_update", (serverPlayers) => ...)`; `now id`
is the value of `Date.now()` while the record of `id` is processed. -/
def on_game_state_update (serverPlayers : List (String × Player)) (now : String → Int)
    (c : ClientState) : Except JSError ClientState :=
  if !truthyId c.localPlayerId then .ok c
  else
    match gameStateLoop serverPlayers now (keys serverPlayers) c with
    | .error e => .error e
    | .ok c1 =>
      .ok { c1 with
            remotePlayers := cleanupLoop serverPlayers (keys c1.remotePlayers) c1.remotePlayers }

/-- Function `createRemoteBullet(bulletData)`.  The new mesh is at the
origin and its position is `set` from the record; the velocity is a new
`THREE.Vector3` of the record's velocity. -/
def createRemoteBullet (bulletData : Bullet) (c : ClientState) : Except JSError ClientState :=
  match get? c.remoteBullets bulletData.id with
  | some _ => .ok c
  | none =>
    let origin : Vector3 := Vector3.new .undefined .undefined .undefined
    match readXYZ bulletData.position with
    | .error e => .error e
    | .ok (x, y, z) =>
      match readXYZ bulletData.velocity with
      | .error e => .error e
      | .ok (vx, vy, vz) =>
        let bullet : RemoteBullet :=
          { position := origin.set x y z, velocity := Vector3.new vx vy vz,
            startTime := bulletData.startTime,
            life := (bulletData.life : ℚ) / 1000, ownerId := bulletData.ownerId }
        .ok { c with remoteBullets := set c.remoteBullets bulletData.id bullet }

/-- Handler `socket.on("bullet_fired", (bulletData) => ...)`. -/
def on_bullet_fired (bulletData : Bullet) (c : ClientState) : Except JSError ClientState :=
  if some bulletData.ownerId ≠ c.localPlayerId then createRemoteBullet bulletData c
  else .ok c

/-- Function `removeRemoteBullet(bulletId)`, on the `remoteBullets` object. -/
def removeRemoteBullet (bulletId : String) (remoteBullets : List (String × RemoteBullet)) :
    List (String × RemoteBullet) :=
  match get? remoteBullets bulletId with
  | some _ => delete remoteBullets bulletId
  | none => remoteBullets

/-- The loop over `remoteBullets` in `updateBullets`; `serverNow` is
`Date.now()`, `active` is `player && !isGameOver` (not written by the loop),
and `near id` is the outcome of the distance test
`bullet.mesh.position.distanceTo(player.position) < 1.5` for that bullet. -/
def updateBulletsLoop (serverNow : Int) (active : Bool) (near : String → Bool) :
    List String → List (String × RemoteBullet) → List (String × RemoteBullet)
  | [], remoteBullets => remoteBullets
  | id :: ids, remoteBullets =>
    match get? remoteBullets id with
    | none => updateBulletsLoop serverNow active near ids remoteBullets
    | some bullet =>
      let timeElapsed : ℚ := ((serverNow - bullet.startTime : Int) : ℚ) / 1000
      if timeElapsed < bullet.life ∧ timeElapsed ≥ 0 then
        if active && near id then
          updateBulletsLoop serverNow active near ids (removeRemoteBullet id remoteBullets)
        else updateBulletsLoop serverNow active near ids remoteBullets
      else updateBulletsLoop serverNow active near ids (removeRemoteBullet id remoteBullets)

/-- Function `updateBullets`, its part on remote bullets. -/
def updateBullets (serverNow : Int) (near : String → Bool) (c : ClientState) : ClientState :=
  { c with
    remoteBullets :=
      updateBulletsLoop serverNow (c.player.isSome && !c.isGameOver) near
        (keys c.remoteBullets) c.remoteBullets }

/-- Constant `GROUND_LEVEL = 0`. -/
def GROUND_LEVEL : ℚ := 0

/-- Constant `COLLISION_THRESHOLD = 0.8`. -/
def COLLISION_THRESHOLD : ℚ := 8 / 10

/-- Function `checkCollisions()`: the state after and the messages sent. -/
def checkCollisions (c : ClientState) : ClientState × List ClientEmit :=
  match c.player with
  | none => (c, [])
  | some p =>
    if c.isGameOver || !c.socket || !truthyId c.localPlayerId then (c, [])
    else if p.y ≤ GROUND_LEVEL + COLLISION_THRESHOLD then
      if !p.collisionSent then
        ({ c with player := some { p with collisionSent := true }, isGameOver := true },
          [.player_collision (.obj [("type", .str "ground")])])
      else (c, [])
    else (c, [])

/-- Function `resetPlayerState()`: the collision flag of the player is
cleared (the control rates are not modelled). -/
def resetPlayerState (c : ClientState) : ClientState :=
  match c.player with
  | some p => { c with player := some { p with collisionSent := false } }
  | none => c

/-- Function `resetGame(serverPosition, serverRotation)`, with the height
`y` of the server's spawn position: an existing player is moved, shown and
its collision flag cleared; a missing one is created anew, alive; then
`resetPlayerState` runs. -/
def resetGame (y : ℚ) (c : ClientState) : ClientState :=
  let c1 : ClientState := { c with isGameOver := false }
  let c2 : ClientState :=
    match c1.player with
    | some p => { c1 with player := some { p with y := y, visible := true, collisionSent := false } }
    | none =>
      { c1 with player := some { y := y, visible := true, collisionSent := false },
                isGameOver := false }
  resetPlayerState c2

/-- What happens to the two flags during one life of the local player: a
frame of `animate` (when initialised and not game over, the flight dynamics
move the player, here to the height `y`, and `checkCollisions` runs), or
another handler writes `isGameOver` (`game_state_update`,
`player_exploded`). -/
inductive LifeEvent where
  | frame (y : ℚ) : LifeEvent
  | gameOver (value : Bool) : LifeEvent

/-- One event of a life. -/
def lifeStep (c : ClientState) : LifeEvent → ClientState × List ClientEmit
  | .frame y =>
    match c.player with
    | none => (c, [])
    | some p =>
      if truthyId c.localPlayerId && !c.isGameOver then
        checkCollisions { c with player := some { p with y := y } }
      else (c, [])
  | .gameOver value => ({ c with isGameOver := value }, [])

/-- A sequence of events of one life, with all messages sent. -/
def lifeRun : List LifeEvent → ClientState → ClientState × List ClientEmit
  | [], c => (c, [])
  | e :: es, c =>
    let r := lifeStep c e
    let r2 := lifeRun es r.1
    (r2.1, r.2 ++ r2.2)

/-- An example client state: connected as `me`, alive at height 15, knowing
the remote player `b` and no bullet. -/
def exampleClient : ClientState :=
  { socket := true, localPlayerId := some "me",
    player := some { y := 15, visible := true, collisionSent := false },
    isGameOver := false,
    remotePlayers :=
      [("b", { visible := true, position := ⟨.num 0, .num 15, .num 0⟩,
               quaternion := ⟨.num 0, .num 0, .num 0, .num 1⟩,
               targetPosition := ⟨.num 0, .num 15, .num 0⟩,
               targetQuaternion := ⟨.num 0, .num 0, .num 0, .num 1⟩,
               lastUpdateTime := 0 })],
    remoteBullets := [] }

/-- The client record of `exampleBullet`. -/
def exampleRemoteBullet : RemoteBullet :=
  { position := ⟨.num 1, .num 15, .num 2⟩, velocity := ⟨.num 0, .num 0, .num 50⟩,
    startTime := 1000, life := 5, ownerId := "a" }

/-- Whether the loop of `updateBullets` removes a bullet: its elapsed time is
outside `[0, life)`, or the local player is active and the bullet is near. -/
def removesBullet (serverNow : Int) (active : Bool) (near : String → Bool) (id : String)
    (bullet : RemoteBullet) : Bool :=
  !(decide (((serverNow - bullet.startTime : Int) : ℚ) / 1000 < bullet.life) &&
      decide (((serverNow - bullet.startTime : Int) : ℚ) / 1000 ≥ 0)) ||
    (active && near id)

/-- A `bullet_fired` record with a partial position `{ x: 1, y: 2 }` and the
empty velocity `{}`, as the server forwards them from a `player_shoot`
payload. -/
def exampleSparseBullet : Bullet :=
  { id := "bullet_7", ownerId := "a", position := .obj [("x", .num 1), ("y", .num 2)],
    velocity := .obj [], startTime := 1000, life := 5000 }

/-- An example client state that holds the remote bullet `bullet_0`. -/
def exampleClientWithBullet : ClientState :=
  { exampleClient with remoteBullets := [("bullet_0", exampleRemoteBullet)] }

/-- The message `checkCollisions` sends: `player_collision` with
`{ type: "ground" }`. -/
def groundCollision : ClientEmit :=
  .player_collision (.obj [("type", .str "ground")])

/-- Whether the collision flag of the local player is set. -/
def collisionSent (c : ClientState) : Bool :=
  match c.player with
  | some p => p.collisionSent
  | none => false

/-- A snapshot record as the wire protocol defines it: `position` is an
object with numeric `x`, `y`, `z` and `rotation` is an object. -/
def WellFormedRecord (p : Player) : Prop :=
  (∃ pf x y z, p.position = .obj pf ∧ get? pf "x" = some (.num x) ∧
      get? pf "y" = some (.num y) ∧ get? pf "z" = some (.num z)) ∧
    ∃ rf, p.rotation = .obj rf

/-- The position of a snapshot record as a vector. -/
def snapshotPosition (p : Player) : Vector3 :=
  ⟨p.position.getPropOpt "x", p.position.getPropOpt "y", p.position.getPropOpt "z"⟩

/-- The rotation of a snapshot record as a quaternion. -/
def snapshotQuaternion (p : Player) : Quaternion :=
  ⟨p.rotation.getPropOpt "x", p.rotation.getPropOpt "y", p.rotation.getPropOpt "z",
    p.rotation.getPropOpt "w"⟩

/-- The remote record after a well-formed snapshot record has been
processed: a known player gets new targets, time stamp and visibility; an
unknown one is created at the snapshot pose, with the clone of the group's
quaternion as target (a component the record does not give is `undefined` in
the group's quaternion and the constructor's default in the target). -/
def reconciled (serverState : Player) (now : Int) : Option RemotePlayer → RemotePlayer
  | some remote =>
    { remote with targetPosition := snapshotPosition serverState,
                  targetQuaternion := snapshotQuaternion serverState,
                  lastUpdateTime := now, visible := !serverState.isDead }
  | none =>
    { visible := !serverState.isDead, position := snapshotPosition serverState,
      quaternion := snapshotQuaternion serverState,
      targetPosition := snapshotPosition serverState,
      targetQuaternion := (snapshotQuaternion serverState).clone, lastUpdateTime := now }

/-- An example snapshot: `me` alive and `d` dead, both at the spawn pose, and
`e` alive at the spawn position with the empty rotation `{}`. -/
def exampleSnapshot : List (String × Player) :=
  [("me", examplePlayer "me" false), ("d", examplePlayer "d" true),
   ("e", ⟨"e", INITIAL_POS, .obj [], false⟩)]

/-- An example clock: the record of `d` is processed at time 7, every other
record at time 8. -/
def exampleClock (id : String) : Int :=
  if id = "d" then 7 else 8

/-- A client at height 0.5, below the collision threshold. -/
def exampleLowClient : ClientState :=
  { exampleClient with player := some { y := 5 / 10, visible := true, collisionSent := false } }

/-! ## Properties of the object operations -/

theorem get?_set_self {α : Type} (o : List (String × α)) (k : String) (v : α) :
    get? (set o k v) k = some v := by
  induction o with
  | nil => simp [set, get?]
  | cons e rest ih =>
    obtain ⟨k', v'⟩ := e
    by_cases h : k' = k
    · simp [set, get?, h]
    · simp [set, get?, h, ih]

theorem get?_set_ne {α : Type} (o : List (String × α)) (k j : String) (v : α) (h : j ≠ k) :
    get? (set o k v) j = get? o j := by
  induction o with
  | nil => simp [set, get?, Ne.symm h]
  | cons e rest ih =>
    obtain ⟨k', v'⟩ := e
    by_cases h1 : k' = k
    · subst h1
      simp [set, get?, Ne.symm h]
    · by_cases h2 : k' = j
      · subst h2
        simp [set, get?, h1]
      · simp [set, get?, h1, h2, ih]

theorem set_set {α : Type} (o : List (String × α)) (k : String) (v w : α) :
    set (set o k v) k w = set o k w := by
  induction o with
  | nil => simp [set]
  | cons e rest ih =>
    obtain ⟨k', v'⟩ := e
    by_cases h : k' = k
    · simp [set, h]
    · simp [set, h, ih]

theorem get?_delete_self {α : Type} (o : List (String × α)) (k : String) :
    get? (delete o k) k = none := by
  induction o with
  | nil => simp [delete, get?]
  | cons e rest ih =>
    obtain ⟨k', v'⟩ := e
    by_cases h : k' = k
    · simpa [delete, h] using ih
    · simpa [delete, get?, h] using ih

theorem get?_delete_ne {α : Type} (o : List (String × α)) (k j : String) (h : j ≠ k) :
    get? (delete o k) j = get? o j := by
  induction o with
  | nil => simp [delete, get?]
  | cons e rest ih =>
    obtain ⟨k', v'⟩ := e
    by_cases h1 : k' = k
    · subst h1
      simpa [delete, get?, Ne.symm h] using ih
    · by_cases h2 : k' = j
      · subst h2
        simp [delete, get?, h1]
      · simpa [delete, get?, h1, h2] using ih

theorem keys_set_of_get? {α : Type} (o : List (String × α)) (k : String) (v w : α)
    (h : get? o k = some w) : keys (set o k v) = keys o := by
  induction o with
  | nil => simp [get?] at h
  | cons e rest ih =>
    obtain ⟨k', v'⟩ := e
    by_cases h1 : k' = k
    · simp [set, keys, h1]
    · have h2 : get? rest k = some w := by simpa [get?, h1] using h
      have := ih h2
      simp only [keys] at this
      simp [set, keys, h1, this]

/-! ## The `player_update` handler -/

theorem updateLog_of_wellFormed (data : JSVal) (h : WellFormedUpdate data) :
    updateLog data = .ok () := by
  obtain ⟨fields, pos, x, y, z, rfl, hp, hx, hy, hz⟩ := h
  simp [updateLog, JSVal.getProp, JSVal.toFixed, hp, hx, hy, hz]

theorem getProp_of_wellFormed (data : JSVal) (h : WellFormedUpdate data) (k : String) :
    data.getProp k = .ok (data.getPropOpt k) := by
  obtain ⟨fields, pos, x, y, z, rfl, -⟩ := h
  simp [JSVal.getProp, JSVal.getPropOpt]

/-- One accepted move intent: the record of the sender gets the payload's
position and rotation, nothing else changes and nothing is emitted. -/
theorem player_update_alive (s : ServerState) (socketId : String) (p : Player) (data : JSVal)
    (hp : get? s.players socketId = some p) (halive : p.isDead = false)
    (hwf : WellFormedUpdate data) :
    player_update socketId data s =
      .done
        { s with
          players := set s.players socketId
                       { p with position := data.getPropOpt "position",
                                rotation := data.getPropOpt "rotation" } } [] := by
  simp [player_update, hp, halive, updateLog_of_wellFormed data hwf,
    getProp_of_wellFormed data hwf, set_set]

theorem run_cons_done (op : Op) (ops : List Op) (s s1 : ServerState) (out : List Emit)
    (h : step op s = .done s1 out) :
    run (op :: ops) s = (run ops s1).map (fun r => (r.1, out ++ r.2)) := by
  simp only [run, h]
  cases run ops s1 <;> rfl

theorem run_updateOps (socketId : String) (earlier : List JSVal) (last : JSVal)
    (hlast : WellFormedUpdate last) :
    ∀ (s : ServerState) (p : Player), get? s.players socketId = some p → p.isDead = false →
      (∀ d ∈ earlier, WellFormedUpdate d) →
      run (updateOps socketId (earlier ++ [last])) s =
        some ({ s with players := set s.players socketId (moved p last) }, []) := by
  induction earlier with
  | nil =>
    intro s p hp halive _
    simp [updateOps, run, step, player_update_alive s socketId p last hp halive hlast, moved]
  | cons d ds ih =>
    intro s p hp halive hwf
    have hd : WellFormedUpdate d := hwf d (List.mem_cons_self d ds)
    have hds : ∀ e ∈ ds, WellFormedUpdate e := fun e he => hwf e (List.mem_cons_of_mem d he)
    have h1 := ih { s with players := set s.players socketId (moved p d) } (moved p d)
      (get?_set_self s.players socketId (moved p d)) halive hds
    have h2 : step (Op.player_update socketId d) s =
        .done { s with players := set s.players socketId (moved p d) } [] := by
      simp [step, player_update_alive s socketId p d hp halive hd, moved]
    have h3 : updateOps socketId (d :: ds ++ [last]) =
        Op.player_update socketId d :: updateOps socketId (ds ++ [last]) := rfl
    rw [h3, run_cons_done _ _ _ _ _ h2, h1]
    simp [set_set, moved]

theorem wellFormed_examplePose (x y z : ℚ) : WellFormedUpdate (examplePose x y z) :=
  ⟨_, _, x, y, z, rfl, rfl, rfl, rfl, rfl⟩

/-- C1: for every sequence of N >= 1 `player_update` intents (the payloads
`earlier` followed by `last`) of a connection whose player is present and
alive, the run completes, emits nothing, and ends in the state where that
player's record holds exactly the position and rotation of the last payload,
whatever the earlier payloads were; the rest of the state is as before. -/
theorem C1_last_write_wins (s : ServerState) (socketId : String) (p : Player)
    (earlier : List JSVal) (last : JSVal)
    (hp : get? s.players socketId = some p) (halive : p.isDead = false)
    (hwf : ∀ d ∈ earlier ++ [last], WellFormedUpdate d) :
    ∃ s', run (updateOps socketId (earlier ++ [last])) s = some (s', []) ∧
      get? s'.players socketId =
        some { id := p.id, position := last.getPropOpt "position",
               rotation := last.getPropOpt "rotation", isDead := false } ∧
      s' = { s with players := set s.players socketId (moved p last) } := by
  have hlast : WellFormedUpdate last := hwf last (by simp)
  have hearlier : ∀ d ∈ earlier, WellFormedUpdate d := fun d hd => hwf d (by simp [hd])
  refine ⟨_, run_updateOps socketId earlier last hlast s p hp halive hearlier, ?_, rfl⟩
  simp [get?_set_self, moved, halive]

theorem C1_last_write_wins_witness :
    ∃ s', run (updateOps "a" ([examplePose 1 2 3, examplePose 4 5 6] ++ [examplePose 7 8 9]))
        exampleState = some (s', []) ∧
      get? s'.players "a" =
        some { id := "a", position := (examplePose 7 8 9).getPropOpt "position",
               rotation := (examplePose 7 8 9).getPropOpt "rotation", isDead := false } ∧
      s' = { exampleState with
             players := set exampleState.players "a"
                          (moved (examplePlayer "a" false) (examplePose 7 8 9)) } :=
  C1_last_write_wins exampleState "a" (examplePlayer "a" false)
    [examplePose 1 2 3, examplePose 4 5 6] (examplePose 7 8 9) rfl rfl
    (by
      intro d hd
      simp only [List.cons_append, List.nil_append, List.mem_cons, List.mem_singleton,
        List.not_mem_nil, or_false] at hd
      rcases hd with rfl | rfl | rfl <;> exact wellFormed_examplePose _ _ _)

/-! ## The `player_collision` handler and the respawn task -/

/-- The log of the collision handler returns or raises a `TypeError`. -/
theorem collisionLog_cases (collisionData : JSVal) :
    collisionLog collisionData = .ok () ∨ collisionLog collisionData = .error .typeError := by
  unfold collisionLog
  simp only []
  split
  · exact Or.inr rfl
  · exact Or.inl rfl

/-- The collision handler for a live sender whose descriptor can be logged. -/
theorem player_collision_alive (s : ServerState) (socketId : String) (p : Player)
    (collisionData : JSVal)
    (hp : get? s.players socketId = some p) (halive : p.isDead = false)
    (hlog : collisionLog collisionData = .ok ()) :
    player_collision socketId collisionData s =
      .done { s with players := set s.players socketId { p with isDead := true },
                     timers := s.timers ++ [⟨socketId, 3000⟩] }
        [⟨.all, .player_exploded socketId p.position⟩] := by
  simp [player_collision, hp, halive, hlog]

/-- The collision handler for a live sender whose descriptor cannot be logged:
the exception is raised before anything is written or sent. -/
theorem player_collision_alive_throws (s : ServerState) (socketId : String) (p : Player)
    (collisionData : JSVal)
    (hp : get? s.players socketId = some p) (halive : p.isDead = false)
    (hlog : collisionLog collisionData = .error .typeError) :
    player_collision socketId collisionData s = .threw s [] := by
  simp [player_collision, hp, halive, hlog]

/-- C2: a `player_collision` report of a connection whose player is present
and not dead, with a descriptor whose `type` is falsy or converts to a string
(the log of the handler returns), returns normally; afterwards that
player's record is the old one with `isDead` true (same id, position and
rotation), every other key of `players` reads as before and the key order is
unchanged; the only message emitted is one `player_exploded` to all
connections with the sender's id and its stored position; exactly one respawn
task for that id with delay 3000 is appended to the pending timers; bullets
and the bullet counter are untouched.  A report of the same player whose
descriptor cannot be logged raises a `TypeError` before anything is written:
the state is unchanged and nothing is emitted or scheduled. -/
theorem C2_collision_alive (s : ServerState) (socketId : String) (p : Player)
    (collisionData : JSVal)
    (hp : get? s.players socketId = some p) (halive : p.isDead = false)
    (hlog : collisionLog collisionData = .ok ()) :
    ∃ s', player_collision socketId collisionData s =
        .done s' [⟨.all, .player_exploded socketId p.position⟩] ∧
      get? s'.players socketId =
        some { id := p.id, position := p.position, rotation := p.rotation, isDead := true } ∧
      (∀ j, j ≠ socketId → get? s'.players j = get? s.players j) ∧
      keys s'.players = keys s.players ∧
      s'.timers = s.timers ++ [⟨socketId, 3000⟩] ∧
      s'.serverBullets = s.serverBullets ∧ s'.nextBulletId = s.nextBulletId ∧
      (∀ c, Target.receives .all c = true) ∧
      ∀ d, collisionLog d = .error .typeError →
        player_collision socketId d s = .threw s [] := by
  refine ⟨{ s with players := set s.players socketId { p with isDead := true },
                   timers := s.timers ++ [⟨socketId, 3000⟩] }, ?_, ?_, ?_, ?_, rfl, rfl, rfl, ?_,
    ?_⟩
  · exact player_collision_alive s socketId p collisionData hp halive hlog
  · simp [get?_set_self]
  · intro j hj
    exact get?_set_ne s.players socketId j _ hj
  · exact keys_set_of_get? s.players socketId _ p hp
  · intro c
    rfl
  · intro d hd
    exact player_collision_alive_throws s socketId p d hp halive hd

theorem C2_collision_alive_witness :
    ∃ s', player_collision "a" (.obj [("type", .str "ground")]) exampleState =
        .done s' [⟨.all, .player_exploded "a" (examplePlayer "a" false).position⟩] ∧
      get? s'.players "a" =
        some { id := (examplePlayer "a" false).id, position := (examplePlayer "a" false).position,
               rotation := (examplePlayer "a" false).rotation, isDead := true } ∧
      (∀ j, j ≠ "a" → get? s'.players j = get? exampleState.players j) ∧
      keys s'.players = keys exampleState.players ∧
      s'.timers = exampleState.timers ++ [⟨"a", 3000⟩] ∧
      s'.serverBullets = exampleState.serverBullets ∧
      s'.nextBulletId = exampleState.nextBulletId ∧
      (∀ c, Target.receives .all c = true) ∧
      ∀ d, collisionLog d = .error .typeError →
        player_collision "a" d exampleState = .threw exampleState [] :=
  C2_collision_alive exampleState "a" (examplePlayer "a" false)
    (.obj [("type", .str "ground")]) rfl rfl rfl

/-- C2, the original wording: with the descriptor `{ type: { toString: null } }`
the report of the live player `a` raises a `TypeError` in the log, before the
player is marked dead: the state is unchanged, nothing is emitted and no task
is scheduled, so the handler does not return with `a` dead. -/
theorem C2_unprintable_descriptor_throws :
    get? exampleState.players "a" = some (examplePlayer "a" false) ∧
      (examplePlayer "a" false).isDead = false ∧
      player_collision "a" (.obj [("type", .obj [("toString", .null)])]) exampleState =
        .threw exampleState [] ∧
      ¬ ∃ s' out, player_collision "a" (.obj [("type", .obj [("toString", .null)])])
          exampleState = .done s' out := by
  have h : player_collision "a" (.obj [("type", .obj [("toString", .null)])]) exampleState =
      .threw exampleState [] :=
    player_collision_alive_throws exampleState "a" (examplePlayer "a" false) _ rfl rfl rfl
  refine ⟨rfl, rfl, h, ?_⟩
  rintro ⟨s', out, hdone⟩
  rw [h] at hdone
  cases hdone

/-- The collision handler leaves the state alone and emits nothing for a
sender that is dead or absent. -/
theorem player_collision_dead (s : ServerState) (socketId : String) (p : Player)
    (collisionData : JSVal)
    (hp : get? s.players socketId = some p) (hdead : p.isDead = true) :
    player_collision socketId collisionData s = .done s [] := by
  simp [player_collision, hp, hdead]

theorem player_collision_absent (s : ServerState) (socketId : String) (collisionData : JSVal)
    (hp : get? s.players socketId = none) :
    player_collision socketId collisionData s = .done s [] := by
  simp [player_collision, hp]

/-- C3: a `player_collision` report of a player who is already dead returns
normally with the whole state (players, bullets, counter, pending timers)
unchanged and nothing emitted; and from any state, two reports in a row of
one connection give the same final state and the same emitted messages as the
first report alone. -/
theorem C3_collision_idempotent (s : ServerState) (socketId : String) (p : Player)
    (collisionData : JSVal)
    (hp : get? s.players socketId = some p) (hdead : p.isDead = true) :
    player_collision socketId collisionData s = .done s [] ∧
      ∀ (s0 : ServerState) (first : JSVal),
        run [Op.player_collision socketId first, Op.player_collision socketId collisionData] s0 =
          run [Op.player_collision socketId first] s0 := by
  refine ⟨player_collision_dead s socketId p collisionData hp hdead, ?_⟩
  intro s0 first
  cases h0 : get? s0.players socketId with
  | none =>
    simp [run, step, player_collision_absent s0 socketId _ h0]
  | some q =>
    cases hq : q.isDead with
    | true =>
      simp [run, step, player_collision_dead s0 socketId q _ h0 hq]
    | false =>
      rcases collisionLog_cases first with hlog | hlog
      swap
      · simp [run, step, player_collision_alive_throws s0 socketId q first h0 hq hlog]
      have h1 : player_collision socketId first s0 =
          .done { s0 with players := set s0.players socketId { q with isDead := true },
                          timers := s0.timers ++ [⟨socketId, 3000⟩] }
            [⟨.all, .player_exploded socketId q.position⟩] :=
        player_collision_alive s0 socketId q first h0 hq hlog
      have h2 : player_collision socketId collisionData
          { s0 with players := set s0.players socketId { q with isDead := true },
                    timers := s0.timers ++ [⟨socketId, 3000⟩] } =
          .done { s0 with players := set s0.players socketId { q with isDead := true },
                          timers := s0.timers ++ [⟨socketId, 3000⟩] } [] :=
        player_collision_dead _ socketId { q with isDead := true } _
          (get?_set_self s0.players socketId _) rfl
      simp [run, step, h1, h2]

theorem C3_collision_idempotent_witness :
    player_collision "a" (.obj [("type", .str "ground")]) exampleDeadState =
        .done exampleDeadState [] ∧
      ∀ (s0 : ServerState) (first : JSVal),
        run [Op.player_collision "a" first,
             Op.player_collision "a" (.obj [("type", .str "ground")])] s0 =
          run [Op.player_collision "a" first] s0 :=
  C3_collision_idempotent exampleDeadState "a" (examplePlayer "a" true)
    (.obj [("type", .str "ground")]) rfl rfl

/-- C4: when the oldest pending respawn task fires and the player of its
connection is still present, the task leaves the pending list and the
player's record becomes the old id with position `{x: 0, y: 15, z: 0}`,
rotation `{x: 0, y: 0, z: 0, w: 1}` and `isDead` false; exactly two messages
are emitted, in this order: `player_reset` with that record to that connection
only, and `player_respawned` with the same record to every connection but that
one. -/
theorem C4_respawn_present (s : ServerState) (task : RespawnTask) (rest : List RespawnTask)
    (p : Player)
    (htimer : s.timers = task :: rest) (hp : get? s.players task.socketId = some p) :
    ∃ s' p1, fireTimer s =
        .done s' [⟨.only task.socketId, .player_reset p1⟩,
                  ⟨.others task.socketId, .player_respawned p1⟩] ∧
      p1 = { id := p.id,
             position := .obj [("x", .num 0), ("y", .num 15), ("z", .num 0)],
             rotation := .obj [("x", .num 0), ("y", .num 0), ("z", .num 0), ("w", .num 1)],
             isDead := false } ∧
      get? s'.players task.socketId = some p1 ∧
      (∀ j, j ≠ task.socketId → get? s'.players j = get? s.players j) ∧
      s'.timers = rest ∧
      s'.serverBullets = s.serverBullets ∧ s'.nextBulletId = s.nextBulletId ∧
      (∀ c, Target.receives (.only task.socketId) c = true ↔ c = task.socketId) ∧
      (∀ c, Target.receives (.others task.socketId) c = true ↔ c ≠ task.socketId) := by
  refine ⟨{ s with players := set s.players task.socketId
                                { p with position := INITIAL_POS, rotation := INITIAL_ROT,
                                         isDead := false },
                   timers := rest },
    { p with position := INITIAL_POS, rotation := INITIAL_ROT, isDead := false },
    ?_, rfl, ?_, ?_, rfl, rfl, rfl, ?_, ?_⟩
  · simp [fireTimer, htimer, respawnCallback, hp]
  · simp [get?_set_self]
  · intro j hj
    exact get?_set_ne s.players task.socketId j _ hj
  · intro c
    simp [Target.receives]
  · intro c
    simp [Target.receives]

theorem C4_respawn_present_witness :
    ∃ s' p1, fireTimer exampleDeadState =
        .done s' [⟨.only "a", .player_reset p1⟩, ⟨.others "a", .player_respawned p1⟩] ∧
      p1 = { id := "a",
             position := .obj [("x", .num 0), ("y", .num 15), ("z", .num 0)],
             rotation := .obj [("x", .num 0), ("y", .num 0), ("z", .num 0), ("w", .num 1)],
             isDead := false } ∧
      get? s'.players "a" = some p1 ∧
      (∀ j, j ≠ "a" → get? s'.players j = get? exampleDeadState.players j) ∧
      s'.timers = [] ∧
      s'.serverBullets = exampleDeadState.serverBullets ∧
      s'.nextBulletId = exampleDeadState.nextBulletId ∧
      (∀ c, Target.receives (.only "a") c = true ↔ c = "a") ∧
      (∀ c, Target.receives (.others "a") c = true ↔ c ≠ "a") :=
  C4_respawn_present exampleDeadState ⟨"a", 3000⟩ [] (examplePlayer "a" true) rfl rfl

/-! ## Disconnect during the respawn window -/

theorem tickLoop_out (now : Int) (ids : List String) :
    ∀ (bullets : List (String × Bullet)) (out : List Emit) (e : Emit),
      e ∈ (tickLoop now ids bullets out).2 → e ∈ out ∨ ∃ id, e = ⟨.all, .bullet_removed id⟩ := by
  induction ids with
  | nil =>
    intro bullets out e he
    exact Or.inl he
  | cons id ids ih =>
    intro bullets out e he
    simp only [tickLoop] at he
    cases hb : get? bullets id with
    | none =>
      rw [hb] at he
      exact ih bullets out e he
    | some b =>
      rw [hb] at he
      by_cases hx : expired now b = true
      · simp only [hx, if_true] at he
        rcases ih _ _ e he with h | h
        · rcases List.mem_append.mp h with h | h
          · exact Or.inl h
          · exact Or.inr ⟨id, by simpa using h⟩
        · exact Or.inr h
      · simp only [hx] at he
        exact ih bullets out e he

/-- While the key `socketId` is absent from `players`, a handler other than
the connection of `socketId` keeps it absent and emits neither a respawn
notice of `socketId` nor a snapshot with that key. -/
theorem step_absent (socketId : String) (op : Op) (s s1 : ServerState) (out : List Emit)
    (habs : get? s.players socketId = none) (hop : op ≠ Op.connection socketId)
    (h : step op s = .done s1 out) :
    get? s1.players socketId = none ∧
      ∀ e ∈ out, e.respawnOf socketId = false ∧ e.snapshotWith socketId = false := by
  cases op with
  | connection c =>
    have hc : socketId ≠ c := fun hc => hop (by rw [hc])
    simp only [step, connection, Outcome.done.injEq] at h
    obtain ⟨rfl, rfl⟩ := h
    refine ⟨by simpa [get?_set_ne _ _ _ _ hc] using habs, ?_⟩
    intro e he
    simp only [List.mem_cons, List.mem_singleton, List.not_mem_nil, or_false] at he
    rcases he with rfl | rfl <;> simp [Emit.respawnOf, Emit.snapshotWith]
  | player_update c data =>
    simp only [step, player_update] at h
    split at h
    · simp only [Outcome.done.injEq] at h
      obtain ⟨rfl, rfl⟩ := h
      exact ⟨habs, by simp⟩
    · rename_i p hp
      have hc : socketId ≠ c := by
        rintro rfl
        rw [habs] at hp
        cases hp
      split at h
      · simp only [Outcome.done.injEq] at h
        obtain ⟨rfl, rfl⟩ := h
        exact ⟨habs, by simp⟩
      · split at h
        · cases h
        · split at h
          · cases h
          · split at h
            · cases h
            · simp only [Outcome.done.injEq] at h
              obtain ⟨rfl, rfl⟩ := h
              refine ⟨?_, by simp⟩
              simp [get?_set_ne _ _ _ _ hc, habs]
  | player_shoot c data now =>
    simp only [step, player_shoot] at h
    split at h
    · simp only [Outcome.done.injEq] at h
      obtain ⟨rfl, rfl⟩ := h
      exact ⟨habs, by simp⟩
    · split at h
      · simp only [Outcome.done.injEq] at h
        obtain ⟨rfl, rfl⟩ := h
        exact ⟨habs, by simp⟩
      · split at h
        · cases h
        · split at h
          · cases h
          · simp only [Outcome.done.injEq] at h
            obtain ⟨rfl, rfl⟩ := h
            refine ⟨habs, ?_⟩
            intro e he
            simp only [List.mem_singleton] at he
            subst he
            simp [Emit.respawnOf, Emit.snapshotWith]
  | player_collision c data =>
    simp only [step, player_collision] at h
    split at h
    · simp only [Outcome.done.injEq] at h
      obtain ⟨rfl, rfl⟩ := h
      exact ⟨habs, by simp⟩
    · rename_i p hp
      have hc : socketId ≠ c := by
        rintro rfl
        rw [habs] at hp
        cases hp
      split at h
      · simp only [Outcome.done.injEq] at h
        obtain ⟨rfl, rfl⟩ := h
        exact ⟨habs, by simp⟩
      · split at h
        case h_1 => cases h
        simp only [Outcome.done.injEq] at h
        obtain ⟨rfl, rfl⟩ := h
        refine ⟨by simp [get?_set_ne _ _ _ _ hc, habs], ?_⟩
        intro e he
        simp only [List.mem_singleton] at he
        subst he
        simp [Emit.respawnOf, Emit.snapshotWith]
  | disconnect c =>
    simp only [step, disconnect, Outcome.done.injEq] at h
    obtain ⟨rfl, rfl⟩ := h
    refine ⟨?_, ?_⟩
    · by_cases hc : socketId = c
      · subst hc
        exact get?_delete_self _ _
      · simpa [get?_delete_ne _ _ _ hc] using habs
    · intro e he
      simp only [List.mem_singleton] at he
      subst he
      simp [Emit.respawnOf, Emit.snapshotWith]
  | timer =>
    simp only [step, fireTimer] at h
    split at h
    · simp only [Outcome.done.injEq] at h
      obtain ⟨rfl, rfl⟩ := h
      exact ⟨habs, by simp⟩
    · rename_i task rest htimers
      simp only [respawnCallback] at h
      split at h
      · simp only [Outcome.done.injEq] at h
        obtain ⟨rfl, rfl⟩ := h
        exact ⟨habs, by simp⟩
      · rename_i p hp
        have hc : socketId ≠ task.socketId := by
          intro hc
          rw [← hc] at hp
          have hp1 : get? s.players socketId = some p := hp
          rw [habs] at hp1
          cases hp1
        simp only [Outcome.done.injEq] at h
        obtain ⟨rfl, rfl⟩ := h
        refine ⟨by simp [get?_set_ne _ _ _ _ hc, habs], ?_⟩
        intro e he
        simp only [List.mem_cons, List.mem_singleton, List.not_mem_nil, or_false] at he
        rcases he with rfl | rfl <;>
          simp [Emit.respawnOf, Emit.snapshotWith, Ne.symm hc]
  | tick now =>
    simp only [step, tick, Outcome.done.injEq] at h
    obtain ⟨rfl, rfl⟩ := h
    refine ⟨habs, ?_⟩
    intro e he
    rcases List.mem_append.mp he with he | he
    · rcases tickLoop_out now _ _ _ e he with h0 | ⟨id, rfl⟩
      · simp at h0
      · simp [Emit.respawnOf, Emit.snapshotWith]
    · simp only [List.mem_singleton] at he
      subst he
      simp [Emit.respawnOf, Emit.snapshotWith, habs]

theorem run_absent (socketId : String) (ops : List Op)
    (hops : ∀ op ∈ ops, op ≠ Op.connection socketId) :
    ∀ (s s1 : ServerState) (out : List Emit), get? s.players socketId = none →
      run ops s = some (s1, out) →
      get? s1.players socketId = none ∧
        ∀ e ∈ out, e.respawnOf socketId = false ∧ e.snapshotWith socketId = false := by
  induction ops with
  | nil =>
    intro s s1 out habs h
    simp only [run, Option.some.injEq, Prod.mk.injEq] at h
    obtain ⟨rfl, rfl⟩ := h
    exact ⟨habs, by simp⟩
  | cons op ops ih =>
    intro s s1 out habs h
    have hop : op ≠ Op.connection socketId := hops op (List.mem_cons_self op ops)
    have hrest : ∀ o ∈ ops, o ≠ Op.connection socketId :=
      fun o ho => hops o (List.mem_cons_of_mem op ho)
    cases hstep : step op s with
    | threw t o =>
      simp [run, hstep] at h
    | done t o =>
      rw [run_cons_done op ops s t o hstep] at h
      cases hrun : run ops t with
      | none =>
        simp [hrun] at h
      | some r =>
        obtain ⟨t2, o2⟩ := r
        simp only [hrun, Option.map_some', Option.some.injEq, Prod.mk.injEq] at h
        obtain ⟨rfl, rfl⟩ := h
        have h1 := step_absent socketId op s t o habs hop hstep
        have h2 := ih hrest t t2 o2 h1.1 hrun
        refine ⟨h2.1, ?_⟩
        intro e he
        rcases List.mem_append.mp he with he | he
        · exact h1.2 e he
        · exact h2.2 e he

/-- C5: a player reports a collision (accepted: the respawn task is
scheduled), any events `mid` follow, and the player disconnects.  The
disconnect removes the key and keeps the pending timers.  From then on, when
the task of that connection fires in a state without the key, the firing
only drops the task: no other change, nothing emitted.  And in every run
`later` of events in which that identity does not connect again, the key
stays absent from `players`, no `player_reset`/`player_respawned` of that
connection is emitted and no `game_state_update` snapshot has the key. -/
theorem C5_disconnect_before_respawn (s sMid : ServerState) (socketId : String) (p : Player)
    (collisionData : JSVal) (mid later : List Op) (outMid : List Emit)
    (hp : get? s.players socketId = some p) (halive : p.isDead = false)
    (hmid : run (Op.player_collision socketId collisionData :: mid) s = some (sMid, outMid))
    (hlater : ∀ op ∈ later, op ≠ Op.connection socketId) :
    (∃ s1, player_collision socketId collisionData s =
        .done s1 [⟨.all, .player_exploded socketId p.position⟩] ∧
      s1.timers = s.timers ++ [⟨socketId, 3000⟩] ∧
      ∃ out, run mid s1 = some (sMid, out)) ∧
    ∃ s2, disconnect socketId sMid = .done s2 [⟨.all, .player_left socketId⟩] ∧
      s2.timers = sMid.timers ∧ get? s2.players socketId = none ∧
      (∀ (t : ServerState) (rest : List RespawnTask), get? t.players socketId = none →
        t.timers = ⟨socketId, 3000⟩ :: rest →
        fireTimer t = .done { t with timers := rest } []) ∧
      (∀ s3 out, run later s2 = some (s3, out) →
        get? s3.players socketId = none ∧
        ∀ e ∈ out, e.respawnOf socketId = false ∧ e.snapshotWith socketId = false) := by
  constructor
  · have hlog : collisionLog collisionData = .ok () := by
      rcases collisionLog_cases collisionData with hlog | hlog
      · exact hlog
      · have hthrow := player_collision_alive_throws s socketId p collisionData hp halive hlog
        simp [run, step, hthrow] at hmid
    have h1 : step (Op.player_collision socketId collisionData) s =
        .done { s with players := set s.players socketId { p with isDead := true },
                       timers := s.timers ++ [⟨socketId, 3000⟩] }
          [⟨.all, .player_exploded socketId p.position⟩] :=
      player_collision_alive s socketId p collisionData hp halive hlog
    refine ⟨_, h1, rfl, ?_⟩
    rw [run_cons_done _ _ _ _ _ h1] at hmid
    cases hrun : run mid { s with players := set s.players socketId { p with isDead := true },
                                  timers := s.timers ++ [⟨socketId, 3000⟩] } with
    | none => simp [hrun] at hmid
    | some r =>
      obtain ⟨t, o⟩ := r
      simp only [hrun, Option.map_some', Option.some.injEq, Prod.mk.injEq] at hmid
      exact ⟨o, by rw [hmid.1]⟩
  · refine ⟨{ sMid with players := delete sMid.players socketId }, rfl, rfl,
      get?_delete_self _ _, ?_, ?_⟩
    · intro t rest habs htimers
      simp [fireTimer, htimers, respawnCallback, habs]
    · intro s3 out hrun
      exact run_absent socketId later hlater _ s3 out (get?_delete_self _ _) hrun

theorem C5_disconnect_before_respawn_witness :
    (∃ s1, player_collision "a" (.obj [("type", .str "ground")]) exampleState =
        .done s1 [⟨.all, .player_exploded "a" (examplePlayer "a" false).position⟩] ∧
      s1.timers = exampleState.timers ++ [⟨"a", 3000⟩] ∧
      ∃ out, run [Op.tick 10] s1 = some (exampleDeadState, out)) ∧
    ∃ s2, disconnect "a" exampleDeadState = .done s2 [⟨.all, .player_left "a"⟩] ∧
      s2.timers = exampleDeadState.timers ∧ get? s2.players "a" = none ∧
      (∀ (t : ServerState) (rest : List RespawnTask), get? t.players "a" = none →
        t.timers = ⟨"a", 3000⟩ :: rest →
        fireTimer t = .done { t with timers := rest } []) ∧
      (∀ s3 out, run [Op.timer, Op.tick 40, Op.connection "c", Op.tick 80] s2 = some (s3, out) →
        get? s3.players "a" = none ∧
        ∀ e ∈ out, e.respawnOf "a" = false ∧ e.snapshotWith "a" = false) :=
  C5_disconnect_before_respawn exampleState exampleDeadState "a" (examplePlayer "a" false)
    (.obj [("type", .str "ground")]) [Op.tick 10]
    [Op.timer, Op.tick 40, Op.connection "c", Op.tick 80]
    [⟨.all, .player_exploded "a" INITIAL_POS⟩, ⟨.all, .game_state_update exampleDeadState.players⟩]
    rfl rfl rfl
    (by
      intro op hop
      simp only [List.mem_cons, List.mem_singleton, List.not_mem_nil, or_false] at hop
      rcases hop with rfl | rfl | rfl | rfl <;> simp)

/-! ## The tick: bullet expiry -/

theorem expired_iff (now : Int) (b : Bullet) :
    expired now b = true ↔ b.startTime + b.life < now := by
  simp only [expired, decide_eq_true_eq]
  constructor <;> intro h <;> linarith

/-- What the loop of the tick leaves under each key: a key that is enumerated
and whose bullet is expired is gone, every other key reads as before. -/
theorem tickLoop_get? (now : Int) (ids : List String) :
    ∀ (bullets : List (String × Bullet)) (out : List Emit) (k : String),
      get? (tickLoop now ids bullets out).1 k =
        if k ∈ ids ∧ ∃ b, get? bullets k = some b ∧ expired now b = true then none
        else get? bullets k := by
  induction ids with
  | nil =>
    intro bullets out k
    simp [tickLoop]
  | cons id ids ih =>
    intro bullets out k
    simp only [tickLoop]
    cases hb : get? bullets id with
    | none =>
      simp only [ih]
      by_cases hk : k = id
      · subst hk
        simp [hb]
      · simp [hk]
    | some b =>
      by_cases hx : expired now b = true
      · simp only [hx, if_true, ih]
        by_cases hk : k = id
        · subst hk
          simp [hb, hx, get?_delete_self]
        · simp [hk, get?_delete_ne _ _ _ hk]
      · simp only [if_neg hx, ih]
        by_cases hk : k = id
        · subst hk
          simp [hb, hx]
        · simp [hk]

/-- Which removal events the loop of the tick emits: one for a key exactly
when the key is enumerated and its bullet is expired. -/
theorem tickLoop_removed_mem (now : Int) (ids : List String) :
    ∀ (bullets : List (String × Bullet)) (out : List Emit) (k : String),
      (⟨.all, .bullet_removed k⟩ : Emit) ∈ (tickLoop now ids bullets out).2 ↔
        (⟨.all, .bullet_removed k⟩ : Emit) ∈ out ∨
          (k ∈ ids ∧ ∃ b, get? bullets k = some b ∧ expired now b = true) := by
  induction ids with
  | nil =>
    intro bullets out k
    simp [tickLoop]
  | cons id ids ih =>
    intro bullets out k
    simp only [tickLoop]
    cases hb : get? bullets id with
    | none =>
      simp only [ih]
      by_cases hk : k = id
      · subst hk
        simp [hb]
      · simp [hk]
    | some b =>
      by_cases hx : expired now b = true
      · simp only [hx, if_true, ih]
        by_cases hk : k = id
        · subst hk
          simp [hb, hx]
        · simp [hk, get?_delete_ne _ _ _ hk]
      · simp only [if_neg hx, ih]
        by_cases hk : k = id
        · subst hk
          simp [hb, hx]
        · simp [hk]

theorem mem_keys_of_get? {α : Type} (o : List (String × α)) (k : String) (v : α)
    (h : get? o k = some v) : k ∈ keys o := by
  induction o with
  | nil => simp [get?] at h
  | cons e rest ih =>
    obtain ⟨k', v'⟩ := e
    by_cases h1 : k' = k
    · simp [keys, h1]
    · have h2 : get? rest k = some v := by simpa [get?, h1] using h
      have := ih h2
      simp only [keys] at this
      simp [keys, this]

/-- A tick at a time not after `startTime + life` keeps the bullet and emits
no removal for it. -/
theorem tick_keeps (s : ServerState) (id : String) (b : Bullet) (now : Int)
    (hb : get? s.serverBullets id = some b) (hnow : now ≤ b.startTime + b.life) :
    ∃ s1 out, tick now s = .done s1 out ∧ get? s1.serverBullets id = some b ∧
      (⟨.all, .bullet_removed id⟩ : Emit) ∉ out := by
  have hx : ¬ expired now b = true := by
    rw [expired_iff]
    exact not_lt.mpr hnow
  refine ⟨_, _, rfl, ?_, ?_⟩
  · simp [tickLoop_get?, hb, hx]
  · simp [tickLoop_removed_mem, hb, hx]

/-- A tick at a time after `startTime + life` removes the bullet and emits a
removal for it. -/
theorem tick_removes (s : ServerState) (id : String) (b : Bullet) (now : Int)
    (hb : get? s.serverBullets id = some b) (hnow : b.startTime + b.life < now) :
    ∃ s1 out, tick now s = .done s1 out ∧ get? s1.serverBullets id = none ∧
      (⟨.all, .bullet_removed id⟩ : Emit) ∈ out := by
  have hx : expired now b = true := (expired_iff now b).mpr hnow
  have hk := mem_keys_of_get? _ _ _ hb
  refine ⟨_, _, rfl, ?_, ?_⟩
  · simp [tickLoop_get?, hb, hx, hk]
  · simp [tickLoop_removed_mem, hb, hx, hk]

theorem run_tickOps_keeps (id : String) (b : Bullet) (times : List Int)
    (hkeep : ∀ t ∈ times, t ≤ b.startTime + b.life) :
    ∀ s : ServerState, get? s.serverBullets id = some b →
      ∃ s1 out, run (tickOps times) s = some (s1, out) ∧ get? s1.serverBullets id = some b ∧
        (⟨.all, .bullet_removed id⟩ : Emit) ∉ out := by
  induction times with
  | nil =>
    intro s hb
    exact ⟨s, [], rfl, hb, by simp⟩
  | cons t ts ih =>
    intro s hb
    obtain ⟨s1, out1, h1, hb1, hout1⟩ :=
      tick_keeps s id b t hb (hkeep t (List.mem_cons_self t ts))
    obtain ⟨s2, out2, h2, hb2, hout2⟩ :=
      ih (fun u hu => hkeep u (List.mem_cons_of_mem t hu)) s1 hb1
    have hstep : step (Op.tick t) s = .done s1 out1 := h1
    have hops : tickOps (t :: ts) = Op.tick t :: tickOps ts := rfl
    refine ⟨s2, out1 ++ out2, ?_, hb2, ?_⟩
    · rw [hops, run_cons_done _ _ _ _ _ hstep, h2]
      rfl
    · simp [hout1, hout2]

/-- C6 (as amended): a bullet with creation time `startTime` and life `life`
that is in the store stays there, unchanged and with no `bullet_removed`
emitted for it, through every run of ticks at times `t <= startTime + life`;
a further tick at time `now` keeps it when `now <= startTime + life` (in
particular at `now = startTime + life`) and removes it, emitting
`bullet_removed` with its id to all, when `now > startTime + life`. -/
theorem C6_bullet_lifetime (s : ServerState) (id : String) (b : Bullet) (times : List Int)
    (now : Int)
    (hb : get? s.serverBullets id = some b)
    (hkeep : ∀ t ∈ times, t ≤ b.startTime + b.life) :
    ∃ s1 out1, run (tickOps times) s = some (s1, out1) ∧
      get? s1.serverBullets id = some b ∧ (⟨.all, .bullet_removed id⟩ : Emit) ∉ out1 ∧
      ∃ s2 out2, tick now s1 = .done s2 out2 ∧
        (now ≤ b.startTime + b.life →
          get? s2.serverBullets id = some b ∧ (⟨.all, .bullet_removed id⟩ : Emit) ∉ out2) ∧
        (b.startTime + b.life < now →
          get? s2.serverBullets id = none ∧ (⟨.all, .bullet_removed id⟩ : Emit) ∈ out2) := by
  obtain ⟨s1, out1, h1, hb1, hout1⟩ := run_tickOps_keeps id b times hkeep s hb
  refine ⟨s1, out1, h1, hb1, hout1, _, _, rfl, ?_, ?_⟩
  · intro hnow
    obtain ⟨_, _, h2, hb2, hout2⟩ := tick_keeps s1 id b now hb1 hnow
    cases h2
    exact ⟨hb2, hout2⟩
  · intro hnow
    obtain ⟨_, _, h2, hb2, hout2⟩ := tick_removes s1 id b now hb1 hnow
    cases h2
    exact ⟨hb2, hout2⟩

theorem C6_bullet_lifetime_witness :
    ∃ s1 out1, run (tickOps [1000, 3500, 6000]) exampleBulletState = some (s1, out1) ∧
      get? s1.serverBullets "bullet_0" = some exampleBullet ∧
      (⟨.all, .bullet_removed "bullet_0"⟩ : Emit) ∉ out1 ∧
      ∃ s2 out2, tick 6001 s1 = .done s2 out2 ∧
        (6001 ≤ exampleBullet.startTime + exampleBullet.life →
          get? s2.serverBullets "bullet_0" = some exampleBullet ∧
          (⟨.all, .bullet_removed "bullet_0"⟩ : Emit) ∉ out2) ∧
        (exampleBullet.startTime + exampleBullet.life < 6001 →
          get? s2.serverBullets "bullet_0" = none ∧
          (⟨.all, .bullet_removed "bullet_0"⟩ : Emit) ∈ out2) :=
  C6_bullet_lifetime exampleBulletState "bullet_0" exampleBullet [1000, 3500, 6000] 6001 rfl
    (by
      intro t ht
      simp only [List.mem_cons, List.mem_singleton, List.not_mem_nil, or_false] at ht
      rcases ht with rfl | rfl | rfl <;> decide)

/-- C6, the claim as stated fails: the bullet `bullet_0` is created by a shot
at time 1000 with life 5000, and the tick that runs at exactly 1000 + 5000
keeps it in the store and emits no `bullet_removed`. -/
theorem C6_tick_at_deadline_keeps :
    player_shoot "a" exampleShot 1000 exampleState =
        .done exampleBulletState [⟨.all, .bullet_fired exampleBullet⟩] ∧
      get? exampleBulletState.serverBullets "bullet_0" = some exampleBullet ∧
      exampleBullet.startTime + exampleBullet.life = 6000 ∧
      tick 6000 exampleBulletState =
        .done exampleBulletState [⟨.all, .game_state_update exampleBulletState.players⟩] :=
  ⟨rfl, rfl, rfl, rfl⟩

theorem get?_append_of_not_mem {α : Type} (pre l : List (String × α)) (k : String)
    (h : k ∉ keys pre) : get? (pre ++ l) k = get? l k := by
  induction pre with
  | nil => rfl
  | cons e rest ih =>
    obtain ⟨k', v'⟩ := e
    simp only [keys, List.map_cons, List.mem_cons, not_or] at h
    have h1 : ¬ k' = k := fun hk => h.1 hk.symm
    have h2 : k ∉ keys rest := h.2
    simp [get?, h1, ih h2]

theorem delete_of_not_mem {α : Type} (o : List (String × α)) (k : String) (h : k ∉ keys o) :
    delete o k = o := by
  unfold delete
  rw [List.filter_eq_self]
  intro e he
  have hne : e.1 ≠ k := by
    intro hk
    exact h (hk ▸ List.mem_map_of_mem Prod.fst he)
  simpa using hne

theorem delete_append {α : Type} (o1 o2 : List (String × α)) (k : String) :
    delete (o1 ++ o2) k = delete o1 k ++ delete o2 k := by
  simp [delete]

theorem delete_cons_self {α : Type} (o : List (String × α)) (k : String) (v : α) :
    delete ((k, v) :: o) k = delete o k := by
  simp [delete]

/-- On an object (no key twice) the loop of the tick is a filter: it keeps the
bullets that are not expired, in order, and emits one removal per expired
bullet, in enumeration order. -/
theorem tickLoop_filter (now : Int) :
    ∀ (l pre : List (String × Bullet)) (out : List Emit), (keys (pre ++ l)).Nodup →
      tickLoop now (keys l) (pre ++ l) out =
        (pre ++ l.filter (fun e => !expired now e.2),
         out ++ (l.filter (fun e => expired now e.2)).map
           (fun e => (⟨.all, .bullet_removed e.1⟩ : Emit))) := by
  intro l
  induction l with
  | nil =>
    intro pre out _
    simp [keys, tickLoop]
  | cons e rest ih =>
    intro pre out hnd
    obtain ⟨k, b⟩ := e
    have hnd1 : (keys pre ++ k :: keys rest).Nodup := by
      simpa [keys] using hnd
    have hpre : k ∉ keys pre := by
      intro hk
      exact (List.nodup_append.mp hnd1).2.2 hk (List.mem_cons_self k _)
    have hrest : k ∉ keys rest :=
      (List.nodup_cons.mp (List.nodup_append.mp hnd1).2.1).1
    have hget : get? (pre ++ (k, b) :: rest) k = some b := by
      rw [get?_append_of_not_mem pre _ k hpre]
      simp [get?]
    have hkeys : keys ((k, b) :: rest) = k :: keys rest := rfl
    rw [hkeys]
    simp only [tickLoop, hget]
    by_cases hx : expired now b = true
    · have hdel : delete (pre ++ (k, b) :: rest) k = pre ++ rest := by
        rw [delete_append, delete_cons_self, delete_of_not_mem pre k hpre,
          delete_of_not_mem rest k hrest]
      have hnd2 : (keys (pre ++ rest)).Nodup := by
        have : (keys pre ++ keys rest).Nodup := by
          refine List.Nodup.sublist ?_ hnd1
          exact List.Sublist.append_left (List.sublist_cons_self k (keys rest)) (keys pre)
        simpa [keys] using this
      simp only [hx, if_true, hdel, ih pre _ hnd2]
      simp [hx]
    · have happ : pre ++ (k, b) :: rest = (pre ++ [(k, b)]) ++ rest := by simp
      have hnd2 : (keys ((pre ++ [(k, b)]) ++ rest)).Nodup := by
        rw [← happ]
        exact hnd
      simp only [if_neg hx]
      rw [happ, ih (pre ++ [(k, b)]) out hnd2]
      simp [hx]

theorem keys_set {α : Type} (o : List (String × α)) (k : String) (v : α) :
    keys (set o k v) = if k ∈ keys o then keys o else keys o ++ [k] := by
  induction o with
  | nil => simp [set, keys]
  | cons e rest ih =>
    obtain ⟨k', v'⟩ := e
    simp only [keys] at ih
    by_cases h1 : k' = k
    · simp [set, keys, h1]
    · have h2 : ¬ k = k' := fun h => h1 h.symm
      by_cases h3 : k ∈ List.map Prod.fst rest
      · simp [set, keys, h1, h2, h3, ih]
      · simp [set, keys, h1, h2, h3, ih]

theorem keys_nodup_set {α : Type} (o : List (String × α)) (k : String) (v : α)
    (h : (keys o).Nodup) : (keys (set o k v)).Nodup := by
  rw [keys_set]
  by_cases hk : k ∈ keys o
  · simpa [hk] using h
  · simp only [hk, if_false]
    exact List.Nodup.append h (List.nodup_singleton k) (by simpa using hk)

/-- How one handler changes the bullet store: not at all, by the loop of the
tick, or by one assignment under the key of the counter. -/
theorem step_bullets (op : Op) (s s1 : ServerState) (out : List Emit)
    (h : step op s = .done s1 out) :
    s1.serverBullets = s.serverBullets ∨
      (∃ now, s1.serverBullets = (tickLoop now (keys s.serverBullets) s.serverBullets []).1) ∨
      ∃ b, s1.serverBullets = set s.serverBullets (bulletKey s.nextBulletId) b := by
  cases op <;>
    simp only [step, connection, player_update, player_shoot, player_collision, disconnect,
      fireTimer, respawnCallback, tick] at h <;>
    (repeat' split at h) <;>
    first
    | (cases h; done)
    | (simp only [Outcome.done.injEq] at h
       obtain ⟨rfl, rfl⟩ := h
       first
       | exact Or.inl rfl
       | exact Or.inr (Or.inl ⟨_, rfl⟩)
       | exact Or.inr (Or.inr ⟨_, rfl⟩))

/-- The bullet store of a reachable state has no key twice. -/
theorem run_keys_nodup (ops : List Op) :
    ∀ (s0 s : ServerState) (out : List Emit), run ops s0 = some (s, out) →
      (keys s0.serverBullets).Nodup → (keys s.serverBullets).Nodup := by
  induction ops with
  | nil =>
    intro s0 s out h hnd
    simp only [run, Option.some.injEq, Prod.mk.injEq] at h
    obtain ⟨rfl, rfl⟩ := h
    exact hnd
  | cons op ops ih =>
    intro s0 s out h hnd
    cases hstep : step op s0 with
    | threw t o =>
      simp [run, hstep] at h
    | done t o =>
      rw [run_cons_done op ops s0 t o hstep] at h
      cases hrun : run ops t with
      | none =>
        simp [hrun] at h
      | some r =>
        obtain ⟨t2, o2⟩ := r
        simp only [hrun, Option.map_some', Option.some.injEq, Prod.mk.injEq] at h
        obtain ⟨rfl, rfl⟩ := h
        refine ih t t2 o2 hrun ?_
        rcases step_bullets op s0 t o hstep with hb | ⟨now, hb⟩ | ⟨b, hb⟩
        · rw [hb]
          exact hnd
        · have hf := tickLoop_filter now s0.serverBullets [] [] (by simpa using hnd)
          simp only [List.nil_append] at hf
          rw [hb, hf]
          exact List.Nodup.sublist (List.Sublist.map _ (List.filter_sublist _)) hnd
        · rw [hb]
          exact keys_nodup_set _ _ _ hnd

theorem keys_nodup_of_reachable (s : ServerState) (h : Reachable s) :
    (keys s.serverBullets).Nodup := by
  obtain ⟨ops, out, hrun⟩ := h
  exact run_keys_nodup ops ServerState.initial s out hrun (by simp [ServerState.initial, keys])

/-- C7: on every state whose bullet store is an object (no key twice) and for
every clock reading `now`, the tick returns normally; it removes from the
store exactly the bullets with `now - startTime > life` and keeps all others
unchanged and in order; it emits to all connections one `bullet_removed`
with the key of each removed bullet (in store order, none for a kept bullet)
and then exactly one `game_state_update` whose payload is the whole `players`
map; players, counter and timers are unchanged. -/
theorem C7_tick (s : ServerState) (now : Int) (hobj : (keys s.serverBullets).Nodup) :
    tick now s =
      .done
        { s with
          serverBullets :=
            s.serverBullets.filter (fun e => !decide (now - e.2.startTime > e.2.life)) }
        ((s.serverBullets.filter (fun e => decide (now - e.2.startTime > e.2.life))).map
            (fun e => (⟨.all, .bullet_removed e.1⟩ : Emit)) ++
          [⟨.all, .game_state_update s.players⟩]) := by
  have h := tickLoop_filter now s.serverBullets [] [] (by simpa using hobj)
  simp only [List.nil_append] at h
  simp only [tick, h]
  rfl

theorem C7_tick_witness :
    tick 7000 exampleThreeBullets =
      .done
        { exampleThreeBullets with
          serverBullets :=
            exampleThreeBullets.serverBullets.filter
              (fun e => !decide (7000 - e.2.startTime > e.2.life)) }
        ((exampleThreeBullets.serverBullets.filter
              (fun e => decide (7000 - e.2.startTime > e.2.life))).map
            (fun e => (⟨.all, .bullet_removed e.1⟩ : Emit)) ++
          [⟨.all, .game_state_update exampleThreeBullets.players⟩]) :=
  C7_tick exampleThreeBullets 7000 (by decide)

/-! ## Bullet identities -/

theorem digitChar_toNat (d : Nat) (h : d < 10) : (Nat.digitChar d).toNat - 48 = d := by
  interval_cases d <;> rfl

theorem foldl_digits_shift (l : List Char) :
    ∀ a : Nat, l.foldl (fun a c => 10 * a + (c.toNat - 48)) a =
      a * 10 ^ l.length + l.foldl (fun a c => 10 * a + (c.toNat - 48)) 0 := by
  induction l with
  | nil =>
    intro a
    simp
  | cons c cs ih =>
    intro a
    simp only [List.foldl_cons, List.length_cons]
    rw [ih (10 * a + (c.toNat - 48)), ih (10 * 0 + (c.toNat - 48))]
    ring

theorem decodeDigits_toDigitsCore (fuel : Nat) :
    ∀ (n : Nat) (ds : List Char), n < fuel →
      decodeDigits (Nat.toDigitsCore 10 fuel n ds) = n * 10 ^ ds.length + decodeDigits ds := by
  induction fuel with
  | zero =>
    intro n ds h
    omega
  | succ fuel ih =>
    intro n ds h
    simp only [Nat.toDigitsCore]
    have hd := digitChar_toNat (n % 10) (Nat.mod_lt n (by norm_num))
    by_cases h0 : n / 10 = 0
    · simp only [h0, if_true]
      have hn : n % 10 = n := by omega
      unfold decodeDigits
      simp only [List.foldl_cons]
      rw [foldl_digits_shift, hd, hn]
      simp
    · simp only [h0, if_false]
      rw [ih (n / 10) _ (by omega)]
      unfold decodeDigits
      simp only [List.foldl_cons, List.length_cons]
      rw [foldl_digits_shift ds (10 * 0 + _), hd]
      have hdm := Nat.div_add_mod n 10
      have e : n * 10 ^ ds.length = (10 * (n / 10) + n % 10) * 10 ^ ds.length := by rw [hdm]
      rw [e]
      ring

/-- The decimal rendering of the counter determines the counter. -/
theorem repr_injective (a b : Nat) (h : Nat.repr a = Nat.repr b) : a = b := by
  have h1 : Nat.toDigits 10 a = Nat.toDigits 10 b := congrArg String.data h
  have ha := decodeDigits_toDigitsCore (a + 1) a [] (by omega)
  have hb := decodeDigits_toDigitsCore (b + 1) b [] (by omega)
  simp only [Nat.toDigits] at h1
  rw [h1] at ha
  simp [decodeDigits] at ha hb
  omega

theorem bulletKey_injective (a b : Nat) (h : bulletKey a = bulletKey b) : a = b := by
  apply repr_injective
  have h1 := congrArg String.data h
  simp only [bulletKey, String.data_append] at h1
  exact String.ext (List.append_cancel_left h1)

theorem firedIds_append (l1 l2 : List Emit) :
    firedIds (l1 ++ l2) = firedIds l1 ++ firedIds l2 := by
  simp [firedIds, List.filterMap_append]

theorem firedIds_tickLoop (now : Int) (ids : List String) :
    ∀ (bullets : List (String × Bullet)) (out : List Emit),
      firedIds (tickLoop now ids bullets out).2 = firedIds out := by
  induction ids with
  | nil =>
    intro bullets out
    rfl
  | cons id ids ih =>
    intro bullets out
    simp only [tickLoop]
    cases hb : get? bullets id with
    | none => exact ih bullets out
    | some b =>
      by_cases hx : expired now b = true
      · simp only [hx, if_true, ih, firedIds_append]
        simp [firedIds]
      · simp only [if_neg hx, ih]

/-- What one handler does to the counter and to the keys of the bullet
store: either the counter is unchanged, no `bullet_fired` is emitted and
no key is added; or the counter grows by one, one `bullet_fired` with the id
`bulletKey nextBulletId` is emitted and that key is the only one written. -/
theorem step_counter (op : Op) (s s1 : ServerState) (out : List Emit)
    (h : step op s = .done s1 out) :
    (s1.nextBulletId = s.nextBulletId ∧ firedIds out = [] ∧
        ∀ k b, get? s1.serverBullets k = some b → get? s.serverBullets k = some b) ∨
      (s1.nextBulletId = s.nextBulletId + 1 ∧ firedIds out = [bulletKey s.nextBulletId] ∧
        ∀ k b, get? s1.serverBullets k = some b →
          k = bulletKey s.nextBulletId ∨ get? s.serverBullets k = some b) := by
  cases op with
  | connection c =>
    simp only [step, connection, Outcome.done.injEq] at h
    obtain ⟨rfl, rfl⟩ := h
    exact Or.inl ⟨rfl, rfl, fun _ _ hk => hk⟩
  | player_update c data =>
    simp only [step, player_update] at h
    split at h
    · simp only [Outcome.done.injEq] at h
      obtain ⟨rfl, rfl⟩ := h
      exact Or.inl ⟨rfl, rfl, fun _ _ hk => hk⟩
    · split at h
      · simp only [Outcome.done.injEq] at h
        obtain ⟨rfl, rfl⟩ := h
        exact Or.inl ⟨rfl, rfl, fun _ _ hk => hk⟩
      · split at h
        · cases h
        · split at h
          · cases h
          · split at h
            · cases h
            · simp only [Outcome.done.injEq] at h
              obtain ⟨rfl, rfl⟩ := h
              exact Or.inl ⟨rfl, rfl, fun _ _ hk => hk⟩
  | player_shoot c data now =>
    simp only [step, player_shoot] at h
    split at h
    · simp only [Outcome.done.injEq] at h
      obtain ⟨rfl, rfl⟩ := h
      exact Or.inl ⟨rfl, rfl, fun _ _ hk => hk⟩
    · split at h
      · simp only [Outcome.done.injEq] at h
        obtain ⟨rfl, rfl⟩ := h
        exact Or.inl ⟨rfl, rfl, fun _ _ hk => hk⟩
      · split at h
        · cases h
        · split at h
          · cases h
          · simp only [Outcome.done.injEq] at h
            obtain ⟨rfl, rfl⟩ := h
            refine Or.inr ⟨rfl, rfl, ?_⟩
            intro k b hk
            by_cases hkey : k = bulletKey s.nextBulletId
            · exact Or.inl hkey
            · right
              simpa [get?_set_ne _ _ _ _ hkey] using hk
  | player_collision c data =>
    simp only [step, player_collision] at h
    split at h
    · simp only [Outcome.done.injEq] at h
      obtain ⟨rfl, rfl⟩ := h
      exact Or.inl ⟨rfl, rfl, fun _ _ hk => hk⟩
    · split at h
      · simp only [Outcome.done.injEq] at h
        obtain ⟨rfl, rfl⟩ := h
        exact Or.inl ⟨rfl, rfl, fun _ _ hk => hk⟩
      · split at h
        case h_1 => cases h
        simp only [Outcome.done.injEq] at h
        obtain ⟨rfl, rfl⟩ := h
        exact Or.inl ⟨rfl, rfl, fun _ _ hk => hk⟩
  | disconnect c =>
    simp only [step, disconnect, Outcome.done.injEq] at h
    obtain ⟨rfl, rfl⟩ := h
    exact Or.inl ⟨rfl, rfl, fun _ _ hk => hk⟩
  | timer =>
    simp only [step, fireTimer] at h
    split at h
    · simp only [Outcome.done.injEq] at h
      obtain ⟨rfl, rfl⟩ := h
      exact Or.inl ⟨rfl, rfl, fun _ _ hk => hk⟩
    · simp only [respawnCallback] at h
      split at h
      · simp only [Outcome.done.injEq] at h
        obtain ⟨rfl, rfl⟩ := h
        exact Or.inl ⟨rfl, rfl, fun _ _ hk => hk⟩
      · simp only [Outcome.done.injEq] at h
        obtain ⟨rfl, rfl⟩ := h
        exact Or.inl ⟨rfl, rfl, fun _ _ hk => hk⟩
  | tick now =>
    simp only [step, tick, Outcome.done.injEq] at h
    obtain ⟨rfl, rfl⟩ := h
    refine Or.inl ⟨rfl, ?_, ?_⟩
    · rw [firedIds_append, firedIds_tickLoop]
      rfl
    · intro k b hk
      simp only [tickLoop_get?] at hk
      split at hk
      · cases hk
      · exact hk

theorem bulletsAllocated_step (op : Op) (s s1 : ServerState) (out : List Emit)
    (h : step op s = .done s1 out) (hinv : BulletsAllocated s) : BulletsAllocated s1 := by
  intro k b hk
  rcases step_counter op s s1 out h with ⟨hn, _, hold⟩ | ⟨hn, _, hold⟩
  · obtain ⟨i, hi, hki⟩ := hinv k b (hold k b hk)
    exact ⟨i, by omega, hki⟩
  · rcases hold k b hk with hkey | hkey
    · exact ⟨s.nextBulletId, by omega, hkey⟩
    · obtain ⟨i, hi, hki⟩ := hinv k b hkey
      exact ⟨i, by omega, hki⟩

/-- Along a run the counter never goes down, the allocation invariant is
kept, and the ids of the emitted `bullet_fired` messages are the keys of the
counter values passed, in order. -/
theorem run_counter (ops : List Op) :
    ∀ (s0 s : ServerState) (out : List Emit), run ops s0 = some (s, out) →
      BulletsAllocated s0 →
      BulletsAllocated s ∧ s0.nextBulletId ≤ s.nextBulletId ∧
        firedIds out =
          (List.range' s0.nextBulletId (s.nextBulletId - s0.nextBulletId)).map bulletKey := by
  induction ops with
  | nil =>
    intro s0 s out h hinv
    simp only [run, Option.some.injEq, Prod.mk.injEq] at h
    obtain ⟨rfl, rfl⟩ := h
    exact ⟨hinv, le_refl _, by simp [firedIds]⟩
  | cons op ops ih =>
    intro s0 s out h hinv
    cases hstep : step op s0 with
    | threw t o =>
      simp [run, hstep] at h
    | done t o =>
      rw [run_cons_done op ops s0 t o hstep] at h
      cases hrun : run ops t with
      | none =>
        simp [hrun] at h
      | some r =>
        obtain ⟨t2, o2⟩ := r
        simp only [hrun, Option.map_some', Option.some.injEq, Prod.mk.injEq] at h
        obtain ⟨rfl, rfl⟩ := h
        obtain ⟨hinv2, hle, hfired⟩ := ih t t2 o2 hrun (bulletsAllocated_step op s0 t o hstep hinv)
        refine ⟨hinv2, ?_, ?_⟩
        · rcases step_counter op s0 t o hstep with ⟨hn, _, _⟩ | ⟨hn, _, _⟩ <;> omega
        · rw [firedIds_append, hfired]
          rcases step_counter op s0 t o hstep with ⟨hn, hf, _⟩ | ⟨hn, hf, _⟩
          · rw [hf, hn]
            rfl
          · rw [hf, hn]
            have hlen : t2.nextBulletId - s0.nextBulletId =
                (t2.nextBulletId - (s0.nextBulletId + 1)) + 1 := by omega
            rw [hlen, List.range'_succ]
            simp

theorem bulletsAllocated_of_reachable (s : ServerState) (h : Reachable s) :
    BulletsAllocated s := by
  obtain ⟨ops, out, hrun⟩ := h
  refine (run_counter ops ServerState.initial s out hrun ?_).1
  intro k b hk
  simp [ServerState.initial, get?] at hk

/-- The key the next shot will use is not in the store. -/
theorem next_key_free (s : ServerState) (hinv : BulletsAllocated s) :
    get? s.serverBullets (bulletKey s.nextBulletId) = none := by
  cases hget : get? s.serverBullets (bulletKey s.nextBulletId) with
  | none => rfl
  | some b =>
    obtain ⟨i, hi, hki⟩ := hinv _ b hget
    have := bulletKey_injective _ _ hki
    omega

theorem set_of_absent {α : Type} (o : List (String × α)) (k : String) (v : α)
    (h : get? o k = none) : set o k v = o ++ [(k, v)] := by
  induction o with
  | nil => rfl
  | cons e rest ih =>
    obtain ⟨k', v'⟩ := e
    by_cases h1 : k' = k
    · simp [get?, h1] at h
    · have h2 : get? rest k = none := by simpa [get?, h1] using h
      simp [set, h1, ih h2]

/-! ## The `player_shoot` handler -/

/-- C8: in every reachable state, a `player_shoot` intent with an object
payload from a connection whose player is present and alive returns
normally.  The record built has the id `bulletKey nextBulletId`, the
sender as `ownerId`, the payload's `position` and `velocity`, `startTime`
the current time and `life` 5000.  Its key was not in the store; the store
afterwards is the old store followed by that one record under the key equal
to its id, so every existing bullet is unchanged.  The only message emitted
is one `bullet_fired` with the full record to all connections (the sender
included); players and timers are unchanged and the counter has advanced by
one. -/
theorem C8_shoot_alive (s : ServerState) (socketId : String) (p : Player)
    (fields : List (String × JSVal)) (now : Int)
    (hreach : Reachable s)
    (hp : get? s.players socketId = some p) (halive : p.isDead = false) :
    ∃ s' b, player_shoot socketId (.obj fields) now s = .done s' [⟨.all, .bullet_fired b⟩] ∧
      b = { id := bulletKey s.nextBulletId, ownerId := socketId,
            position := (JSVal.obj fields).getPropOpt "position",
            velocity := (JSVal.obj fields).getPropOpt "velocity",
            startTime := now, life := 5000 } ∧
      get? s.serverBullets b.id = none ∧
      s'.serverBullets = s.serverBullets ++ [(b.id, b)] ∧
      get? s'.serverBullets b.id = some b ∧
      (∀ k, k ≠ b.id → get? s'.serverBullets k = get? s.serverBullets k) ∧
      s'.players = s.players ∧ s'.timers = s.timers ∧
      s'.nextBulletId = s.nextBulletId + 1 ∧
      (∀ c, Target.receives .all c = true) := by
  have hfree := next_key_free s (bulletsAllocated_of_reachable s hreach)
  have hrun : player_shoot socketId (.obj fields) now s =
      .done
        { s with
          nextBulletId := s.nextBulletId + 1
          serverBullets :=
            set s.serverBullets (bulletKey s.nextBulletId)
              { id := bulletKey s.nextBulletId, ownerId := socketId,
                position := (JSVal.obj fields).getPropOpt "position",
                velocity := (JSVal.obj fields).getPropOpt "velocity",
                startTime := now, life := 5000 } }
        [⟨.all, .bullet_fired
            { id := bulletKey s.nextBulletId, ownerId := socketId,
              position := (JSVal.obj fields).getPropOpt "position",
              velocity := (JSVal.obj fields).getPropOpt "velocity",
              startTime := now, life := 5000 }⟩] := by
    simp [player_shoot, hp, halive, JSVal.getProp, JSVal.getPropOpt]
  refine ⟨_, _, hrun, rfl, hfree, ?_, ?_, ?_, ?_, ?_, ?_, ?_⟩
  · exact set_of_absent _ _ _ hfree
  · exact get?_set_self _ _ _
  · intro k hk
    exact get?_set_ne _ _ _ _ hk
  · rfl
  · rfl
  · rfl
  · intro c
    rfl

theorem C8_shoot_alive_witness :
    ∃ s' b, player_shoot "a" exampleShot 1000 exampleState = .done s' [⟨.all, .bullet_fired b⟩] ∧
      b = { id := bulletKey exampleState.nextBulletId, ownerId := "a",
            position := exampleShot.getPropOpt "position",
            velocity := exampleShot.getPropOpt "velocity",
            startTime := 1000, life := 5000 } ∧
      get? exampleState.serverBullets b.id = none ∧
      s'.serverBullets = exampleState.serverBullets ++ [(b.id, b)] ∧
      get? s'.serverBullets b.id = some b ∧
      (∀ k, k ≠ b.id → get? s'.serverBullets k = get? exampleState.serverBullets k) ∧
      s'.players = exampleState.players ∧ s'.timers = exampleState.timers ∧
      s'.nextBulletId = exampleState.nextBulletId + 1 ∧
      (∀ c, Target.receives .all c = true) :=
  C8_shoot_alive exampleState "a" (examplePlayer "a" false)
    [("position", .obj [("x", .num 1), ("y", .num 15), ("z", .num 2)]),
     ("velocity", .obj [("x", .num 0), ("y", .num 0), ("z", .num 50)])] 1000
    ⟨[Op.connection "a", Op.connection "b"],
     [⟨.only "a", .init_self "a" [("a", examplePlayer "a" false)]⟩,
      ⟨.others "a", .player_joined (examplePlayer "a" false)⟩,
      ⟨.only "b", .init_self "b" exampleState.players⟩,
      ⟨.others "b", .player_joined (examplePlayer "b" false)⟩], rfl⟩
    rfl rfl

/-- C9: after every run from start-up, the ids of the `bullet_fired` messages
emitted so far (one per accepted shot, in order) are `bulletKey 0`,
`bulletKey 1`, ... up to the counter, so the k-th accepted shot got the id
"bullet_k" and the counter equals the number of accepted shots; these ids are
pairwise distinct; the key the next shot will use is not in the store, so a
new bullet never overwrites a stored one; and every next handler (a tick
that expires bullets included) leaves the counter as it is when it emits no
`bullet_fired` and raises it by exactly one when it emits one. -/
theorem C9_bullet_ids (ops : List Op) (s : ServerState) (out : List Emit)
    (hrun : run ops ServerState.initial = some (s, out)) :
    firedIds out = (List.range s.nextBulletId).map (fun k => "bullet_" ++ Nat.repr k) ∧
      (firedIds out).length = s.nextBulletId ∧
      (firedIds out).Nodup ∧
      get? s.serverBullets (bulletKey s.nextBulletId) = none ∧
      ∀ (op : Op) (s1 : ServerState) (out1 : List Emit), step op s = .done s1 out1 →
        (firedIds out1 = [] ∧ s1.nextBulletId = s.nextBulletId) ∨
        (firedIds out1 = ["bullet_" ++ Nat.repr s.nextBulletId] ∧
          s1.nextBulletId = s.nextBulletId + 1) := by
  have hinit : BulletsAllocated ServerState.initial := by
    intro k b hk
    simp [ServerState.initial, get?] at hk
  obtain ⟨hinv, _, hfired⟩ := run_counter ops ServerState.initial s out hrun hinit
  have hfired1 : firedIds out = (List.range s.nextBulletId).map bulletKey := by
    rw [hfired, List.range_eq_range']
    rfl
  have hinj : Function.Injective bulletKey := fun a b h => bulletKey_injective a b h
  refine ⟨hfired1, ?_, ?_, next_key_free s hinv, ?_⟩
  · simp [hfired1]
  · rw [hfired1]
    exact List.Nodup.map hinj (List.nodup_range _)
  · intro op s1 out1 hstep
    rcases step_counter op s s1 out1 hstep with ⟨hn, hf, _⟩ | ⟨hn, hf, _⟩
    · exact Or.inl ⟨hf, hn⟩
    · exact Or.inr ⟨hf, hn⟩

theorem C9_bullet_ids_witness :
    ∃ s out,
      run [Op.connection "a", Op.player_shoot "a" exampleShot 1000,
           Op.player_shoot "a" exampleShot 2000, Op.tick 9000,
           Op.player_shoot "a" exampleShot 9500] ServerState.initial = some (s, out) ∧
      firedIds out = ["bullet_0", "bullet_1", "bullet_2"] ∧
      s.nextBulletId = 3 ∧ keys s.serverBullets = ["bullet_2"] ∧
      (firedIds out = (List.range s.nextBulletId).map (fun k => "bullet_" ++ Nat.repr k) ∧
        (firedIds out).length = s.nextBulletId ∧
        (firedIds out).Nodup ∧
        get? s.serverBullets (bulletKey s.nextBulletId) = none ∧
        ∀ (op : Op) (s1 : ServerState) (out1 : List Emit), step op s = .done s1 out1 →
          (firedIds out1 = [] ∧ s1.nextBulletId = s.nextBulletId) ∨
          (firedIds out1 = ["bullet_" ++ Nat.repr s.nextBulletId] ∧
            s1.nextBulletId = s.nextBulletId + 1)) :=
  ⟨_, _, rfl, rfl, rfl, rfl,
    C9_bullet_ids
      [Op.connection "a", Op.player_shoot "a" exampleShot 1000,
       Op.player_shoot "a" exampleShot 2000, Op.tick 9000,
       Op.player_shoot "a" exampleShot 9500] _ _ rfl⟩

/-! ## Ignored move intents -/

/-- C10: a `player_update` intent of a connection whose player is dead, or
whose id is not a key of `players`, returns normally with the whole state
unchanged and nothing emitted, whatever the payload is (a malformed one
included: the payload is not read). -/
theorem C10_update_ignored (s : ServerState) (socketId : String) (data : JSVal)
    (hsender : get? s.players socketId = none ∨
      ∃ p, get? s.players socketId = some p ∧ p.isDead = true) :
    player_update socketId data s = .done s [] := by
  rcases hsender with habs | ⟨p, hp, hdead⟩
  · simp [player_update, habs]
  · simp [player_update, hp, hdead]

theorem C10_update_ignored_witness :
    player_update "a" .undefined exampleDeadState = .done exampleDeadState [] ∧
      player_update "zz" (.obj [("position", .str "north")]) exampleDeadState =
        .done exampleDeadState [] :=
  ⟨C10_update_ignored exampleDeadState "a" .undefined
      (Or.inr ⟨examplePlayer "a" true, rfl, rfl⟩),
    C10_update_ignored exampleDeadState "zz" (.obj [("position", .str "north")]) (Or.inl rfl)⟩

/-! ## Ignored shots, connection and disconnect -/

/-- C11: a `player_shoot` intent of a connection whose player is dead, or
whose id is not a key of `players`, returns normally with the whole state
unchanged (no bullet added, counter not advanced) and nothing emitted,
whatever the payload and the clock reading are. -/
theorem C11_shoot_ignored (s : ServerState) (socketId : String) (bulletData : JSVal)
    (now : Int)
    (hsender : get? s.players socketId = none ∨
      ∃ p, get? s.players socketId = some p ∧ p.isDead = true) :
    ∃ s1, player_shoot socketId bulletData now s = .done s1 [] ∧ s1 = s ∧
      s1.serverBullets = s.serverBullets ∧ s1.nextBulletId = s.nextBulletId := by
  rcases hsender with habs | ⟨p, hp, hdead⟩
  · exact ⟨s, by simp [player_shoot, habs], rfl, rfl, rfl⟩
  · exact ⟨s, by simp [player_shoot, hp, hdead], rfl, rfl, rfl⟩

theorem C11_shoot_ignored_witness :
    (∃ s1, player_shoot "a" .undefined 1000 exampleDeadState = .done s1 [] ∧
        s1 = exampleDeadState ∧
        s1.serverBullets = exampleDeadState.serverBullets ∧
        s1.nextBulletId = exampleDeadState.nextBulletId) ∧
      ∃ s1, player_shoot "zz" exampleShot 1000 exampleDeadState = .done s1 [] ∧
        s1 = exampleDeadState ∧
        s1.serverBullets = exampleDeadState.serverBullets ∧
        s1.nextBulletId = exampleDeadState.nextBulletId :=
  ⟨C11_shoot_ignored exampleDeadState "a" .undefined 1000
      (Or.inr ⟨examplePlayer "a" true, rfl, rfl⟩),
    C11_shoot_ignored exampleDeadState "zz" exampleShot 1000 (Or.inl rfl)⟩

/-- C12: on a connection whose identity is not yet a key of `players`, the
handler returns normally; the player store afterwards is the old store
followed by exactly one record under that key, with that id, position
`{x: 0, y: 15, z: 0}`, rotation `{x: 0, y: 0, z: 0, w: 1}` and `isDead`
false, so every other key reads as before (from an empty store the new
record is the only one); bullets, counter and timers are unchanged; and the
first message emitted is the only `init_self`, sent to the new connection
only, carrying the new identity and the whole player store after the
insertion. -/
theorem C12_connection_init (s : ServerState) (socketId : String)
    (hfresh : get? s.players socketId = none) :
    ∃ s1 p e, connection socketId s =
        .done s1 [⟨.only socketId, .init_self socketId s1.players⟩, e] ∧
      p = { id := socketId,
            position := .obj [("x", .num 0), ("y", .num 15), ("z", .num 0)],
            rotation := .obj [("x", .num 0), ("y", .num 0), ("z", .num 0), ("w", .num 1)],
            isDead := false } ∧
      s1.players = s.players ++ [(socketId, p)] ∧
      get? s1.players socketId = some p ∧
      (∀ j, j ≠ socketId → get? s1.players j = get? s.players j) ∧
      (s.players = [] → s1.players = [(socketId, p)]) ∧
      s1.serverBullets = s.serverBullets ∧ s1.nextBulletId = s.nextBulletId ∧
      s1.timers = s.timers ∧
      (∀ c, Target.receives (.only socketId) c = true ↔ c = socketId) ∧
      (∀ ps i, e.event ≠ .init_self i ps) := by
  refine ⟨{ s with players := set s.players socketId
                                ⟨socketId, INITIAL_POS, INITIAL_ROT, false⟩ },
    ⟨socketId, INITIAL_POS, INITIAL_ROT, false⟩,
    ⟨.others socketId, .player_joined ⟨socketId, INITIAL_POS, INITIAL_ROT, false⟩⟩,
    rfl, rfl, set_of_absent _ _ _ hfresh, get?_set_self _ _ _, ?_, ?_, rfl, rfl, rfl, ?_, ?_⟩
  · intro j hj
    exact get?_set_ne _ _ _ _ hj
  · intro hempty
    simp [hempty, set]
  · intro c
    simp [Target.receives]
  · intro ps i
    simp

theorem C12_connection_init_witness :
    ∃ s1 p e, connection "c" exampleState =
        .done s1 [⟨.only "c", .init_self "c" s1.players⟩, e] ∧
      p = { id := "c",
            position := .obj [("x", .num 0), ("y", .num 15), ("z", .num 0)],
            rotation := .obj [("x", .num 0), ("y", .num 0), ("z", .num 0), ("w", .num 1)],
            isDead := false } ∧
      s1.players = exampleState.players ++ [("c", p)] ∧
      get? s1.players "c" = some p ∧
      (∀ j, j ≠ "c" → get? s1.players j = get? exampleState.players j) ∧
      (exampleState.players = [] → s1.players = [("c", p)]) ∧
      s1.serverBullets = exampleState.serverBullets ∧
      s1.nextBulletId = exampleState.nextBulletId ∧
      s1.timers = exampleState.timers ∧
      (∀ c, Target.receives (.only "c") c = true ↔ c = "c") ∧
      (∀ ps i, e.event ≠ .init_self i ps) :=
  C12_connection_init exampleState "c" rfl

/-- C13: on every connection the handler returns normally and the second and
last message it emits is the only `player_joined`; it carries the new
player's full record (the new id, position `{x: 0, y: 15, z: 0}`, rotation
`{x: 0, y: 0, z: 0, w: 1}`, `isDead` false), which is the record stored
under the new key, and it is addressed to every connection other than the
new one and not to the new one. -/
theorem C13_connection_joined (s : ServerState) (socketId : String) :
    ∃ s1 e p, connection socketId s = .done s1 [e, ⟨.others socketId, .player_joined p⟩] ∧
      p = { id := socketId,
            position := .obj [("x", .num 0), ("y", .num 15), ("z", .num 0)],
            rotation := .obj [("x", .num 0), ("y", .num 0), ("z", .num 0), ("w", .num 1)],
            isDead := false } ∧
      get? s1.players socketId = some p ∧
      (∀ q, e.event ≠ .player_joined q) ∧
      Target.receives (.others socketId) socketId = false ∧
      (∀ c, c ≠ socketId → Target.receives (.others socketId) c = true) := by
  refine ⟨_, _, _, rfl, rfl, get?_set_self _ _ _, ?_, ?_, ?_⟩
  · intro q
    simp
  · simp [Target.receives]
  · intro c hc
    simp [Target.receives, hc]

/-- C14: the disconnect of an identity returns normally; afterwards the key
is absent from `players`, every other key reads as before and the remaining
records keep their order; bullets (those owned by the identity included),
counter and timers are unchanged, so the expiry loop of a later tick does to
the bullets what it would have done without the disconnect; exactly one
message is emitted,
`player_left` to all connections, whose payload is the identity alone. -/
theorem C14_disconnect (s : ServerState) (socketId : String) :
    ∃ s1, disconnect socketId s = .done s1 [⟨.all, .player_left socketId⟩] ∧
      get? s1.players socketId = none ∧
      (∀ j, j ≠ socketId → get? s1.players j = get? s.players j) ∧
      s1.players = s.players.filter (fun e => decide (e.1 ≠ socketId)) ∧
      s1.serverBullets = s.serverBullets ∧
      (∀ k b, get? s.serverBullets k = some b → b.ownerId = socketId →
        get? s1.serverBullets k = some b) ∧
      (∀ now, tickLoop now (keys s1.serverBullets) s1.serverBullets [] =
        tickLoop now (keys s.serverBullets) s.serverBullets []) ∧
      s1.nextBulletId = s.nextBulletId ∧ s1.timers = s.timers := by
  refine ⟨{ s with players := delete s.players socketId }, rfl, get?_delete_self _ _, ?_, rfl,
    rfl, ?_, ?_, rfl, rfl⟩
  · intro j hj
    exact get?_delete_ne _ _ _ hj
  · intro k b hb _
    exact hb
  · intro now
    rfl

/-! ## Invariants of runs with fresh connection identities -/

theorem step_effect (op : Op) (s s1 : ServerState) (out : List Emit)
    (h : step op s = .done s1 out) : StepEffect op s s1 := by
  unfold StepEffect
  cases op with
  | connection c =>
    simp only [step, connection, Outcome.done.injEq] at h
    obtain ⟨rfl, rfl⟩ := h
    exact Or.inr (Or.inl ⟨c, rfl, rfl, rfl⟩)
  | player_update c data =>
    simp only [step, player_update] at h
    split at h
    · simp only [Outcome.done.injEq] at h
      obtain ⟨rfl, rfl⟩ := h
      exact Or.inl ⟨by simp, by simp, rfl, rfl⟩
    · rename_i p hp
      split at h
      · simp only [Outcome.done.injEq] at h
        obtain ⟨rfl, rfl⟩ := h
        exact Or.inl ⟨by simp, by simp, rfl, rfl⟩
      · rename_i halive
        have halive1 : p.isDead = false := by simpa using halive
        split at h
        · cases h
        · split at h
          · cases h
          · split at h
            · cases h
            · rename_i position _ _ rotation _
              simp only [Outcome.done.injEq] at h
              obtain ⟨rfl, rfl⟩ := h
              refine Or.inr (Or.inr (Or.inr (Or.inr (Or.inl
                ⟨c, data, p, position, rotation, rfl, hp, halive1, ?_, rfl⟩))))
              simp [set_set, halive1]
  | player_shoot c data now =>
    simp only [step, player_shoot] at h
    split at h
    · simp only [Outcome.done.injEq] at h
      obtain ⟨rfl, rfl⟩ := h
      exact Or.inl ⟨by simp, by simp, rfl, rfl⟩
    · split at h
      · simp only [Outcome.done.injEq] at h
        obtain ⟨rfl, rfl⟩ := h
        exact Or.inl ⟨by simp, by simp, rfl, rfl⟩
      · split at h
        · cases h
        · split at h
          · cases h
          · simp only [Outcome.done.injEq] at h
            obtain ⟨rfl, rfl⟩ := h
            exact Or.inl ⟨by simp, by simp, rfl, rfl⟩
  | player_collision c data =>
    simp only [step, player_collision] at h
    split at h
    · simp only [Outcome.done.injEq] at h
      obtain ⟨rfl, rfl⟩ := h
      exact Or.inl ⟨by simp, by simp, rfl, rfl⟩
    · rename_i p hp
      split at h
      · simp only [Outcome.done.injEq] at h
        obtain ⟨rfl, rfl⟩ := h
        exact Or.inl ⟨by simp, by simp, rfl, rfl⟩
      · rename_i halive
        have halive1 : p.isDead = false := by simpa using halive
        split at h
        case h_1 => cases h
        simp only [Outcome.done.injEq] at h
        obtain ⟨rfl, rfl⟩ := h
        exact Or.inr (Or.inr (Or.inr (Or.inl ⟨c, data, p, rfl, hp, halive1, rfl, rfl⟩)))
  | disconnect c =>
    simp only [step, disconnect, Outcome.done.injEq] at h
    obtain ⟨rfl, rfl⟩ := h
    exact Or.inr (Or.inr (Or.inl ⟨c, rfl, rfl, rfl⟩))
  | timer =>
    simp only [step, fireTimer] at h
    split at h
    · simp only [Outcome.done.injEq] at h
      obtain ⟨rfl, rfl⟩ := h
      exact Or.inl ⟨by simp, by simp, rfl, rfl⟩
    · rename_i task rest htimers
      simp only [respawnCallback] at h
      split at h
      · rename_i habs
        simp only [Outcome.done.injEq] at h
        obtain ⟨rfl, rfl⟩ := h
        exact Or.inr (Or.inr (Or.inr (Or.inr (Or.inr (Or.inl
          ⟨task, rest, rfl, htimers, rfl, habs, rfl⟩)))))
      · rename_i p hp
        simp only [Outcome.done.injEq] at h
        obtain ⟨rfl, rfl⟩ := h
        exact Or.inr (Or.inr (Or.inr (Or.inr (Or.inr (Or.inr
          ⟨task, rest, p, rfl, htimers, rfl, hp, rfl⟩)))))
  | tick now =>
    simp only [step, tick, Outcome.done.injEq] at h
    obtain ⟨rfl, rfl⟩ := h
    exact Or.inl ⟨by simp, by simp, rfl, rfl⟩

theorem get?_eq_none_of_not_mem {α : Type} (o : List (String × α)) (k : String)
    (h : k ∉ keys o) : get? o k = none := by
  cases hget : get? o k with
  | none => rfl
  | some v => exact absurd (mem_keys_of_get? o k v hget) h

theorem keys_delete {α : Type} (o : List (String × α)) (k : String) :
    keys (delete o k) = (keys o).filter (fun i => decide (i ≠ k)) := by
  induction o with
  | nil => rfl
  | cons e rest ih =>
    obtain ⟨k', v'⟩ := e
    simp only [keys, delete] at ih
    by_cases h1 : k' = k
    · simpa [keys, delete, h1] using ih
    · simpa [keys, delete, h1] using ih

theorem run_snoc (ops : List Op) (op : Op) :
    ∀ (s0 s : ServerState) (out : List Emit), run (ops ++ [op]) s0 = some (s, out) →
      ∃ t o1 o2, run ops s0 = some (t, o1) ∧ step op t = .done s o2 ∧ out = o1 ++ o2 := by
  induction ops with
  | nil =>
    intro s0 s out h
    cases hstep : step op s0 with
    | threw t o =>
      simp [run, hstep] at h
    | done t o =>
      simp only [List.nil_append, run, hstep, Option.some.injEq, Prod.mk.injEq] at h
      obtain ⟨rfl, rfl⟩ := h
      exact ⟨s0, [], o, rfl, hstep, by simp⟩
  | cons op0 ops ih =>
    intro s0 s out h
    cases hstep : step op0 s0 with
    | threw t o =>
      simp [run, hstep] at h
    | done t o =>
      have h1 : run (op0 :: (ops ++ [op])) s0 = some (s, out) := h
      rw [run_cons_done op0 _ s0 t o hstep] at h1
      cases hrun : run (ops ++ [op]) t with
      | none =>
        simp [hrun] at h1
      | some r =>
        obtain ⟨t2, o2⟩ := r
        simp only [hrun, Option.map_some', Option.some.injEq, Prod.mk.injEq] at h1
        obtain ⟨rfl, rfl⟩ := h1
        obtain ⟨u, p1, p2, hu, hstep2, hout⟩ := ih t t2 o2 hrun
        refine ⟨u, o ++ p1, p2, ?_, hstep2, by simp [hout]⟩
        rw [run_cons_done op0 ops s0 t o hstep, hu]
        rfl

theorem connectedIds_snoc (ops : List Op) (op : Op) :
    connectedIds (ops ++ [op]) = connectedIds ops ++ connectedIds [op] := by
  simp [connectedIds, List.filterMap_append]

theorem liveIds_snoc (ops : List Op) (op : Op) :
    liveIds (ops ++ [op]) = liveStep (liveIds ops) op := by
  simp [liveIds, List.foldl_append]

theorem connectedIds_single_other (op : Op) (h : ∀ c, op ≠ .connection c) :
    connectedIds [op] = [] := by
  cases op <;> simp_all [connectedIds]

theorem liveStep_other (live : List String) (op : Op) (h1 : ∀ c, op ≠ .connection c)
    (h2 : ∀ c, op ≠ .disconnect c) : liveStep live op = live := by
  cases op <;> simp_all [liveStep]

theorem pendingFor_congr (id : String) (s t : ServerState) (h : s.timers = t.timers) :
    pendingFor id s = pendingFor id t := by
  simp [pendingFor, h]

theorem freshInv_step (ops : List Op) (op : Op) (t s : ServerState) (out : List Emit)
    (hinv : FreshInv ops t) (hstep : step op t = .done s out) (hfresh : Fresh (ops ++ [op])) :
    FreshInv (ops ++ [op]) s := by
  obtain ⟨hkeys, hlive, htimers, hid, hone, hpend⟩ := hinv
  have heff := step_effect op t s out hstep
  unfold FreshInv
  rw [connectedIds_snoc, liveIds_snoc]
  unfold Fresh at hfresh
  rw [connectedIds_snoc] at hfresh
  rcases heff with ⟨hnc, hnd, hp, ht⟩ | ⟨c, rfl, hp, ht⟩ | ⟨c, rfl, hp, ht⟩ |
    ⟨c, d, p, rfl, hget, halive, hp, ht⟩ | ⟨c, d, p, pos, rot, rfl, hget, halive, hp, ht⟩ |
    ⟨task, rest, rfl, hts, ht, habs, hp⟩ | ⟨task, rest, p, rfl, hts, ht, hget, hp⟩
  · rw [connectedIds_single_other op hnc, liveStep_other _ op hnc hnd, List.append_nil]
    have hpf : ∀ id, pendingFor id s = pendingFor id t := fun id => pendingFor_congr id s t ht
    refine ⟨by rw [hp]; exact hkeys, hlive, by rw [ht]; exact htimers,
      by rw [hp]; exact hid, ?_, ?_⟩
    · intro id
      rw [hpf]
      exact hone id
    · intro id q hq
      rw [hpf]
      rw [hp] at hq
      exact hpend id q hq
  · have hcs : connectedIds [Op.connection c] = [c] := rfl
    rw [hcs] at hfresh ⊢
    have hcC : c ∉ connectedIds ops := fun hc =>
      (List.nodup_append.mp hfresh).2.2 hc (List.mem_singleton_self c)
    have hcL : c ∉ liveIds ops := fun hc => hcC (hlive c hc)
    have hcabs : get? t.players c = none :=
      get?_eq_none_of_not_mem _ _ (by rw [hkeys]; exact hcL)
    have hpf : ∀ id, pendingFor id s = pendingFor id t := fun id => pendingFor_congr id s t ht
    have hc0 : pendingFor c t = 0 := by
      unfold pendingFor
      rw [List.countP_eq_zero]
      intro x hx
      have hxc : x.socketId ≠ c := fun hxc => hcC (hxc ▸ (htimers x hx).1)
      simpa using hxc
    refine ⟨?_, ?_, ?_, ?_, ?_, ?_⟩
    · rw [hp, set_of_absent _ _ _ hcabs]
      simp only [keys, List.map_append, List.map_cons, List.map_nil, liveStep]
      simp only [keys] at hkeys
      rw [hkeys]
    · intro id hidm
      simp only [liveStep, List.mem_append, List.mem_singleton] at hidm
      rcases hidm with hidm | hidm
      · exact List.mem_append_left _ (hlive id hidm)
      · exact List.mem_append_right _ (by simp [hidm])
    · intro x hx
      rw [ht] at hx
      exact ⟨List.mem_append_left _ (htimers x hx).1, (htimers x hx).2⟩
    · intro id q hq
      rw [hp] at hq
      by_cases hic : id = c
      · subst hic
        rw [get?_set_self] at hq
        cases hq
        rfl
      · rw [get?_set_ne _ _ _ _ hic] at hq
        exact hid id q hq
    · intro id
      rw [hpf]
      exact hone id
    · intro id q hq
      rw [hp] at hq
      rw [hpf]
      by_cases hic : id = c
      · subst hic
        rw [get?_set_self] at hq
        cases hq
        simpa using hc0
      · rw [get?_set_ne _ _ _ _ hic] at hq
        exact hpend id q hq
  · have hcs : connectedIds [Op.disconnect c] = [] := rfl
    rw [hcs, List.append_nil]
    have hpf : ∀ id, pendingFor id s = pendingFor id t := fun id => pendingFor_congr id s t ht
    have hold : ∀ id q, get? s.players id = some q → get? t.players id = some q := by
      intro id q hq
      rw [hp] at hq
      by_cases hic : id = c
      · subst hic
        rw [get?_delete_self] at hq
        cases hq
      · rwa [get?_delete_ne _ _ _ hic] at hq
    refine ⟨?_, ?_, by rw [ht]; exact htimers, ?_, ?_, ?_⟩
    · rw [hp, keys_delete, hkeys]
      rfl
    · intro id hidm
      simp only [liveStep] at hidm
      exact hlive id (List.mem_of_mem_filter hidm)
    · intro id q hq
      exact hid id q (hold id q hq)
    · intro id
      rw [hpf]
      exact hone id
    · intro id q hq
      rw [hpf]
      exact hpend id q (hold id q hq)
  · have hcs : connectedIds [Op.player_collision c d] = [] := rfl
    rw [hcs, List.append_nil]
    have hls : liveStep (liveIds ops) (Op.player_collision c d) = liveIds ops := rfl
    rw [hls]
    have hc0 : pendingFor c t = 0 := by
      have := hpend c p hget
      simpa [halive] using this
    have hpf : ∀ id, pendingFor id s = pendingFor id t + if c = id then 1 else 0 := by
      intro id
      simp [pendingFor, ht, List.countP_append, List.countP_cons]
    refine ⟨?_, hlive, ?_, ?_, ?_, ?_⟩
    · rw [hp, keys_set_of_get? _ _ _ p hget]
      exact hkeys
    · intro x hx
      rw [ht] at hx
      rcases List.mem_append.mp hx with hx | hx
      · exact htimers x hx
      · simp only [List.mem_singleton] at hx
        subst hx
        refine ⟨hlive c ?_, rfl⟩
        rw [← hkeys]
        exact mem_keys_of_get? _ _ _ hget
    · intro id q hq
      rw [hp] at hq
      by_cases hic : id = c
      · subst hic
        rw [get?_set_self] at hq
        cases hq
        exact hid id p hget
      · rw [get?_set_ne _ _ _ _ hic] at hq
        exact hid id q hq
    · intro id
      rw [hpf]
      by_cases hic : c = id
      · subst hic
        simp [hc0]
      · simpa [hic] using hone id
    · intro id q hq
      rw [hp] at hq
      rw [hpf]
      by_cases hic : id = c
      · subst hic
        rw [get?_set_self] at hq
        cases hq
        simp [hc0]
      · rw [get?_set_ne _ _ _ _ hic] at hq
        have hci : ¬ c = id := fun h => hic h.symm
        simpa [hci] using hpend id q hq
  · have hcs : connectedIds [Op.player_update c d] = [] := rfl
    rw [hcs, List.append_nil]
    have hls : liveStep (liveIds ops) (Op.player_update c d) = liveIds ops := rfl
    rw [hls]
    have hpf : ∀ id, pendingFor id s = pendingFor id t := fun id => pendingFor_congr id s t ht
    refine ⟨?_, hlive, by rw [ht]; exact htimers, ?_, ?_, ?_⟩
    · rw [hp, keys_set_of_get? _ _ _ p hget]
      exact hkeys
    · intro id q hq
      rw [hp] at hq
      by_cases hic : id = c
      · subst hic
        rw [get?_set_self] at hq
        cases hq
        exact hid id p hget
      · rw [get?_set_ne _ _ _ _ hic] at hq
        exact hid id q hq
    · intro id
      rw [hpf]
      exact hone id
    · intro id q hq
      rw [hp] at hq
      rw [hpf]
      by_cases hic : id = c
      · subst hic
        rw [get?_set_self] at hq
        cases hq
        have := hpend id p hget
        simpa [halive] using this
      · rw [get?_set_ne _ _ _ _ hic] at hq
        exact hpend id q hq
  · have hcs : connectedIds [Op.timer] = [] := rfl
    rw [hcs, List.append_nil]
    have hls : liveStep (liveIds ops) Op.timer = liveIds ops := rfl
    rw [hls]
    have hpf : ∀ id, pendingFor id t =
        (if task.socketId = id then 1 else 0) + pendingFor id s := by
      intro id
      simp only [pendingFor, hts, ht, List.countP_cons]
      by_cases hti : task.socketId = id
      · simp [hti, Nat.add_comm]
      · simp [hti]
    refine ⟨by rw [hp]; exact hkeys, hlive, ?_, by rw [hp]; exact hid, ?_, ?_⟩
    · intro x hx
      rw [ht] at hx
      exact htimers x (by rw [hts]; exact List.mem_cons_of_mem _ hx)
    · intro id
      have h1 := hone id
      rw [hpf id] at h1
      omega
    · intro id q hq
      rw [hp] at hq
      have hti : ¬ task.socketId = id := by
        intro hti
        rw [hti] at habs
        rw [habs] at hq
        cases hq
      have h1 := hpend id q hq
      rw [hpf id] at h1
      simpa [hti] using h1
  · have hcs : connectedIds [Op.timer] = [] := rfl
    rw [hcs, List.append_nil]
    have hls : liveStep (liveIds ops) Op.timer = liveIds ops := rfl
    rw [hls]
    have hpf : ∀ id, pendingFor id t =
        (if task.socketId = id then 1 else 0) + pendingFor id s := by
      intro id
      simp only [pendingFor, hts, ht, List.countP_cons]
      by_cases hti : task.socketId = id
      · simp [hti, Nat.add_comm]
      · simp [hti]
    refine ⟨?_, hlive, ?_, ?_, ?_, ?_⟩
    · rw [hp, keys_set_of_get? _ _ _ p hget]
      exact hkeys
    · intro x hx
      rw [ht] at hx
      exact htimers x (by rw [hts]; exact List.mem_cons_of_mem _ hx)
    · intro id q hq
      rw [hp] at hq
      by_cases hic : id = task.socketId
      · subst hic
        rw [get?_set_self] at hq
        cases hq
        exact hid _ p hget
      · rw [get?_set_ne _ _ _ _ hic] at hq
        exact hid id q hq
    · intro id
      have h1 := hone id
      rw [hpf id] at h1
      omega
    · intro id q hq
      rw [hp] at hq
      by_cases hic : id = task.socketId
      · subst hic
        rw [get?_set_self] at hq
        cases hq
        have h1 := hone task.socketId
        rw [hpf task.socketId] at h1
        simp only [if_true] at h1
        have h2 : pendingFor task.socketId s = 0 := by omega
        simpa using h2
      · rw [get?_set_ne _ _ _ _ hic] at hq
        have hti : ¬ task.socketId = id := fun h => hic h.symm
        have h1 := hpend id q hq
        rw [hpf id] at h1
        simpa [hti] using h1

/-- Every run from start-up with fresh connection identities ends in a state
that satisfies the invariant. -/
theorem run_freshInv (ops : List Op) :
    ∀ (s : ServerState) (out : List Emit), run ops ServerState.initial = some (s, out) →
      Fresh ops → FreshInv ops s := by
  induction ops using List.reverseRecOn with
  | nil =>
    intro s out h _
    simp only [run, Option.some.injEq, Prod.mk.injEq] at h
    obtain ⟨rfl, rfl⟩ := h
    refine ⟨rfl, ?_, ?_, ?_, ?_, ?_⟩
    · intro id hidm
      simp [liveIds] at hidm
    · intro x hx
      simp [ServerState.initial] at hx
    · intro id p hp
      simp [ServerState.initial, get?] at hp
    · intro id
      simp [pendingFor, ServerState.initial]
    · intro id p hp
      simp [ServerState.initial, get?] at hp
  | append_singleton ops op ih =>
    intro s out h hfresh
    obtain ⟨t, o1, o2, hrun, hstep, _⟩ := run_snoc ops op ServerState.initial s out h
    have hfresh0 : Fresh ops := by
      unfold Fresh at hfresh ⊢
      rw [connectedIds_snoc] at hfresh
      exact (List.nodup_append.mp hfresh).1
    exact freshInv_step ops op t s o2 (ih t o1 hrun hfresh0) hstep hfresh

theorem liveIds_sublist (ops : List Op) : (liveIds ops).Sublist (connectedIds ops) := by
  induction ops using List.reverseRecOn with
  | nil => exact List.Sublist.refl _
  | append_singleton ops op ih =>
    rw [liveIds_snoc, connectedIds_snoc]
    cases op with
    | connection c =>
      exact List.Sublist.append ih (List.Sublist.refl _)
    | disconnect c =>
      exact (List.filter_sublist _).trans (ih.trans (List.sublist_append_left _ _))
    | player_update c d => exact ih.trans (List.sublist_append_left _ _)
    | player_shoot c d now => exact ih.trans (List.sublist_append_left _ _)
    | player_collision c d => exact ih.trans (List.sublist_append_left _ _)
    | timer => exact ih.trans (List.sublist_append_left _ _)
    | tick now => exact ih.trans (List.sublist_append_left _ _)

/-- C15: after every run from start-up in which connection identities are
fresh (connections, disconnects, moves, shots, collision reports, timer
firings and ticks in any order, commands of disconnected identities
included), the keys of `players` are exactly the identities of the live
connections (connected and not yet disconnected), each once; every stored
record has its key as `id`; and an identity that is not live has no record. -/
theorem C15_players_are_live (ops : List Op) (s : ServerState) (out : List Emit)
    (hrun : run ops ServerState.initial = some (s, out)) (hfresh : Fresh ops) :
    keys s.players = liveIds ops ∧ (keys s.players).Nodup ∧
      (∀ id p, get? s.players id = some p → p.id = id) ∧
      (∀ id, id ∉ liveIds ops → get? s.players id = none) := by
  obtain ⟨hkeys, _, _, hid, _, _⟩ := run_freshInv ops s out hrun hfresh
  refine ⟨hkeys, ?_, hid, ?_⟩
  · rw [hkeys]
    exact List.Nodup.sublist (liveIds_sublist ops) hfresh
  · intro id hnot
    exact get?_eq_none_of_not_mem _ _ (by rw [hkeys]; exact hnot)

theorem C15_players_are_live_witness :
    ∃ s out, run exampleRun ServerState.initial = some (s, out) ∧
      liveIds exampleRun = ["b"] ∧
      (keys s.players = liveIds exampleRun ∧ (keys s.players).Nodup ∧
        (∀ id p, get? s.players id = some p → p.id = id) ∧
        (∀ id, id ∉ liveIds exampleRun → get? s.players id = none)) :=
  ⟨_, _, rfl, rfl,
    C15_players_are_live exampleRun _ _ rfl
      (by
        show (connectedIds exampleRun).Nodup
        decide)⟩

/-- C20: after every run from start-up with fresh connection identities, no
connection has more than one pending respawn task; a present player that is
dead has exactly one pending task of its connection and a present player
that is alive has none (so the reset that makes it alive leaves no second
reset pending); and every pending task has the delay 3000. -/
theorem C20_one_pending_respawn (ops : List Op) (s : ServerState) (out : List Emit)
    (hrun : run ops ServerState.initial = some (s, out)) (hfresh : Fresh ops) :
    (∀ id, pendingFor id s ≤ 1) ∧
      (∀ id p, get? s.players id = some p → p.isDead = true → pendingFor id s = 1) ∧
      (∀ id p, get? s.players id = some p → p.isDead = false → pendingFor id s = 0) ∧
      (∀ t ∈ s.timers, t.delay = 3000) := by
  obtain ⟨_, _, htimers, _, hone, hpend⟩ := run_freshInv ops s out hrun hfresh
  refine ⟨hone, ?_, ?_, fun t ht => (htimers t ht).2⟩
  · intro id p hp hdead
    simpa [hdead] using hpend id p hp
  · intro id p hp halive
    simpa [halive] using hpend id p hp

theorem C20_one_pending_respawn_witness :
    ∃ s out,
      run [Op.connection "a", Op.connection "b",
           Op.player_collision "a" (.obj [("type", .str "ground")]),
           Op.player_collision "a" (.obj [("type", .str "ground")]),
           Op.player_collision "b" .undefined, Op.timer,
           Op.player_collision "a" .undefined] ServerState.initial = some (s, out) ∧
      s.timers = [⟨"b", 3000⟩, ⟨"a", 3000⟩] ∧
      ((∀ id, pendingFor id s ≤ 1) ∧
        (∀ id p, get? s.players id = some p → p.isDead = true → pendingFor id s = 1) ∧
        (∀ id p, get? s.players id = some p → p.isDead = false → pendingFor id s = 0) ∧
        (∀ t ∈ s.timers, t.delay = 3000)) :=
  ⟨_, _, rfl, rfl,
    C20_one_pending_respawn
      [Op.connection "a", Op.connection "b",
       Op.player_collision "a" (.obj [("type", .str "ground")]),
       Op.player_collision "a" (.obj [("type", .str "ground")]),
       Op.player_collision "b" .undefined, Op.timer,
       Op.player_collision "a" .undefined] _ _ rfl
      (by
        show (connectedIds _).Nodup
        decide)⟩

/-- C17: let `s` be the state after a run from start-up, and let the next
handler `op` return (connection identities fresh throughout).  A connection
stores its player with `isDead` false.  For a player `id` present before and
after the handler, `isDead` is unchanged, or it went from false to true and
the handler was a `player_collision` of `id` itself, or it went from true to
false and the handler was the firing of the oldest pending task, which is the
task of `id` with delay 3000.  In particular `player_update`,
`player_shoot`, a tick and every event that belongs to another connection
leave `isDead` of `id` as it was. -/
theorem C17_isDead_cycle (ops : List Op) (s : ServerState) (out : List Emit)
    (op : Op) (s1 : ServerState) (out1 : List Emit) (id : String) (p p1 : Player)
    (hrun : run ops ServerState.initial = some (s, out))
    (hstep : step op s = .done s1 out1) (hfresh : Fresh (ops ++ [op]))
    (hp : get? s.players id = some p) (hp1 : get? s1.players id = some p1) :
    (∀ c, op = .connection c →
        get? s1.players c = some ⟨c, INITIAL_POS, INITIAL_ROT, false⟩) ∧
      (p1.isDead = p.isDead ∨
        (p.isDead = false ∧ p1.isDead = true ∧ ∃ d, op = .player_collision id d) ∨
        (p.isDead = true ∧ p1.isDead = false ∧ op = .timer ∧
          ∃ rest, s.timers = ⟨id, 3000⟩ :: rest)) ∧
      (∀ c d, op = .player_update c d → p1.isDead = p.isDead) ∧
      (∀ c d now, op = .player_shoot c d now → p1.isDead = p.isDead) ∧
      (∀ now, op = .tick now → p1.isDead = p.isDead) ∧
      (Op.actor s op ≠ some id → p1.isDead = p.isDead) := by
  have hfresh0 : Fresh ops := by
    unfold Fresh at hfresh ⊢
    rw [connectedIds_snoc] at hfresh
    exact (List.nodup_append.mp hfresh).1
  obtain ⟨hkeys, hlive, htimers, _, _, _⟩ := run_freshInv ops s out hrun hfresh0
  have hcases : p1.isDead = p.isDead ∨
      (p.isDead = false ∧ p1.isDead = true ∧ ∃ d, op = .player_collision id d) ∨
      (p.isDead = true ∧ p1.isDead = false ∧ op = .timer ∧
        ∃ rest, s.timers = ⟨id, 3000⟩ :: rest) := by
    rcases step_effect op s s1 out1 hstep with ⟨_, _, hpl, _⟩ | ⟨c, rfl, hpl, _⟩ |
      ⟨c, rfl, hpl, _⟩ | ⟨c, d, q, rfl, hget, halive, hpl, _⟩ |
      ⟨c, d, q, pos, rot, rfl, hget, halive, hpl, _⟩ | ⟨task, rest, rfl, _, _, _, hpl⟩ |
      ⟨task, rest, q, rfl, hts, _, hget, hpl⟩
    · rw [hpl, hp] at hp1
      cases hp1
      exact Or.inl rfl
    · have hic : id ≠ c := by
        rintro rfl
        unfold Fresh at hfresh
        rw [connectedIds_snoc] at hfresh
        have hmem : id ∈ connectedIds ops :=
          hlive id (by rw [← hkeys]; exact mem_keys_of_get? _ _ _ hp)
        exact (List.nodup_append.mp hfresh).2.2 hmem (by simp [connectedIds])
      rw [hpl, get?_set_ne _ _ _ _ hic, hp] at hp1
      cases hp1
      exact Or.inl rfl
    · have hic : id ≠ c := by
        rintro rfl
        rw [hpl, get?_delete_self] at hp1
        cases hp1
      rw [hpl, get?_delete_ne _ _ _ hic, hp] at hp1
      cases hp1
      exact Or.inl rfl
    · by_cases hic : id = c
      · subst hic
        rw [hpl, get?_set_self] at hp1
        rw [hget] at hp
        cases hp
        cases hp1
        exact Or.inr (Or.inl ⟨halive, rfl, d, rfl⟩)
      · rw [hpl, get?_set_ne _ _ _ _ hic, hp] at hp1
        cases hp1
        exact Or.inl rfl
    · by_cases hic : id = c
      · subst hic
        rw [hpl, get?_set_self] at hp1
        rw [hget] at hp
        cases hp
        cases hp1
        exact Or.inl halive.symm
      · rw [hpl, get?_set_ne _ _ _ _ hic, hp] at hp1
        cases hp1
        exact Or.inl rfl
    · rw [hpl, hp] at hp1
      cases hp1
      exact Or.inl rfl
    · by_cases hic : id = task.socketId
      · subst hic
        rw [hpl, get?_set_self] at hp1
        rw [hget] at hp
        cases hp
        cases hp1
        cases hdead : p.isDead with
        | false => exact Or.inl rfl
        | true =>
          refine Or.inr (Or.inr ⟨rfl, rfl, rfl, rest, ?_⟩)
          have hdelay : task.delay = 3000 := (htimers task (by rw [hts]; simp)).2
          rw [hts]
          cases task
          simp_all
      · rw [hpl, get?_set_ne _ _ _ _ hic, hp] at hp1
        cases hp1
        exact Or.inl rfl
  refine ⟨?_, hcases, ?_, ?_, ?_, ?_⟩
  · rintro c rfl
    simp only [step, connection, Outcome.done.injEq] at hstep
    obtain ⟨rfl, rfl⟩ := hstep
    exact get?_set_self _ _ _
  · rintro c d rfl
    rcases hcases with h | ⟨_, _, d1, h⟩ | ⟨_, _, h, _⟩
    · exact h
    · cases h
    · cases h
  · rintro c d now rfl
    rcases hcases with h | ⟨_, _, d1, h⟩ | ⟨_, _, h, _⟩
    · exact h
    · cases h
    · cases h
  · rintro now rfl
    rcases hcases with h | ⟨_, _, d1, h⟩ | ⟨_, _, h, _⟩
    · exact h
    · cases h
    · cases h
  · intro hactor
    rcases hcases with h | ⟨_, _, d1, rfl⟩ | ⟨_, _, rfl, rest, hts⟩
    · exact h
    · exact absurd rfl hactor
    · exact absurd (by simp [Op.actor, hts]) hactor

theorem C17_isDead_cycle_witness :
    (∀ c, Op.player_collision "a" (.obj [("type", .str "ground")]) = .connection c →
        get? exampleDeadState.players c = some ⟨c, INITIAL_POS, INITIAL_ROT, false⟩) ∧
      ((examplePlayer "a" true).isDead = (examplePlayer "a" false).isDead ∨
        ((examplePlayer "a" false).isDead = false ∧ (examplePlayer "a" true).isDead = true ∧
          ∃ d, Op.player_collision "a" (.obj [("type", .str "ground")]) =
            .player_collision "a" d) ∨
        ((examplePlayer "a" false).isDead = true ∧ (examplePlayer "a" true).isDead = false ∧
          Op.player_collision "a" (.obj [("type", .str "ground")]) = .timer ∧
          ∃ rest, exampleState.timers = ⟨"a", 3000⟩ :: rest)) ∧
      (∀ c d, Op.player_collision "a" (.obj [("type", .str "ground")]) = .player_update c d →
        (examplePlayer "a" true).isDead = (examplePlayer "a" false).isDead) ∧
      (∀ c d now,
        Op.player_collision "a" (.obj [("type", .str "ground")]) = .player_shoot c d now →
        (examplePlayer "a" true).isDead = (examplePlayer "a" false).isDead) ∧
      (∀ now, Op.player_collision "a" (.obj [("type", .str "ground")]) = .tick now →
        (examplePlayer "a" true).isDead = (examplePlayer "a" false).isDead) ∧
      (Op.actor exampleState (Op.player_collision "a" (.obj [("type", .str "ground")])) ≠
          some "a" →
        (examplePlayer "a" true).isDead = (examplePlayer "a" false).isDead) :=
  C17_isDead_cycle [Op.connection "a", Op.connection "b"] exampleState
    [⟨.only "a", .init_self "a" [("a", examplePlayer "a" false)]⟩,
     ⟨.others "a", .player_joined (examplePlayer "a" false)⟩,
     ⟨.only "b", .init_self "b" exampleState.players⟩,
     ⟨.others "b", .player_joined (examplePlayer "b" false)⟩]
    (Op.player_collision "a" (.obj [("type", .str "ground")])) exampleDeadState
    [⟨.all, .player_exploded "a" INITIAL_POS⟩] "a" (examplePlayer "a" false)
    (examplePlayer "a" true) rfl rfl
    (by
      show (connectedIds _).Nodup
      decide)
    rfl rfl

/-! ## Malformed payloads -/

/-- C16, the code at the failing inputs.  From the state reached when `a`
and `b` have connected, the `player_update` handler of the live player `a`
raises a `TypeError` and stores nothing for a payload without `position`
and for a payload whose `x` is not a number; the `player_shoot` handler
raises for a missing payload, after the counter was advanced; a run that
contains such a command does not go on.  The `player_collision` handler,
which reads its payload with `?.`, returns for a missing descriptor. -/
theorem C16_malformed_payload_throws :
    run [Op.connection "a", Op.connection "b"] ServerState.initial =
        some (exampleState,
          [⟨.only "a", .init_self "a" [("a", examplePlayer "a" false)]⟩,
           ⟨.others "a", .player_joined (examplePlayer "a" false)⟩,
           ⟨.only "b", .init_self "b" exampleState.players⟩,
           ⟨.others "b", .player_joined (examplePlayer "b" false)⟩]) ∧
      player_update "a" (.obj [("rotation", INITIAL_ROT)]) exampleState =
        .threw exampleState [] ∧
      player_update "a"
          (.obj [("position", .obj [("x", .str "1"), ("y", .num 2), ("z", .num 3)]),
                 ("rotation", INITIAL_ROT)]) exampleState =
        .threw exampleState [] ∧
      player_shoot "a" .undefined 1000 exampleState =
        .threw { exampleState with nextBulletId := 1 } [] ∧
      run [Op.connection "a", Op.connection "b",
           Op.player_update "a" (.obj [("rotation", INITIAL_ROT)])] ServerState.initial = none ∧
      player_collision "a" .undefined exampleState =
        .done exampleDeadState [⟨.all, .player_exploded "a" INITIAL_POS⟩] :=
  ⟨rfl, rfl, rfl, rfl, rfl, rfl⟩

theorem updateLog_ok_iff (data : JSVal) : updateLog data = .ok () ↔ WellFormedUpdate data := by
  constructor
  · intro h
    cases data with
    | obj fields =>
      cases hpos : get? fields "position" with
      | none => simp [updateLog, JSVal.getProp, hpos] at h
      | some pos =>
        cases pos with
        | obj pf =>
          have hx : ∃ x, get? pf "x" = some (.num x) := by
            cases hx : get? pf "x" with
            | none => simp [updateLog, JSVal.getProp, JSVal.toFixed, hpos, hx] at h
            | some v =>
              cases v <;> simp [updateLog, JSVal.getProp, JSVal.toFixed, hpos, hx] at h ⊢
          obtain ⟨x, hx⟩ := hx
          have hy : ∃ y, get? pf "y" = some (.num y) := by
            cases hy : get? pf "y" with
            | none => simp [updateLog, JSVal.getProp, JSVal.toFixed, hpos, hx, hy] at h
            | some v =>
              cases v <;> simp [updateLog, JSVal.getProp, JSVal.toFixed, hpos, hx, hy] at h ⊢
          obtain ⟨y, hy⟩ := hy
          have hz : ∃ z, get? pf "z" = some (.num z) := by
            cases hz : get? pf "z" with
            | none => simp [updateLog, JSVal.getProp, JSVal.toFixed, hpos, hx, hy, hz] at h
            | some v =>
              cases v <;>
                simp [updateLog, JSVal.getProp, JSVal.toFixed, hpos, hx, hy, hz] at h ⊢
          obtain ⟨z, hz⟩ := hz
          exact ⟨fields, pf, x, y, z, rfl, hpos, hx, hy, hz⟩
        | undefined => simp [updateLog, JSVal.getProp, hpos] at h
        | null => simp [updateLog, JSVal.getProp, hpos] at h
        | bool b => simp [updateLog, JSVal.getProp, JSVal.toFixed, hpos] at h
        | num n => simp [updateLog, JSVal.getProp, JSVal.toFixed, hpos] at h
        | str t => simp [updateLog, JSVal.getProp, JSVal.toFixed, hpos] at h
        | arr items => simp [updateLog, JSVal.getProp, JSVal.toFixed, hpos] at h
    | undefined => simp [updateLog, JSVal.getProp] at h
    | null => simp [updateLog, JSVal.getProp] at h
    | bool b => simp [updateLog, JSVal.getProp] at h
    | num n => simp [updateLog, JSVal.getProp] at h
    | str t => simp [updateLog, JSVal.getProp] at h
    | arr items => simp [updateLog, JSVal.getProp] at h
  · exact updateLog_of_wellFormed data

/-- For a live sender the `player_update` handler returns exactly on the
well-formed payloads; on every other payload it raises and stores nothing. -/
theorem player_update_alive_throws (s : ServerState) (socketId : String) (p : Player)
    (data : JSVal) (hp : get? s.players socketId = some p) (halive : p.isDead = false)
    (hbad : ¬ WellFormedUpdate data) :
    player_update socketId data s = .threw s [] := by
  have hlog : updateLog data ≠ .ok () := fun h => hbad ((updateLog_ok_iff data).mp h)
  simp only [player_update, hp, halive]
  cases hl : updateLog data with
  | error e => simp
  | ok u =>
    cases u
    exact absurd hl hlog

/-! ## Bullet records are never rewritten -/

/-- How one handler changes the bullet store, with the handler named: not at
all, by the expiry loop of a tick, or by the one assignment of an accepted
shot under the key of the counter. -/
theorem step_bullets_op (op : Op) (s s1 : ServerState) (out : List Emit)
    (h : step op s = .done s1 out) :
    s1.serverBullets = s.serverBullets ∨
      (∃ now, op = .tick now ∧
        s1.serverBullets = (tickLoop now (keys s.serverBullets) s.serverBullets []).1) ∨
      ∃ c d now b, op = .player_shoot c d now ∧
        s1.serverBullets = set s.serverBullets (bulletKey s.nextBulletId) b := by
  cases op <;>
    simp only [step, connection, player_update, player_shoot, player_collision, disconnect,
      fireTimer, respawnCallback, tick] at h <;>
    (repeat' split at h) <;>
    first
    | (cases h; done)
    | (simp only [Outcome.done.injEq] at h
       obtain ⟨rfl, rfl⟩ := h
       first
       | exact Or.inl rfl
       | exact Or.inr (Or.inl ⟨_, rfl, rfl⟩)
       | exact Or.inr (Or.inr ⟨_, _, _, _, rfl, rfl⟩))

/-- One handler leaves the record under an allocated key as it is, or, when
it is a tick at which the bullet is expired, removes it. -/
theorem step_bullet_record (op : Op) (s s1 : ServerState) (out : List Emit) (k : String)
    (b : Bullet) (h : step op s = .done s1 out) (hinv : BulletsAllocated s)
    (hb : get? s.serverBullets k = some b) :
    get? s1.serverBullets k = some b ∨
      (get? s1.serverBullets k = none ∧ ∃ now, op = .tick now ∧ now - b.startTime > b.life) := by
  rcases step_bullets_op op s s1 out h with hs | ⟨now, rfl, hs⟩ | ⟨c, d, now, bnew, rfl, hs⟩
  · rw [hs]
    exact Or.inl hb
  · rw [hs, tickLoop_get?]
    by_cases hx : expired now b = true
    · right
      refine ⟨?_, now, rfl, by simpa [expired] using hx⟩
      simp [mem_keys_of_get? _ _ _ hb, hb, hx]
    · left
      simp [hb, hx]
  · left
    obtain ⟨i, hi, hki⟩ := hinv k b hb
    have hne : k ≠ bulletKey s.nextBulletId := by
      intro hk
      have := bulletKey_injective _ _ (hki.symm.trans hk)
      omega
    rw [hs, get?_set_ne _ _ _ _ hne]
    exact hb

/-- Along a run, the key of a bullet that was allocated holds the same record
or nothing: it is never written again. -/
theorem run_bullet_record (k : String) (b : Bullet) (ops : List Op) :
    ∀ (s s1 : ServerState) (out : List Emit), run ops s = some (s1, out) →
      BulletsAllocated s → (∃ i, i < s.nextBulletId ∧ k = bulletKey i) →
      (∀ b0, get? s.serverBullets k = some b0 → b0 = b) →
      ∀ b1, get? s1.serverBullets k = some b1 → b1 = b := by
  induction ops with
  | nil =>
    intro s s1 out h _ _ hb b1 hb1
    simp only [run, Option.some.injEq, Prod.mk.injEq] at h
    obtain ⟨rfl, rfl⟩ := h
    exact hb b1 hb1
  | cons op ops ih =>
    intro s s1 out h hinv hidx hb
    cases hstep : step op s with
    | threw t o =>
      simp [run, hstep] at h
    | done t o =>
      rw [run_cons_done op ops s t o hstep] at h
      cases hrun : run ops t with
      | none =>
        simp [hrun] at h
      | some r =>
        obtain ⟨t2, o2⟩ := r
        simp only [hrun, Option.map_some', Option.some.injEq, Prod.mk.injEq] at h
        obtain ⟨rfl, rfl⟩ := h
        obtain ⟨i, hi, hki⟩ := hidx
        have hmono : s.nextBulletId ≤ t.nextBulletId := by
          rcases step_counter op s t o hstep with ⟨hn, _, _⟩ | ⟨hn, _, _⟩ <;> omega
        refine ih t t2 o2 hrun (bulletsAllocated_step op s t o hstep hinv)
          ⟨i, by omega, hki⟩ ?_
        intro b0 hb0
        cases hold : get? s.serverBullets k with
        | none =>
          rcases step_bullets_op op s t o hstep with hs | ⟨now, _, hs⟩ | ⟨c, d, now, bn, _, hs⟩
          · rw [hs, hold] at hb0
            cases hb0
          · rw [hs, tickLoop_get?, hold] at hb0
            simp at hb0
          · have hne : k ≠ bulletKey s.nextBulletId := by
              intro hk
              have := bulletKey_injective _ _ (hki.symm.trans hk)
              omega
            rw [hs, get?_set_ne _ _ _ _ hne, hold] at hb0
            cases hb0
        | some bs =>
          have hbs : bs = b := hb bs hold
          subst hbs
          rcases step_bullet_record op s t o k bs hstep hinv hold with h1 | ⟨h1, _⟩
          · rw [h1] at hb0
            cases hb0
            rfl
          · rw [h1] at hb0
            cases hb0

/-- C18: for a bullet record `b` stored under key `k` in a reachable state:
every handler that returns (connection, disconnect, move, shot, collision
report, timer firing, tick) leaves exactly that record under `k`, with the
same id, ownerId, position, velocity, startTime and life, unless it is a tick
at a time `now` with `now - startTime > life`, which removes it; a tick keeps
or removes by that test alone; and after every run from there, a record
found under `k` is still `b`. -/
theorem C18_bullets_immutable (s : ServerState) (k : String) (b : Bullet)
    (hreach : Reachable s) (hb : get? s.serverBullets k = some b) :
    (∀ op s1 out, step op s = .done s1 out →
        get? s1.serverBullets k = some b ∨
          (get? s1.serverBullets k = none ∧
            ∃ now, op = .tick now ∧ now - b.startTime > b.life)) ∧
      (∀ now, ∃ s1 out, tick now s = .done s1 out ∧
        get? s1.serverBullets k = if now - b.startTime > b.life then none else some b) ∧
      (∀ ops s1 out, run ops s = some (s1, out) →
        ∀ b1, get? s1.serverBullets k = some b1 → b1 = b) := by
  have hinv := bulletsAllocated_of_reachable s hreach
  refine ⟨?_, ?_, ?_⟩
  · intro op s1 out hstep
    exact step_bullet_record op s s1 out k b hstep hinv hb
  · intro now
    refine ⟨_, _, rfl, ?_⟩
    simp only [tickLoop_get?]
    by_cases hx : now - b.startTime > b.life
    · simp [mem_keys_of_get? _ _ _ hb, hb, expired, hx]
    · simp [hb, expired, hx]
  · intro ops s1 out hrun b1 hb1
    refine run_bullet_record k b ops s s1 out hrun hinv (hinv k b hb) ?_ b1 hb1
    intro b0 hb0
    rw [hb] at hb0
    cases hb0
    rfl

theorem C18_bullets_immutable_witness :
    (∀ op s1 out, step op exampleBulletState = .done s1 out →
        get? s1.serverBullets "bullet_0" = some exampleBullet ∨
          (get? s1.serverBullets "bullet_0" = none ∧
            ∃ now, op = .tick now ∧ now - exampleBullet.startTime > exampleBullet.life)) ∧
      (∀ now, ∃ s1 out, tick now exampleBulletState = .done s1 out ∧
        get? s1.serverBullets "bullet_0" =
          if now - exampleBullet.startTime > exampleBullet.life then none
          else some exampleBullet) ∧
      (∀ ops s1 out, run ops exampleBulletState = some (s1, out) →
        ∀ b1, get? s1.serverBullets "bullet_0" = some b1 → b1 = exampleBullet) :=
  C18_bullets_immutable exampleBulletState "bullet_0" exampleBullet
    ⟨[Op.connection "a", Op.connection "b", Op.player_shoot "a" exampleShot 1000],
     [⟨.only "a", .init_self "a" [("a", examplePlayer "a" false)]⟩,
      ⟨.others "a", .player_joined (examplePlayer "a" false)⟩,
      ⟨.only "b", .init_self "b" exampleState.players⟩,
      ⟨.others "b", .player_joined (examplePlayer "b" false)⟩,
      ⟨.all, .bullet_fired exampleBullet⟩], rfl⟩
    rfl

/-! ## End-to-end trace -/

/-- C19: from the empty server, for two distinct identities `a` and `b`, a
well-formed pose payload, a collision descriptor whose `type` is falsy or
converts to a string (the log of the collision handler returns; the client
sends `{ type: "ground" }`) and any tick time, the run "a connects, b
connects, b moves, tick, b reports a collision, b's respawn task fires"
completes.  Its messages are, in order: `init_self` to `a` only
with the map holding `a` only; `player_joined` of `a` to the others;
`init_self` to `b` only with both players; `player_joined` with `b`'s record
to all but `b` (so to `a`, not to `b`); the tick's `game_state_update` to all,
mapping `a` to the spawn pose and `b` to the payload's pose;
`player_exploded` to all (so to `a` and to `b`) with `b`'s id and that
position; `player_reset` to `b` only and `player_respawned` to all but `b`,
both with `b`'s record at position `{x: 0, y: 15, z: 0}`, rotation
`{x: 0, y: 0, z: 0, w: 1}`, `isDead` false.  Before the firing, `b` is dead at
the moved pose and the pending timers are the one task of `b` with delay
3000. -/
theorem C19_end_to_end (a b : String) (pose collisionData : JSVal) (now : Int)
    (hab : a ≠ b) (hpose : WellFormedUpdate pose)
    (hlog : collisionLog collisionData = .ok ()) :
    run [Op.connection a, Op.connection b, Op.player_update b pose, Op.tick now,
         Op.player_collision b collisionData, Op.timer] ServerState.initial =
      some
        (⟨[(a, ⟨a, INITIAL_POS, INITIAL_ROT, false⟩), (b, ⟨b, INITIAL_POS, INITIAL_ROT, false⟩)],
          [], 0, []⟩,
         [⟨.only a, .init_self a [(a, ⟨a, INITIAL_POS, INITIAL_ROT, false⟩)]⟩,
          ⟨.others a, .player_joined ⟨a, INITIAL_POS, INITIAL_ROT, false⟩⟩,
          ⟨.only b, .init_self b
            [(a, ⟨a, INITIAL_POS, INITIAL_ROT, false⟩),
             (b, ⟨b, INITIAL_POS, INITIAL_ROT, false⟩)]⟩,
          ⟨.others b, .player_joined ⟨b, INITIAL_POS, INITIAL_ROT, false⟩⟩,
          ⟨.all, .game_state_update
            [(a, ⟨a, INITIAL_POS, INITIAL_ROT, false⟩),
             (b, ⟨b, pose.getPropOpt "position", pose.getPropOpt "rotation", false⟩)]⟩,
          ⟨.all, .player_exploded b (pose.getPropOpt "position")⟩,
          ⟨.only b, .player_reset
            ⟨b, .obj [("x", .num 0), ("y", .num 15), ("z", .num 0)],
              .obj [("x", .num 0), ("y", .num 0), ("z", .num 0), ("w", .num 1)], false⟩⟩,
          ⟨.others b, .player_respawned
            ⟨b, .obj [("x", .num 0), ("y", .num 15), ("z", .num 0)],
              .obj [("x", .num 0), ("y", .num 0), ("z", .num 0), ("w", .num 1)], false⟩⟩]) ∧
      (∃ out5,
        run [Op.connection a, Op.connection b, Op.player_update b pose, Op.tick now,
             Op.player_collision b collisionData] ServerState.initial =
          some
            (⟨[(a, ⟨a, INITIAL_POS, INITIAL_ROT, false⟩),
               (b, ⟨b, pose.getPropOpt "position", pose.getPropOpt "rotation", true⟩)],
              [], 0, [⟨b, 3000⟩]⟩, out5)) ∧
      Target.receives (.only a) a = true ∧ Target.receives (.only a) b = false ∧
      Target.receives (.others b) a = true ∧ Target.receives (.others b) b = false ∧
      Target.receives .all a = true ∧ Target.receives .all b = true ∧
      Target.receives (.only b) b = true ∧ Target.receives (.only b) a = false := by
  have hba : b ≠ a := Ne.symm hab
  have h1 : step (Op.connection a) ServerState.initial =
      .done ⟨[(a, ⟨a, INITIAL_POS, INITIAL_ROT, false⟩)], [], 0, []⟩
        [⟨.only a, .init_self a [(a, ⟨a, INITIAL_POS, INITIAL_ROT, false⟩)]⟩,
         ⟨.others a, .player_joined ⟨a, INITIAL_POS, INITIAL_ROT, false⟩⟩] := rfl
  have h2 : step (Op.connection b) ⟨[(a, ⟨a, INITIAL_POS, INITIAL_ROT, false⟩)], [], 0, []⟩ =
      .done
        ⟨[(a, ⟨a, INITIAL_POS, INITIAL_ROT, false⟩), (b, ⟨b, INITIAL_POS, INITIAL_ROT, false⟩)],
          [], 0, []⟩
        [⟨.only b, .init_self b
            [(a, ⟨a, INITIAL_POS, INITIAL_ROT, false⟩),
             (b, ⟨b, INITIAL_POS, INITIAL_ROT, false⟩)]⟩,
         ⟨.others b, .player_joined ⟨b, INITIAL_POS, INITIAL_ROT, false⟩⟩] := by
    simp [step, connection, set, hab]
  have h3 : step (Op.player_update b pose)
      ⟨[(a, ⟨a, INITIAL_POS, INITIAL_ROT, false⟩), (b, ⟨b, INITIAL_POS, INITIAL_ROT, false⟩)],
        [], 0, []⟩ =
      .done
        ⟨[(a, ⟨a, INITIAL_POS, INITIAL_ROT, false⟩),
          (b, ⟨b, pose.getPropOpt "position", pose.getPropOpt "rotation", false⟩)],
          [], 0, []⟩ [] := by
    have hget : get? [(a, (⟨a, INITIAL_POS, INITIAL_ROT, false⟩ : Player)),
        (b, ⟨b, INITIAL_POS, INITIAL_ROT, false⟩)] b =
        some ⟨b, INITIAL_POS, INITIAL_ROT, false⟩ := by
      simp [get?, hab]
    simp only [step]
    rw [player_update_alive _ b _ pose hget rfl hpose]
    simp [set, hab]
  have h4 : step (Op.tick now)
      ⟨[(a, ⟨a, INITIAL_POS, INITIAL_ROT, false⟩),
        (b, ⟨b, pose.getPropOpt "position", pose.getPropOpt "rotation", false⟩)],
        [], 0, []⟩ =
      .done
        ⟨[(a, ⟨a, INITIAL_POS, INITIAL_ROT, false⟩),
          (b, ⟨b, pose.getPropOpt "position", pose.getPropOpt "rotation", false⟩)],
          [], 0, []⟩
        [⟨.all, .game_state_update
            [(a, ⟨a, INITIAL_POS, INITIAL_ROT, false⟩),
             (b, ⟨b, pose.getPropOpt "position", pose.getPropOpt "rotation", false⟩)]⟩] := rfl
  have h5 : step (Op.player_collision b collisionData)
      ⟨[(a, ⟨a, INITIAL_POS, INITIAL_ROT, false⟩),
        (b, ⟨b, pose.getPropOpt "position", pose.getPropOpt "rotation", false⟩)],
        [], 0, []⟩ =
      .done
        ⟨[(a, ⟨a, INITIAL_POS, INITIAL_ROT, false⟩),
          (b, ⟨b, pose.getPropOpt "position", pose.getPropOpt "rotation", true⟩)],
          [], 0, [⟨b, 3000⟩]⟩
        [⟨.all, .player_exploded b (pose.getPropOpt "position")⟩] := by
    simp [step, player_collision, hlog, get?, set, hab]
  have h6 : step Op.timer
      ⟨[(a, ⟨a, INITIAL_POS, INITIAL_ROT, false⟩),
        (b, ⟨b, pose.getPropOpt "position", pose.getPropOpt "rotation", true⟩)],
        [], 0, [⟨b, 3000⟩]⟩ =
      .done
        ⟨[(a, ⟨a, INITIAL_POS, INITIAL_ROT, false⟩), (b, ⟨b, INITIAL_POS, INITIAL_ROT, false⟩)],
          [], 0, []⟩
        [⟨.only b, .player_reset ⟨b, INITIAL_POS, INITIAL_ROT, false⟩⟩,
         ⟨.others b, .player_respawned ⟨b, INITIAL_POS, INITIAL_ROT, false⟩⟩] := by
    simp [step, fireTimer, respawnCallback, get?, set, hab]
  refine ⟨?_, ?_, ?_⟩
  · rw [run_cons_done _ _ _ _ _ h1, run_cons_done _ _ _ _ _ h2, run_cons_done _ _ _ _ _ h3,
      run_cons_done _ _ _ _ _ h4, run_cons_done _ _ _ _ _ h5, run_cons_done _ _ _ _ _ h6]
    rfl
  · rw [run_cons_done _ _ _ _ _ h1, run_cons_done _ _ _ _ _ h2, run_cons_done _ _ _ _ _ h3,
      run_cons_done _ _ _ _ _ h4, run_cons_done _ _ _ _ _ h5]
    exact ⟨_, rfl⟩
  · simp [Target.receives, hab, hba]

theorem C19_end_to_end_witness :
    run [Op.connection "A", Op.connection "B", Op.player_update "B" (examplePose 4 5 6),
         Op.tick 33, Op.player_collision "B" (.obj [("type", .str "ground")]), Op.timer]
        ServerState.initial =
      some
        (⟨[("A", ⟨"A", INITIAL_POS, INITIAL_ROT, false⟩),
           ("B", ⟨"B", INITIAL_POS, INITIAL_ROT, false⟩)], [], 0, []⟩,
         [⟨.only "A", .init_self "A" [("A", ⟨"A", INITIAL_POS, INITIAL_ROT, false⟩)]⟩,
          ⟨.others "A", .player_joined ⟨"A", INITIAL_POS, INITIAL_ROT, false⟩⟩,
          ⟨.only "B", .init_self "B"
            [("A", ⟨"A", INITIAL_POS, INITIAL_ROT, false⟩),
             ("B", ⟨"B", INITIAL_POS, INITIAL_ROT, false⟩)]⟩,
          ⟨.others "B", .player_joined ⟨"B", INITIAL_POS, INITIAL_ROT, false⟩⟩,
          ⟨.all, .game_state_update
            [("A", ⟨"A", INITIAL_POS, INITIAL_ROT, false⟩),
             ("B", ⟨"B", (examplePose 4 5 6).getPropOpt "position",
                    (examplePose 4 5 6).getPropOpt "rotation", false⟩)]⟩,
          ⟨.all, .player_exploded "B" ((examplePose 4 5 6).getPropOpt "position")⟩,
          ⟨.only "B", .player_reset
            ⟨"B", .obj [("x", .num 0), ("y", .num 15), ("z", .num 0)],
              .obj [("x", .num 0), ("y", .num 0), ("z", .num 0), ("w", .num 1)], false⟩⟩,
          ⟨.others "B", .player_respawned
            ⟨"B", .obj [("x", .num 0), ("y", .num 15), ("z", .num 0)],
              .obj [("x", .num 0), ("y", .num 0), ("z", .num 0), ("w", .num 1)], false⟩⟩]) ∧
      (∃ out5,
        run [Op.connection "A", Op.connection "B", Op.player_update "B" (examplePose 4 5 6),
             Op.tick 33, Op.player_collision "B" (.obj [("type", .str "ground")])]
            ServerState.initial =
          some
            (⟨[("A", ⟨"A", INITIAL_POS, INITIAL_ROT, false⟩),
               ("B", ⟨"B", (examplePose 4 5 6).getPropOpt "position",
                      (examplePose 4 5 6).getPropOpt "rotation", true⟩)],
              [], 0, [⟨"B", 3000⟩]⟩, out5)) ∧
      Target.receives (.only "A") "A" = true ∧ Target.receives (.only "A") "B" = false ∧
      Target.receives (.others "B") "A" = true ∧ Target.receives (.others "B") "B" = false ∧
      Target.receives .all "A" = true ∧ Target.receives .all "B" = true ∧
      Target.receives (.only "B") "B" = true ∧ Target.receives (.only "B") "A" = false :=
  C19_end_to_end "A" "B" (examplePose 4 5 6) (.obj [("type", .str "ground")]) 33
    (by decide) (wellFormed_examplePose 4 5 6) rfl

/-! ## The respawn task fires only for a dead player -/

theorem explodedAt_append (id : String) (l1 l2 : List Emit) :
    explodedAt id (l1 ++ l2) = explodedAt id l1 ++ explodedAt id l2 := by
  simp [explodedAt, List.filterMap_append]

theorem explodedAt_tickLoop (id : String) (now : Int) (ids : List String) :
    ∀ (bullets : List (String × Bullet)) (out : List Emit),
      explodedAt id (tickLoop now ids bullets out).2 = explodedAt id out := by
  induction ids with
  | nil =>
    intro bullets out
    rfl
  | cons k ids ih =>
    intro bullets out
    simp only [tickLoop]
    cases hb : get? bullets k with
    | none => exact ih bullets out
    | some b =>
      by_cases hx : expired now b = true
      · simp only [hx, if_true, ih, explodedAt_append]
        simp [explodedAt]
      · simp only [if_neg hx, ih]

/-- A record that is dead after a handler was either the same dead record
before, with no `player_exploded` for it emitted by the handler, or was made
dead by this handler, which emitted exactly one `player_exploded` for it,
carrying the position of the record. -/
theorem step_dead_pose (op : Op) (s s1 : ServerState) (out : List Emit) (id : String)
    (p1 : Player) (h : step op s = .done s1 out)
    (hp1 : get? s1.players id = some p1) (hdead : p1.isDead = true) :
    (get? s.players id = some p1 ∧ explodedAt id out = []) ∨
      explodedAt id out = [p1.position] := by
  cases op with
  | connection c =>
    simp only [step, connection, Outcome.done.injEq] at h
    obtain ⟨rfl, rfl⟩ := h
    by_cases hic : id = c
    · subst hic
      rw [get?_set_self] at hp1
      cases hp1
      cases hdead
    · rw [get?_set_ne _ _ _ _ hic] at hp1
      exact Or.inl ⟨hp1, rfl⟩
  | player_update c data =>
    simp only [step, player_update] at h
    split at h
    · simp only [Outcome.done.injEq] at h
      obtain ⟨rfl, rfl⟩ := h
      exact Or.inl ⟨hp1, rfl⟩
    · split at h
      · simp only [Outcome.done.injEq] at h
        obtain ⟨rfl, rfl⟩ := h
        exact Or.inl ⟨hp1, rfl⟩
      · rename_i halive
        split at h
        · cases h
        · split at h
          · cases h
          · split at h
            · cases h
            · simp only [Outcome.done.injEq] at h
              obtain ⟨rfl, rfl⟩ := h
              by_cases hic : id = c
              · subst hic
                simp only [set_set, get?_set_self] at hp1
                cases hp1
                exact absurd hdead halive
              · simp only [get?_set_ne _ _ _ _ hic] at hp1
                exact Or.inl ⟨hp1, rfl⟩
  | player_shoot c data now =>
    simp only [step, player_shoot] at h
    split at h
    · simp only [Outcome.done.injEq] at h
      obtain ⟨rfl, rfl⟩ := h
      exact Or.inl ⟨hp1, rfl⟩
    · split at h
      · simp only [Outcome.done.injEq] at h
        obtain ⟨rfl, rfl⟩ := h
        exact Or.inl ⟨hp1, rfl⟩
      · split at h
        · cases h
        · split at h
          · cases h
          · simp only [Outcome.done.injEq] at h
            obtain ⟨rfl, rfl⟩ := h
            exact Or.inl ⟨hp1, rfl⟩
  | player_collision c data =>
    simp only [step, player_collision] at h
    split at h
    · simp only [Outcome.done.injEq] at h
      obtain ⟨rfl, rfl⟩ := h
      exact Or.inl ⟨hp1, rfl⟩
    · split at h
      · simp only [Outcome.done.injEq] at h
        obtain ⟨rfl, rfl⟩ := h
        exact Or.inl ⟨hp1, rfl⟩
      · split at h
        case h_1 => cases h
        simp only [Outcome.done.injEq] at h
        obtain ⟨rfl, rfl⟩ := h
        by_cases hic : id = c
        · subst hic
          rw [get?_set_self] at hp1
          cases hp1
          right
          simp [explodedAt]
        · rw [get?_set_ne _ _ _ _ hic] at hp1
          have hci : ¬ c = id := fun hc => hic hc.symm
          exact Or.inl ⟨hp1, by simp [explodedAt, hci]⟩
  | disconnect c =>
    simp only [step, disconnect, Outcome.done.injEq] at h
    obtain ⟨rfl, rfl⟩ := h
    by_cases hic : id = c
    · subst hic
      rw [get?_delete_self] at hp1
      cases hp1
    · rw [get?_delete_ne _ _ _ hic] at hp1
      exact Or.inl ⟨hp1, rfl⟩
  | timer =>
    simp only [step, fireTimer] at h
    split at h
    · simp only [Outcome.done.injEq] at h
      obtain ⟨rfl, rfl⟩ := h
      exact Or.inl ⟨hp1, rfl⟩
    · rename_i task rest htimers
      simp only [respawnCallback] at h
      split at h
      · simp only [Outcome.done.injEq] at h
        obtain ⟨rfl, rfl⟩ := h
        exact Or.inl ⟨hp1, rfl⟩
      · simp only [Outcome.done.injEq] at h
        obtain ⟨rfl, rfl⟩ := h
        by_cases hic : id = task.socketId
        · subst hic
          rw [get?_set_self] at hp1
          cases hp1
          cases hdead
        · rw [get?_set_ne _ _ _ _ hic] at hp1
          exact Or.inl ⟨hp1, rfl⟩
  | tick now =>
    simp only [step, tick, Outcome.done.injEq] at h
    obtain ⟨rfl, rfl⟩ := h
    refine Or.inl ⟨hp1, ?_⟩
    rw [explodedAt_append, explodedAt_tickLoop]
    rfl

/-- After every run from start-up, the position of a dead player is the
position carried by the last `player_exploded` emitted for it. -/
theorem run_dead_pose (ops : List Op) :
    ∀ (s : ServerState) (out : List Emit), run ops ServerState.initial = some (s, out) →
      ∀ id p, get? s.players id = some p → p.isDead = true →
        (explodedAt id out).getLast? = some p.position := by
  induction ops using List.reverseRecOn with
  | nil =>
    intro s out h id p hp _
    simp only [run, Option.some.injEq, Prod.mk.injEq] at h
    obtain ⟨rfl, rfl⟩ := h
    simp [ServerState.initial, get?] at hp
  | append_singleton ops op ih =>
    intro s out h id p hp hdead
    obtain ⟨t, o1, o2, hrun, hstep, rfl⟩ := run_snoc ops op ServerState.initial s out h
    rw [explodedAt_append]
    rcases step_dead_pose op t s o2 id p hstep hp hdead with ⟨hold, hnone⟩ | hnew
    · rw [hnone, List.append_nil]
      exact ih t o1 hrun id p hold hdead
    · rw [hnew]
      simp

/-- C21: after every run from start-up with fresh connection identities: a
player that is present and has a pending respawn task (in particular the
oldest one, the next to fire) is dead; so the firing of the next task leaves
the record of every live player exactly as it is; and the position of every
dead player is the position carried by the last `player_exploded` emitted for
it, that is, the position reported when its collision was accepted. -/
theorem C21_respawn_only_when_dead (ops : List Op) (s : ServerState) (out : List Emit)
    (hrun : run ops ServerState.initial = some (s, out)) (hfresh : Fresh ops) :
    (∀ t ∈ s.timers, ∀ p, get? s.players t.socketId = some p → p.isDead = true) ∧
      (∀ id p, get? s.players id = some p → p.isDead = false →
        ∃ s1 out1, fireTimer s = .done s1 out1 ∧ get? s1.players id = some p) ∧
      (∀ id p, get? s.players id = some p → p.isDead = true →
        (explodedAt id out).getLast? = some p.position) := by
  obtain ⟨_, _, _, _, _, hpend⟩ := run_freshInv ops s out hrun hfresh
  have hdeadTask : ∀ t ∈ s.timers, ∀ p, get? s.players t.socketId = some p →
      p.isDead = true := by
    intro t ht p hp
    cases hd : p.isDead with
    | true => rfl
    | false =>
      have h0 := hpend t.socketId p hp
      rw [hd] at h0
      simp only [pendingFor, Bool.false_eq_true, if_false, List.countP_eq_zero] at h0
      have := h0 t ht
      simp at this
  refine ⟨hdeadTask, ?_, run_dead_pose ops s out hrun⟩
  intro id p hp halive
  cases hts : s.timers with
  | nil => exact ⟨s, [], by simp [fireTimer, hts], hp⟩
  | cons task rest =>
    have hne : id ≠ task.socketId := by
      rintro rfl
      have := hdeadTask task (by rw [hts]; simp) p hp
      rw [halive] at this
      cases this
    cases hq : get? s.players task.socketId with
    | none =>
      have hfire : fireTimer s =
          .done ⟨s.players, s.serverBullets, s.nextBulletId, rest⟩ [] := by
        simp [fireTimer, hts, respawnCallback, hq]
      exact ⟨_, _, hfire, hp⟩
    | some q =>
      have hfire : fireTimer s =
          .done
            ⟨set s.players task.socketId ⟨q.id, INITIAL_POS, INITIAL_ROT, false⟩,
              s.serverBullets, s.nextBulletId, rest⟩
            [⟨.only task.socketId, .player_reset ⟨q.id, INITIAL_POS, INITIAL_ROT, false⟩⟩,
             ⟨.others task.socketId,
               .player_respawned ⟨q.id, INITIAL_POS, INITIAL_ROT, false⟩⟩] := by
        simp [fireTimer, hts, respawnCallback, hq]
      refine ⟨_, _, hfire, ?_⟩
      show get? (set s.players task.socketId _) id = some p
      rw [get?_set_ne _ _ _ _ hne]
      exact hp

theorem C21_respawn_only_when_dead_witness :
    ∃ s out, run exampleCrashRun ServerState.initial = some (s, out) ∧
      s.timers = [⟨"a", 3000⟩] ∧
      explodedAt "a" out = [(examplePose 1 2 3).getPropOpt "position"] ∧
      ((∀ t ∈ s.timers, ∀ p, get? s.players t.socketId = some p → p.isDead = true) ∧
        (∀ id p, get? s.players id = some p → p.isDead = false →
          ∃ s1 out1, fireTimer s = .done s1 out1 ∧ get? s1.players id = some p) ∧
        (∀ id p, get? s.players id = some p → p.isDead = true →
          (explodedAt id out).getLast? = some p.position)) :=
  ⟨_, _, rfl, rfl, rfl,
    C21_respawn_only_when_dead exampleCrashRun _ _ rfl
      (by
        show (connectedIds exampleCrashRun).Nodup
        decide)⟩

/-! ## The client: remote bullets -/

theorem readXYZ_obj (fields : List (String × JSVal)) :
    readXYZ (.obj fields) =
      .ok ⟨(JSVal.obj fields).getPropOpt "x", (JSVal.obj fields).getPropOpt "y",
        (JSVal.obj fields).getPropOpt "z"⟩ := by
  simp [readXYZ, JSVal.getProp, JSVal.getPropOpt]

theorem readXYZW_obj (fields : List (String × JSVal)) :
    readXYZW (.obj fields) =
      .ok ⟨(JSVal.obj fields).getPropOpt "x", (JSVal.obj fields).getPropOpt "y",
        (JSVal.obj fields).getPropOpt "z", (JSVal.obj fields).getPropOpt "w"⟩ := by
  simp [readXYZW, JSVal.getProp, JSVal.getPropOpt]

/-- A bullet whose id is already a key is not created again, whatever the
record is. -/
theorem createRemoteBullet_known (c : ClientState) (b : Bullet) (r : RemoteBullet)
    (h : get? c.remoteBullets b.id = some r) : createRemoteBullet b c = .ok c := by
  simp [createRemoteBullet, h]

theorem createRemoteBullet_new (c : ClientState) (b : Bullet)
    (pf vf : List (String × JSVal)) (hpos : b.position = .obj pf) (hvel : b.velocity = .obj vf)
    (h : get? c.remoteBullets b.id = none) :
    createRemoteBullet b c =
      .ok { c with
            remoteBullets :=
              c.remoteBullets ++
                [(b.id,
                  { position :=
                      ⟨b.position.getPropOpt "x", b.position.getPropOpt "y",
                        (b.position.getPropOpt "z").orDefault (.num 0)⟩,
                    velocity :=
                      ⟨(b.velocity.getPropOpt "x").orDefault (.num 0),
                        (b.velocity.getPropOpt "y").orDefault (.num 0),
                        (b.velocity.getPropOpt "z").orDefault (.num 0)⟩,
                    startTime := b.startTime, life := (b.life : ℚ) / 1000,
                    ownerId := b.ownerId })] } := by
  simp only [createRemoteBullet, h, hpos, hvel, readXYZ_obj]
  rw [set_of_absent _ _ _ h]
  rfl

/-- C23: for a `bullet_fired` record whose position and velocity are
objects: when its `ownerId` is `localPlayerId` the handler leaves the client
state unchanged; otherwise, when its id is not yet a key of `remoteBullets`,
exactly one record is added under that id, with the record's owner and start
time, the position `x`, `y` of the record and its `z` (0 when the record has
none, as `Vector3.set` keeps the new mesh's `z`), and the velocity of the
record with 0 for every component the record does not give (the defaults of
`new THREE.Vector3`); when the id is already a key the state is unchanged; and
a second `bullet_fired` with the same record after the first leaves the state
as the first left it. -/
theorem C23_bullet_dedup (c : ClientState) (b : Bullet) (pf vf : List (String × JSVal))
    (hpos : b.position = .obj pf) (hvel : b.velocity = .obj vf) :
    (c.localPlayerId = some b.ownerId → on_bullet_fired b c = .ok c) ∧
      (c.localPlayerId ≠ some b.ownerId → get? c.remoteBullets b.id = none →
        ∃ r c1, on_bullet_fired b c = .ok c1 ∧
          c1 = { c with remoteBullets := c.remoteBullets ++ [(b.id, r)] } ∧
          get? c1.remoteBullets b.id = some r ∧
          r.ownerId = b.ownerId ∧ r.startTime = b.startTime ∧
          r.position = ⟨b.position.getPropOpt "x", b.position.getPropOpt "y",
            (b.position.getPropOpt "z").orDefault (.num 0)⟩ ∧
          r.velocity = ⟨(b.velocity.getPropOpt "x").orDefault (.num 0),
            (b.velocity.getPropOpt "y").orDefault (.num 0),
            (b.velocity.getPropOpt "z").orDefault (.num 0)⟩) ∧
      (∀ r, get? c.remoteBullets b.id = some r → on_bullet_fired b c = .ok c) ∧
      ∃ c1, on_bullet_fired b c = .ok c1 ∧ on_bullet_fired b c1 = .ok c1 := by
  have hknown : ∀ r, get? c.remoteBullets b.id = some r → on_bullet_fired b c = .ok c := by
    intro r hr
    simp only [on_bullet_fired, createRemoteBullet_known c b r hr]
    split <;> rfl
  refine ⟨?_, ?_, hknown, ?_⟩
  · intro hown
    simp [on_bullet_fired, hown]
  · intro hown hnew
    have hne : some b.ownerId ≠ c.localPlayerId := fun h => hown h.symm
    refine ⟨{ position := ⟨b.position.getPropOpt "x", b.position.getPropOpt "y",
                (b.position.getPropOpt "z").orDefault (.num 0)⟩,
              velocity := ⟨(b.velocity.getPropOpt "x").orDefault (.num 0),
                (b.velocity.getPropOpt "y").orDefault (.num 0),
                (b.velocity.getPropOpt "z").orDefault (.num 0)⟩,
              startTime := b.startTime, life := (b.life : ℚ) / 1000, ownerId := b.ownerId },
      _, ?_, rfl, ?_, rfl, rfl, rfl, rfl⟩
    · simp only [on_bullet_fired, hne, ne_eq, not_false_eq_true, if_true]
      exact createRemoteBullet_new c b pf vf hpos hvel hnew
    · rw [← set_of_absent _ _ _ hnew]
      exact get?_set_self _ _ _
  · by_cases hown : c.localPlayerId = some b.ownerId
    · exact ⟨c, by simp [on_bullet_fired, hown], by simp [on_bullet_fired, hown]⟩
    · have hne : some b.ownerId ≠ c.localPlayerId := fun h => hown h.symm
      cases hget : get? c.remoteBullets b.id with
      | some r => exact ⟨c, hknown r hget, hknown r hget⟩
      | none =>
        have hfirst : on_bullet_fired b c = createRemoteBullet b c := by
          simp only [on_bullet_fired, hne, ne_eq, not_false_eq_true, if_true]
        have hsecond : ∀ c1 : ClientState, c1.localPlayerId ≠ some b.ownerId →
            on_bullet_fired b c1 = createRemoteBullet b c1 := by
          intro c1 hc1
          have hc2 : some b.ownerId ≠ c1.localPlayerId := fun h => hc1 h.symm
          simp only [on_bullet_fired, hc2, ne_eq, not_false_eq_true, if_true]
        have hnew := createRemoteBullet_new c b pf vf hpos hvel hget
        have hkey : ∀ r : RemoteBullet, get? (c.remoteBullets ++ [(b.id, r)]) b.id = some r := by
          intro r
          rw [← set_of_absent _ _ _ hget]
          exact get?_set_self _ _ _
        have hagain : ∀ r : RemoteBullet,
            on_bullet_fired b
                ⟨c.socket, c.localPlayerId, c.player, c.isGameOver, c.remotePlayers,
                  c.remoteBullets ++ [(b.id, r)]⟩ =
              .ok ⟨c.socket, c.localPlayerId, c.player, c.isGameOver, c.remotePlayers,
                  c.remoteBullets ++ [(b.id, r)]⟩ := by
          intro r
          have hloc : (⟨c.socket, c.localPlayerId, c.player, c.isGameOver, c.remotePlayers,
              c.remoteBullets ++ [(b.id, r)]⟩ : ClientState).localPlayerId ≠ some b.ownerId :=
            hown
          rw [hsecond _ hloc]
          exact createRemoteBullet_known _ b r (hkey r)
        exact ⟨_, hfirst.trans hnew, hagain _⟩

theorem C23_bullet_dedup_witness :
    (exampleClient.localPlayerId = some exampleSparseBullet.ownerId →
        on_bullet_fired exampleSparseBullet exampleClient = .ok exampleClient) ∧
      (exampleClient.localPlayerId ≠ some exampleSparseBullet.ownerId →
        get? exampleClient.remoteBullets exampleSparseBullet.id = none →
        ∃ r c1, on_bullet_fired exampleSparseBullet exampleClient = .ok c1 ∧
          c1 = { exampleClient with
                 remoteBullets :=
                   exampleClient.remoteBullets ++ [(exampleSparseBullet.id, r)] } ∧
          get? c1.remoteBullets exampleSparseBullet.id = some r ∧
          r.ownerId = exampleSparseBullet.ownerId ∧
          r.startTime = exampleSparseBullet.startTime ∧
          r.position = ⟨.num 1, .num 2, .num 0⟩ ∧
          r.velocity = ⟨.num 0, .num 0, .num 0⟩) ∧
      (∀ r, get? exampleClient.remoteBullets exampleSparseBullet.id = some r →
        on_bullet_fired exampleSparseBullet exampleClient = .ok exampleClient) ∧
      ∃ c1, on_bullet_fired exampleSparseBullet exampleClient = .ok c1 ∧
        on_bullet_fired exampleSparseBullet c1 = .ok c1 :=
  C23_bullet_dedup exampleClient exampleSparseBullet _ _ rfl rfl

theorem removeRemoteBullet_get?_self (m : List (String × RemoteBullet)) (k : String) :
    get? (removeRemoteBullet k m) k = none := by
  unfold removeRemoteBullet
  cases h : get? m k with
  | none => simpa using h
  | some r => simpa using get?_delete_self m k

theorem removeRemoteBullet_get?_ne (m : List (String × RemoteBullet)) (k j : String)
    (h : j ≠ k) : get? (removeRemoteBullet k m) j = get? m j := by
  unfold removeRemoteBullet
  cases hk : get? m k with
  | none => rfl
  | some r => simpa using get?_delete_ne m k j h

theorem removesBullet_eq_true (serverNow : Int) (active : Bool) (near : String → Bool)
    (id : String) (r : RemoteBullet) :
    removesBullet serverNow active near id r = true ↔
      ¬ (((serverNow - r.startTime : Int) : ℚ) / 1000 < r.life ∧
          ((serverNow - r.startTime : Int) : ℚ) / 1000 ≥ 0) ∨ (active && near id) = true := by
  simp only [removesBullet, Bool.or_eq_true, Bool.not_eq_true', Bool.and_eq_false_iff,
    decide_eq_false_iff_not, not_and_or]

/-- What the loop of `updateBullets` leaves under each key: a key that is
enumerated and whose bullet the loop removes is gone, every other key reads
as before. -/
theorem updateBulletsLoop_get? (serverNow : Int) (active : Bool) (near : String → Bool)
    (ids : List String) :
    ∀ (m : List (String × RemoteBullet)) (k : String),
      get? (updateBulletsLoop serverNow active near ids m) k =
        if k ∈ ids ∧ ∃ r, get? m k = some r ∧ removesBullet serverNow active near k r = true
        then none
        else get? m k := by
  induction ids with
  | nil =>
    intro m k
    simp [updateBulletsLoop]
  | cons id ids ih =>
    intro m k
    simp only [updateBulletsLoop]
    cases hb : get? m id with
    | none =>
      simp only [ih]
      by_cases hk : k = id
      · subst hk
        simp [hb]
      · simp [hk]
    | some b =>
      simp only []
      by_cases hin : ((serverNow - b.startTime : Int) : ℚ) / 1000 < b.life ∧
          ((serverNow - b.startTime : Int) : ℚ) / 1000 ≥ 0
      · rw [if_pos hin]
        by_cases hhit : (active && near id) = true
        · have hyes : removesBullet serverNow active near id b = true :=
            (removesBullet_eq_true _ _ _ _ _).mpr (Or.inr hhit)
          rw [if_pos hhit, ih]
          by_cases hk : k = id
          · subst hk
            simp [removeRemoteBullet_get?_self, hb, hyes]
          · simp [hk, removeRemoteBullet_get?_ne _ _ _ hk]
        · have hno : ¬ removesBullet serverNow active near id b = true := by
            rw [removesBullet_eq_true]
            rintro (h | h)
            · exact h hin
            · exact hhit h
          rw [if_neg hhit, ih]
          by_cases hk : k = id
          · subst hk
            simp [hb, hno]
          · simp [hk]
      · have hyes : removesBullet serverNow active near id b = true :=
          (removesBullet_eq_true _ _ _ _ _).mpr (Or.inl hin)
        rw [if_neg hin, ih]
        by_cases hk : k = id
        · subst hk
          simp [removeRemoteBullet_get?_self, hb, hyes]
        · simp [hk, removeRemoteBullet_get?_ne _ _ _ hk]

/-- What `updateBullets` does to one stored remote bullet. -/
theorem updateBullets_get? (serverNow : Int) (near : String → Bool) (c : ClientState)
    (id : String) (r : RemoteBullet) (hr : get? c.remoteBullets id = some r) :
    get? (updateBullets serverNow near c).remoteBullets id =
      if removesBullet serverNow (c.player.isSome && !c.isGameOver) near id r = true then none
      else some r := by
  have hk := mem_keys_of_get? _ _ _ hr
  simp only [updateBullets, updateBulletsLoop_get?]
  by_cases hrem : removesBullet serverNow (c.player.isSome && !c.isGameOver) near id r = true
  · simp [hk, hr, hrem]
  · simp [hr, hrem]

/-- C24: `createRemoteBullet` stores as `life` the server's `life` divided
by 1000 (5000 becomes 5) and the server's `startTime` as it is.  For a
stored remote bullet, with `e = (serverNow - startTime) / 1000`:
`updateBullets` leaves the record as it is or removes it; it keeps it only if
`0 <= e < life`; when `e >= life` or `e < 0` it removes it; and when
`0 <= e < life` it keeps it unless the local player is active and the bullet
is within the hit distance. -/
theorem C24_remote_bullet_lifetime (c : ClientState) (id : String) (r : RemoteBullet)
    (serverNow : Int) (near : String → Bool) (hr : get? c.remoteBullets id = some r) :
    (get? (updateBullets serverNow near c).remoteBullets id = some r ∨
        get? (updateBullets serverNow near c).remoteBullets id = none) ∧
      (get? (updateBullets serverNow near c).remoteBullets id = some r →
        0 ≤ ((serverNow - r.startTime : Int) : ℚ) / 1000 ∧
          ((serverNow - r.startTime : Int) : ℚ) / 1000 < r.life) ∧
      (r.life ≤ ((serverNow - r.startTime : Int) : ℚ) / 1000 ∨
          ((serverNow - r.startTime : Int) : ℚ) / 1000 < 0 →
        get? (updateBullets serverNow near c).remoteBullets id = none) ∧
      (0 ≤ ((serverNow - r.startTime : Int) : ℚ) / 1000 →
        ((serverNow - r.startTime : Int) : ℚ) / 1000 < r.life →
        (c.player.isSome && !c.isGameOver && near id) = false →
        get? (updateBullets serverNow near c).remoteBullets id = some r) ∧
      (∀ (b : Bullet) (pf vf : List (String × JSVal)) (c0 : ClientState),
        b.position = .obj pf → b.velocity = .obj vf → get? c0.remoteBullets b.id = none →
        ∃ c1 rb, createRemoteBullet b c0 = .ok c1 ∧ get? c1.remoteBullets b.id = some rb ∧
          rb.life = (b.life : ℚ) / 1000 ∧ rb.startTime = b.startTime ∧
          (b.life = 5000 → rb.life = 5)) := by
  have hget := updateBullets_get? serverNow near c id r hr
  refine ⟨?_, ?_, ?_, ?_, ?_⟩
  · rw [hget]
    split
    · exact Or.inr rfl
    · exact Or.inl rfl
  · intro hkept
    rw [hget] at hkept
    split at hkept
    · cases hkept
    · rename_i hno
      rw [removesBullet_eq_true] at hno
      have hin : ((serverNow - r.startTime : Int) : ℚ) / 1000 < r.life ∧
          ((serverNow - r.startTime : Int) : ℚ) / 1000 ≥ 0 := by
        by_contra hcon
        exact hno (Or.inl hcon)
      exact ⟨hin.2, hin.1⟩
  · intro hout
    rw [hget]
    have hrem : removesBullet serverNow (c.player.isSome && !c.isGameOver) near id r = true := by
      rw [removesBullet_eq_true]
      left
      rintro ⟨h1, h2⟩
      rcases hout with h | h
      · exact absurd h1 (not_lt.mpr h)
      · exact absurd h2 (not_le.mpr h)
    rw [if_pos hrem]
  · intro h0 h1 hmiss
    rw [hget]
    have hno : ¬ removesBullet serverNow (c.player.isSome && !c.isGameOver) near id r = true := by
      rw [removesBullet_eq_true]
      rintro (h | h)
      · exact h ⟨h1, h0⟩
      · rw [hmiss] at h
        cases h
    rw [if_neg hno]
  · intro b pf vf c0 hpos hvel hnew
    refine ⟨_,
      { position := ⟨b.position.getPropOpt "x", b.position.getPropOpt "y",
          (b.position.getPropOpt "z").orDefault (.num 0)⟩,
        velocity := ⟨(b.velocity.getPropOpt "x").orDefault (.num 0),
          (b.velocity.getPropOpt "y").orDefault (.num 0),
          (b.velocity.getPropOpt "z").orDefault (.num 0)⟩,
        startTime := b.startTime, life := (b.life : ℚ) / 1000, ownerId := b.ownerId },
      createRemoteBullet_new c0 b pf vf hpos hvel hnew, ?_, rfl, rfl, ?_⟩
    · show get? (c0.remoteBullets ++ [(b.id, _)]) b.id = some _
      rw [← set_of_absent _ _ _ hnew]
      exact get?_set_self _ _ _
    · intro h5
      show (b.life : ℚ) / 1000 = 5
      rw [h5]
      norm_num

theorem C24_remote_bullet_lifetime_witness :
    (get? (updateBullets 3000 (fun _ => false) exampleClientWithBullet).remoteBullets "bullet_0" =
          some exampleRemoteBullet ∨
        get? (updateBullets 3000 (fun _ => false) exampleClientWithBullet).remoteBullets
          "bullet_0" = none) ∧
      (get? (updateBullets 3000 (fun _ => false) exampleClientWithBullet).remoteBullets
          "bullet_0" = some exampleRemoteBullet →
        0 ≤ ((3000 - exampleRemoteBullet.startTime : Int) : ℚ) / 1000 ∧
          ((3000 - exampleRemoteBullet.startTime : Int) : ℚ) / 1000 < exampleRemoteBullet.life) ∧
      (exampleRemoteBullet.life ≤ ((3000 - exampleRemoteBullet.startTime : Int) : ℚ) / 1000 ∨
          ((3000 - exampleRemoteBullet.startTime : Int) : ℚ) / 1000 < 0 →
        get? (updateBullets 3000 (fun _ => false) exampleClientWithBullet).remoteBullets
          "bullet_0" = none) ∧
      (0 ≤ ((3000 - exampleRemoteBullet.startTime : Int) : ℚ) / 1000 →
        ((3000 - exampleRemoteBullet.startTime : Int) : ℚ) / 1000 < exampleRemoteBullet.life →
        (exampleClientWithBullet.player.isSome && !exampleClientWithBullet.isGameOver &&
          (fun _ => false) "bullet_0") = false →
        get? (updateBullets 3000 (fun _ => false) exampleClientWithBullet).remoteBullets
          "bullet_0" = some exampleRemoteBullet) ∧
      (∀ (b : Bullet) (pf vf : List (String × JSVal)) (c0 : ClientState),
        b.position = .obj pf → b.velocity = .obj vf → get? c0.remoteBullets b.id = none →
        ∃ c1 rb, createRemoteBullet b c0 = .ok c1 ∧ get? c1.remoteBullets b.id = some rb ∧
          rb.life = (b.life : ℚ) / 1000 ∧ rb.startTime = b.startTime ∧
          (b.life = 5000 → rb.life = 5)) :=
  C24_remote_bullet_lifetime exampleClientWithBullet "bullet_0" exampleRemoteBullet 3000
    (fun _ => false) rfl

/-! ## The client: one collision report per life -/

/-- While the collision flag is set, `checkCollisions` changes nothing and
sends nothing. -/
theorem checkCollisions_sent (c : ClientState) (h : collisionSent c = true) :
    checkCollisions c = (c, []) := by
  unfold collisionSent at h
  unfold checkCollisions
  cases hp : c.player with
  | none => rfl
  | some p =>
    rw [hp] at h
    simp only at h
    simp only [h]
    split
    · rfl
    · split <;> rfl

theorem lifeStep_sent (c : ClientState) (e : LifeEvent) (h : collisionSent c = true) :
    collisionSent (lifeStep c e).1 = true ∧ (lifeStep c e).2 = [] := by
  cases e with
  | gameOver value =>
    exact ⟨h, rfl⟩
  | frame y =>
    unfold collisionSent at h
    simp only [lifeStep]
    cases hp : c.player with
    | none =>
      rw [hp] at h
      cases h
    | some p =>
      rw [hp] at h
      simp only at h
      simp only []
      split
      · have hmoved : collisionSent { c with player := some { p with y := y } } = true := by
          simp [collisionSent, h]
        rw [checkCollisions_sent _ hmoved]
        exact ⟨hmoved, rfl⟩
      · exact ⟨by simp [collisionSent, hp, h], rfl⟩

theorem lifeRun_sent (events : List LifeEvent) :
    ∀ c : ClientState, collisionSent c = true →
      collisionSent (lifeRun events c).1 = true ∧ (lifeRun events c).2 = [] := by
  induction events with
  | nil =>
    intro c h
    exact ⟨h, rfl⟩
  | cons e es ih =>
    intro c h
    obtain ⟨h1, h2⟩ := lifeStep_sent c e h
    obtain ⟨h3, h4⟩ := ih _ h1
    simp only [lifeRun]
    exact ⟨h3, by rw [h2, h4]; rfl⟩

/-- What `checkCollisions` sends: nothing, leaving the state as it is, or the
one ground report, setting both flags. -/
theorem checkCollisions_cases (c : ClientState) :
    checkCollisions c = (c, []) ∨
      (∃ p, c.player = some p ∧ c.isGameOver = false ∧ c.socket = true ∧
        truthyId c.localPlayerId = true ∧ p.y ≤ GROUND_LEVEL + COLLISION_THRESHOLD ∧
        p.collisionSent = false ∧
        checkCollisions c =
          (⟨c.socket, c.localPlayerId, some ⟨p.y, p.visible, true⟩, true, c.remotePlayers,
              c.remoteBullets⟩, [groundCollision])) := by
  unfold checkCollisions
  cases hp : c.player with
  | none => exact Or.inl rfl
  | some p =>
    simp only []
    by_cases hguard : (c.isGameOver || !c.socket || !truthyId c.localPlayerId) = true
    · rw [if_pos hguard]
      exact Or.inl rfl
    · rw [if_neg hguard]
      by_cases hy : p.y ≤ GROUND_LEVEL + COLLISION_THRESHOLD
      · rw [if_pos hy]
        cases hs : p.collisionSent with
        | true => exact Or.inl (by simp)
        | false =>
          right
          simp only [Bool.or_eq_true, Bool.not_eq_true', not_or, Bool.not_eq_true,
            Bool.not_eq_false] at hguard
          exact ⟨p, rfl, hguard.1.1, hguard.1.2, hguard.2, hy, hs, by simp [groundCollision]⟩
      · rw [if_neg hy]
        exact Or.inl rfl

theorem lifeStep_length (c : ClientState) (e : LifeEvent) :
    ((lifeStep c e).2 = [] ∧ collisionSent (lifeStep c e).1 = collisionSent c) ∨
      ((lifeStep c e).2 = [groundCollision] ∧ collisionSent (lifeStep c e).1 = true) := by
  cases e with
  | gameOver value => exact Or.inl ⟨rfl, rfl⟩
  | frame y =>
    simp only [lifeStep]
    cases hp : c.player with
    | none => exact Or.inl ⟨rfl, by simp [hp]⟩
    | some p =>
      simp only []
      split
      · rcases checkCollisions_cases { c with player := some { p with y := y } } with
          h | ⟨q, hq, _, _, _, _, _, h⟩
        · rw [h]
          exact Or.inl ⟨rfl, by simp [collisionSent, hp]⟩
        · rw [h]
          exact Or.inr ⟨rfl, by simp [collisionSent]⟩
      · exact Or.inl ⟨rfl, by simp [hp]⟩

/-- In one life (no reset) at most one collision report is sent. -/
theorem lifeRun_length (events : List LifeEvent) :
    ∀ c : ClientState, (lifeRun events c).2.length ≤ 1 := by
  induction events with
  | nil =>
    intro c
    simp [lifeRun]
  | cons e es ih =>
    intro c
    simp only [lifeRun, List.length_append]
    rcases lifeStep_length c e with ⟨h1, _⟩ | ⟨h1, h2⟩
    · rw [h1]
      simpa using ih _
    · rw [h1, (lifeRun_sent es _ h2).2]
      simp

/-- C25: `checkCollisions` sends nothing and changes nothing, or it sends
exactly the one message `player_collision {type: "ground"}`; it sends only
when the local player exists, the game is not over, the socket and the local
id are set, the height is at most `GROUND_LEVEL + COLLISION_THRESHOLD`
(0.8) and `collisionSent` is false, and then it sets `collisionSent` and
`isGameOver`.  While `collisionSent` is set, every call of
`checkCollisions`, and every sequence of frames and of writes to
`isGameOver` by other handlers, sends nothing and keeps the flag; so in one
life at most one report is sent.  `resetGame` clears both flags. -/
theorem C25_one_collision_report (c : ClientState) (events : List LifeEvent) (y : ℚ) :
    (checkCollisions c = (c, []) ∨
        ∃ p, c.player = some p ∧ c.isGameOver = false ∧ c.socket = true ∧
          truthyId c.localPlayerId = true ∧ p.y ≤ 0 + 8 / 10 ∧ p.collisionSent = false ∧
          (checkCollisions c).2 = [.player_collision (.obj [("type", .str "ground")])] ∧
          (checkCollisions c).1.isGameOver = true ∧
          collisionSent (checkCollisions c).1 = true) ∧
      (collisionSent c = true → checkCollisions c = (c, [])) ∧
      (c.isGameOver = true → checkCollisions c = (c, [])) ∧
      (collisionSent c = true →
        (lifeRun events c).2 = [] ∧ collisionSent (lifeRun events c).1 = true) ∧
      (lifeRun events c).2.length ≤ 1 ∧
      (resetGame y c).isGameOver = false ∧ collisionSent (resetGame y c) = false ∧
      (resetGame y c).player.isSome = true := by
  refine ⟨?_, checkCollisions_sent c, ?_, ?_, lifeRun_length events c, ?_, ?_, ?_⟩
  · rcases checkCollisions_cases c with h | ⟨p, hp, hgo, hso, hid, hy, hs, h⟩
    · exact Or.inl h
    · right
      refine ⟨p, hp, hgo, hso, hid, ?_, hs, ?_, ?_, ?_⟩
      · simpa [GROUND_LEVEL, COLLISION_THRESHOLD] using hy
      · rw [h]
        rfl
      · rw [h]
      · rw [h]
        rfl
  · intro hgo
    unfold checkCollisions
    cases hp : c.player with
    | none => rfl
    | some p => simp [hgo]
  · intro hs
    exact ⟨(lifeRun_sent events c hs).2, (lifeRun_sent events c hs).1⟩
  · unfold resetGame resetPlayerState
    cases hp : c.player <;> simp
  · unfold resetGame resetPlayerState collisionSent
    cases hp : c.player <;> simp
  · unfold resetGame resetPlayerState
    cases hp : c.player <;> simp

/-! ## The client: reconciliation with a snapshot -/

theorem updateTarget_wellFormed (remote : RemotePlayer) (p : Player) (now : Int)
    (h : WellFormedRecord p) :
    updateTarget remote p now = .ok (reconciled p now (some remote)) := by
  obtain ⟨⟨pf, x, y, z, hpos, hx, hy, hz⟩, rf, hrot⟩ := h
  simp [updateTarget, poseLog, readXYZ, readXYZW, reconciled, snapshotPosition,
    snapshotQuaternion, JSVal.getProp, JSVal.getPropOpt, JSVal.toFixed, hpos, hrot, hx, hy, hz,
    Vector3.set, Quaternion.set, JSVal.orDefault]

theorem createPlayer_wellFormed (p : Player) (now : Int) (h : WellFormedRecord p) :
    createPlayer p now = .ok (reconciled p now none) := by
  obtain ⟨⟨pf, x, y, z, hpos, hx, hy, hz⟩, rf, hrot⟩ := h
  simp [createPlayer, readXYZ, readXYZW, reconciled, snapshotPosition, snapshotQuaternion,
    JSVal.getProp, JSVal.getPropOpt, JSVal.truthy, hpos, hrot, hx, hy, hz,
    Vector3.set, Vector3.new, Vector3.clone, Quaternion.set, Quaternion.clone,
    JSVal.orDefault]

/-- A record with the empty rotation `{}`: the group's quaternion holds four
`undefined` components, its clone, the target, is (0, 0, 0, 1). -/
theorem createPlayer_empty_rotation :
    createPlayer ⟨"e", INITIAL_POS, .obj [], false⟩ 8 =
      .ok { visible := true, position := ⟨.num 0, .num 15, .num 0⟩,
            quaternion := ⟨.undefined, .undefined, .undefined, .undefined⟩,
            targetPosition := ⟨.num 0, .num 15, .num 0⟩,
            targetQuaternion := ⟨.num 0, .num 0, .num 0, .num 1⟩, lastUpdateTime := 8 } :=
  rfl

/-- The first loop of `game_state_update` on a well-formed snapshot: it
returns, writes only `remotePlayers`, `isGameOver` and `player`, and under
each enumerated key other than the local id it leaves the reconciled
record. -/
theorem gameStateLoop_spec (S : List (String × Player)) (now : String → Int) (l : String)
    (ids : List String) :
    ∀ c : ClientState, ids.Nodup → c.localPlayerId = some l →
      (∀ k p, k ∈ ids → get? S k = some p → k ≠ l → WellFormedRecord p) →
      ∃ c1, gameStateLoop S now ids c = .ok c1 ∧ c1.localPlayerId = some l ∧
        c1.remoteBullets = c.remoteBullets ∧ c1.socket = c.socket ∧
        ∀ k, get? c1.remotePlayers k =
          if k ∈ ids ∧ k ≠ l then
            match get? S k with
            | some p => some (reconciled p (now k) (get? c.remotePlayers k))
            | none => get? c.remotePlayers k
          else get? c.remotePlayers k := by
  induction ids with
  | nil =>
    intro c _ hl _
    exact ⟨c, rfl, hl, rfl, rfl, by simp⟩
  | cons id ids ih =>
    intro c hnd hl hwf
    have hnotin : id ∉ ids := (List.nodup_cons.mp hnd).1
    have hnd1 : ids.Nodup := (List.nodup_cons.mp hnd).2
    have hwf1 : ∀ k p, k ∈ ids → get? S k = some p → k ≠ l → WellFormedRecord p :=
      fun k p hk => hwf k p (List.mem_cons_of_mem id hk)
    simp only [gameStateLoop]
    cases hS : get? S id with
    | none =>
      obtain ⟨c1, hrun, hl1, hb1, hs1, hget⟩ := ih c hnd1 hl hwf1
      refine ⟨c1, hrun, hl1, hb1, hs1, ?_⟩
      intro k
      rw [hget k]
      by_cases hk : k = id
      · subst hk
        simp [hnotin, hS]
      · simp [hk]
    | some p =>
      simp only []
      by_cases hloc : id = l
      · have hcond : ¬ (some id ≠ c.localPlayerId) := by
          rw [hl, hloc]
          simp
        rw [if_neg hcond]
        have hfinish : ∀ c2 : ClientState, c2.localPlayerId = some l →
            c2.remotePlayers = c.remotePlayers → c2.remoteBullets = c.remoteBullets →
            c2.socket = c.socket →
            ∃ c1, gameStateLoop S now ids c2 = .ok c1 ∧ c1.localPlayerId = some l ∧
              c1.remoteBullets = c.remoteBullets ∧ c1.socket = c.socket ∧
              ∀ k, get? c1.remotePlayers k =
                if k ∈ id :: ids ∧ k ≠ l then
                  match get? S k with
                  | some p => some (reconciled p (now k) (get? c.remotePlayers k))
                  | none => get? c.remotePlayers k
                else get? c.remotePlayers k := by
          intro c2 hl2 hr2 hb2 hs2
          obtain ⟨c1, hrun, hl1, hb1, hs1, hget⟩ := ih c2 hnd1 hl2 hwf1
          refine ⟨c1, hrun, hl1, hb1.trans hb2, hs1.trans hs2, ?_⟩
          intro k
          rw [hget k, hr2]
          by_cases hk : k = id
          · subst hk
            simp [hnotin, hloc]
          · simp [hk]
        cases hp : c.player with
        | none => exact hfinish c hl rfl rfl rfl
        | some q =>
          simp only []
          split
          · exact hfinish _ hl rfl rfl rfl
          · exact hfinish c hl rfl rfl rfl
      · have hcond : some id ≠ c.localPlayerId := by
          rw [hl]
          intro h
          exact hloc (Option.some.inj h)
        rw [if_pos hcond]
        have hwfp : WellFormedRecord p := hwf id p (List.mem_cons_self id ids) hS hloc
        have hfinish : ∀ r : RemotePlayer, r = reconciled p (now id) (get? c.remotePlayers id) →
            ∃ c1, gameStateLoop S now ids { c with remotePlayers := set c.remotePlayers id r } =
                .ok c1 ∧ c1.localPlayerId = some l ∧
              c1.remoteBullets = c.remoteBullets ∧ c1.socket = c.socket ∧
              ∀ k, get? c1.remotePlayers k =
                if k ∈ id :: ids ∧ k ≠ l then
                  match get? S k with
                  | some p => some (reconciled p (now k) (get? c.remotePlayers k))
                  | none => get? c.remotePlayers k
                else get? c.remotePlayers k := by
          intro r hr
          obtain ⟨c1, hrun, hl1, hb1, hs1, hget⟩ :=
            ih { c with remotePlayers := set c.remotePlayers id r } hnd1 hl hwf1
          refine ⟨c1, hrun, hl1, hb1, hs1, ?_⟩
          intro k
          rw [hget k]
          by_cases hk : k = id
          · subst hk
            simp [hnotin, hloc, hS, get?_set_self, hr]
          · simp [hk, get?_set_ne _ _ _ _ hk]
        cases hr : get? c.remotePlayers id with
        | some remote =>
          simp only [updateTarget_wellFormed remote p (now id) hwfp]
          exact hfinish _ (by rw [hr])
        | none =>
          simp only [createPlayer_wellFormed p (now id) hwfp]
          exact hfinish _ (by rw [hr])

/-- What the clean-up loop leaves under each key: an enumerated key that is
stored but not in the snapshot is gone, every other key reads as before. -/
theorem cleanupLoop_get? (S : List (String × Player)) (ids : List String) :
    ∀ (m : List (String × RemotePlayer)) (k : String),
      get? (cleanupLoop S ids m) k =
        if (decide (k ∈ ids) && (get? m k).isSome && (get? S k).isNone) = true then none
        else get? m k := by
  induction ids with
  | nil =>
    intro m k
    simp [cleanupLoop]
  | cons id ids ih =>
    intro m k
    have hstep : cleanupLoop S (id :: ids) m =
        if ((get? m id).isSome && (get? S id).isNone) = true then
          cleanupLoop S ids (delete m id)
        else cleanupLoop S ids m := by
      simp only [cleanupLoop]
      cases hm : get? m id <;> cases hS : get? S id <;> simp
    rw [hstep]
    by_cases hk : k = id
    · subst hk
      by_cases hdel : ((get? m k).isSome && (get? S k).isNone) = true
      · rw [if_pos hdel, ih, get?_delete_self]
        simp only [Bool.and_eq_true] at hdel
        simp [hdel.1, hdel.2]
      · rw [if_neg hdel, ih]
        simp only [Bool.and_eq_true, not_and, Bool.not_eq_true] at hdel
        cases hm : (get? m k).isSome with
        | false =>
          cases hmk : get? m k with
          | none => simp
          | some r =>
            rw [hmk] at hm
            cases hm
        | true => simp [hdel hm]
    · have hmem : decide (k ∈ id :: ids) = decide (k ∈ ids) := by
        simp [hk]
      rw [hmem]
      by_cases hdel : ((get? m id).isSome && (get? S id).isNone) = true
      · rw [if_pos hdel, ih, get?_delete_ne _ _ _ hk]
      · rw [if_neg hdel, ih]

theorem mem_keys_of_isSome {α : Type} (o : List (String × α)) (k : String)
    (h : (get? o k).isSome = true) : k ∈ keys o := by
  cases hget : get? o k with
  | none =>
    rw [hget] at h
    cases h
  | some v => exact mem_keys_of_get? o k v hget

theorem isSome_of_mem_keys {α : Type} (o : List (String × α)) (k : String)
    (h : k ∈ keys o) : (get? o k).isSome = true := by
  induction o with
  | nil => simp [keys] at h
  | cons e rest ih =>
    obtain ⟨k1, v1⟩ := e
    by_cases h1 : k1 = k
    · simp [get?, h1]
    · have h2 : k ∈ keys rest := by
        simp only [keys, List.map_cons, List.mem_cons] at h
        rcases h with h | h
        · exact absurd h.symm h1
        · exact h
      simpa [get?, h1] using ih h2

/-- C22: let `localPlayerId` be set to `l`, let `l` not be a key of
`remotePlayers`, and let the snapshot be an object whose records of other
players are well formed.  Then `game_state_update` returns, and afterwards
the keys of `remotePlayers` are exactly the keys of the snapshot other than
`l`: a known remote player keeps its group pose and gets the snapshot's
position and rotation as targets, `visible` equal to `!isDead` and the time
stamp `now k` read while its record is processed; an unknown one is created
with the group at the snapshot's position and rotation, `visible` equal to
`!isDead`, the target position equal to that position and the target
quaternion the `clone()` of the group's quaternion (the rotation as read,
with the constructor's defaults 0, 0, 0, 1 for components the record does not
give); a remote player that is not in the snapshot is removed.  When
`localPlayerId` is not set (`null` or empty), every snapshot is ignored: the
state is unchanged. -/
theorem C22_reconcile (c : ClientState) (S : List (String × Player)) (now : String → Int)
    (l : String)
    (hl : c.localPlayerId = some l) (hset : l ≠ "")
    (hown : get? c.remotePlayers l = none) (hobj : (keys S).Nodup)
    (hwf : ∀ k p, get? S k = some p → k ≠ l → WellFormedRecord p) :
    (∃ c1, on_game_state_update S now c = .ok c1 ∧
      (∀ k, (get? c1.remotePlayers k).isSome = true ↔ ((get? S k).isSome = true ∧ k ≠ l)) ∧
      (∀ k p r, get? S k = some p → k ≠ l → get? c.remotePlayers k = some r →
        get? c1.remotePlayers k =
          some { visible := !p.isDead, position := r.position, quaternion := r.quaternion,
                 targetPosition := snapshotPosition p,
                 targetQuaternion := snapshotQuaternion p, lastUpdateTime := now k }) ∧
      (∀ k p, get? S k = some p → k ≠ l → get? c.remotePlayers k = none →
        get? c1.remotePlayers k =
          some { visible := !p.isDead, position := snapshotPosition p,
                 quaternion := snapshotQuaternion p, targetPosition := snapshotPosition p,
                 targetQuaternion := (snapshotQuaternion p).clone,
                 lastUpdateTime := now k }) ∧
      (∀ k, get? S k = none → get? c1.remotePlayers k = none) ∧
      c1.localPlayerId = c.localPlayerId ∧ c1.remoteBullets = c.remoteBullets) ∧
    ∀ (c0 : ClientState) (S0 : List (String × Player)) (t : String → Int),
      (c0.localPlayerId = none ∨ c0.localPlayerId = some "") →
      on_game_state_update S0 t c0 = .ok c0 := by
  constructor
  · have htruthy : truthyId c.localPlayerId = true := by
      rw [hl]
      simpa [truthyId] using hset
    have hwf1 : ∀ k p, k ∈ keys S → get? S k = some p → k ≠ l → WellFormedRecord p :=
      fun k p _ => hwf k p
    obtain ⟨c1, hrun, hl1, hb1, _, hget⟩ := gameStateLoop_spec S now l (keys S) c hobj hl hwf1
    have hres : ∀ k, get? (cleanupLoop S (keys c1.remotePlayers) c1.remotePlayers) k =
        match get? S k with
        | some p =>
          if k = l then none else some (reconciled p (now k) (get? c.remotePlayers k))
        | none => none := by
      intro k
      rw [cleanupLoop_get?, hget k]
      simp only [Bool.and_eq_true, decide_eq_true_eq]
      cases hS : get? S k with
      | none =>
        have hin : ¬ (k ∈ keys S ∧ k ≠ l) := fun h => by
          have hsome := isSome_of_mem_keys S k h.1
          rw [hS] at hsome
          cases hsome
        simp only [hin, if_false]
        cases hc : get? c.remotePlayers k with
        | none => simp
        | some r =>
          have hmem : k ∈ keys c1.remotePlayers := by
            apply mem_keys_of_isSome
            rw [hget k]
            simp [hin, hc]
          simp [hmem]
      | some p =>
        have hmemS : k ∈ keys S := mem_keys_of_get? S k p hS
        by_cases hk : k = l
        · subst hk
          simp [hown]
        · simp [hmemS, hk]
    refine ⟨{ c1 with
              remotePlayers := cleanupLoop S (keys c1.remotePlayers) c1.remotePlayers },
      ?_, ?_, ?_, ?_, ?_, ?_, hb1⟩
    · simp [on_game_state_update, htruthy, hrun]
    · intro k
      show (get? (cleanupLoop S (keys c1.remotePlayers) c1.remotePlayers) k).isSome = true ↔ _
      rw [hres k]
      cases hS : get? S k with
      | none => simp
      | some p =>
        by_cases hk : k = l
        · simp [hk]
        · simp [hk]
    · intro k p r hS hk hr
      show get? (cleanupLoop S (keys c1.remotePlayers) c1.remotePlayers) k = _
      rw [hres k, hS]
      simp [hk, hr, reconciled]
    · intro k p hS hk hr
      show get? (cleanupLoop S (keys c1.remotePlayers) c1.remotePlayers) k = _
      rw [hres k, hS]
      simp [hk, hr, reconciled]
    · intro k hS
      show get? (cleanupLoop S (keys c1.remotePlayers) c1.remotePlayers) k = _
      rw [hres k, hS]
    · show c1.localPlayerId = c.localPlayerId
      rw [hl1, hl]
  · intro c0 S0 t h0
    rcases h0 with h0 | h0 <;> simp [on_game_state_update, h0, truthyId]

theorem C22_reconcile_witness :
    (∃ c1, on_game_state_update exampleSnapshot exampleClock exampleClient = .ok c1 ∧
      (∀ k, (get? c1.remotePlayers k).isSome = true ↔
        ((get? exampleSnapshot k).isSome = true ∧ k ≠ "me")) ∧
      (∀ k p r, get? exampleSnapshot k = some p → k ≠ "me" →
        get? exampleClient.remotePlayers k = some r →
        get? c1.remotePlayers k =
          some { visible := !p.isDead, position := r.position, quaternion := r.quaternion,
                 targetPosition := snapshotPosition p,
                 targetQuaternion := snapshotQuaternion p,
                 lastUpdateTime := exampleClock k }) ∧
      (∀ k p, get? exampleSnapshot k = some p → k ≠ "me" →
        get? exampleClient.remotePlayers k = none →
        get? c1.remotePlayers k =
          some { visible := !p.isDead, position := snapshotPosition p,
                 quaternion := snapshotQuaternion p, targetPosition := snapshotPosition p,
                 targetQuaternion := (snapshotQuaternion p).clone,
                 lastUpdateTime := exampleClock k }) ∧
      (∀ k, get? exampleSnapshot k = none → get? c1.remotePlayers k = none) ∧
      c1.localPlayerId = exampleClient.localPlayerId ∧
      c1.remoteBullets = exampleClient.remoteBullets) ∧
    ∀ (c0 : ClientState) (S0 : List (String × Player)) (t : String → Int),
      (c0.localPlayerId = none ∨ c0.localPlayerId = some "") →
      on_game_state_update S0 t c0 = .ok c0 :=
  C22_reconcile exampleClient exampleSnapshot exampleClock "me" rfl (by decide) rfl (by decide)
    (by
      intro k p h hk
      have hp : p = examplePlayer "d" true ∨ p = ⟨"e", INITIAL_POS, .obj [], false⟩ := by
        by_cases h1 : "me" = k
        · exact absurd h1.symm hk
        · by_cases h2 : "d" = k
          · left
            simpa [exampleSnapshot, get?, h1, h2] using h.symm
          · by_cases h3 : "e" = k
            · right
              simpa [exampleSnapshot, get?, h1, h2, h3] using h.symm
            · simp [exampleSnapshot, get?, h1, h2, h3] at h
      rcases hp with hp | hp
      · rw [hp]
        exact ⟨⟨_, 0, 15, 0, rfl, rfl, rfl, rfl⟩, _, rfl⟩
      · rw [hp]
        exact ⟨⟨_, 0, 15, 0, rfl, rfl, rfl, rfl⟩, _, rfl⟩)

theorem C25_one_collision_report_witness :
    (lifeRun [.frame (5 / 10), .gameOver false, .frame (3 / 10)] exampleLowClient).2.length ≤ 1 ∧
      (resetGame 15 exampleLowClient).isGameOver = false :=
  ⟨(C25_one_collision_report exampleLowClient
      [.frame (5 / 10), .gameOver false, .frame (3 / 10)] 15).2.2.2.2.1,
    (C25_one_collision_report exampleLowClient
      [.frame (5 / 10), .gameOver false, .frame (3 / 10)] 15).2.2.2.2.2.1⟩

end GameServer
